import Mathlib

/-!
# qt6gtk2: the legacy-widget cache, the theme notifier and the dialog adapters

A shallow embedding of `src/qt6gtk2-style/qgtkstyle_p.cpp` and
`src/qt6gtk2-qtplugin/qt6gtk2dialoghelpers.cpp`.

Conventions of the embedding.

* A pointer is a natural number, `0` is the null pointer.
* A C string is the `String` of its bytes before the terminator.
* The legacy toolkit (GTK+ 2) is not part of the repository.  Its widget
  hierarchy is an explicit value (`Gtk`); what a constructor of the toolkit
  builds inside a composite widget is a parameter (`Toolkit`), so the
  theorems about the cache hold for every such choice.
* The key strings of the cache live in an explicit heap (`Heap`) that
  counts `strdup` and `free`.
-/

namespace QGtk

/-! ## The heap of key strings -/

/-- The key strings allocated by `strdup`: `next` is the next fresh address,
`live` the addresses allocated and not yet freed, `doubleFrees` the number of
`free` calls on an address that was not live. -/
structure Heap where
  next : Nat
  live : List Nat
  doubleFrees : Nat
deriving DecidableEq, Repr

/-- The heap before any allocation; address `0` is never handed out. -/
def Heap.init : Heap := { next := 1, live := [], doubleFrees := 0 }

/-- `strdup`: a fresh address, now live. -/
def Heap.strdup (h : Heap) : Nat × Heap :=
  (h.next, { h with next := h.next + 1, live := h.next :: h.live })

/-- `free`: the address stops being live; a free of an address that is not
live is counted as a double free. -/
def Heap.free (h : Heap) (p : Nat) : Heap :=
  if p ∈ h.live then { h with live := h.live.erase p }
  else { h with doubleFrees := h.doubleFrees + 1 }

/-! ## The legacy toolkit's widget hierarchy -/

/-- A widget instance of the legacy toolkit together with the widgets packed
inside it, in the order `gtk_container_forall` visits them. -/
inductive GtkNode where
  | mk (handle : Nat) (cls : String) (container : Bool) (children : List GtkNode)
deriving Repr

/-- What a constructor of the toolkit builds: the class of the widget, whether
it is a `GtkContainer`, and the widgets it creates inside itself. -/
inductive Shape where
  | mk (cls : String) (container : Bool) (children : List Shape)
deriving Repr

/-- The part of the legacy toolkit the repository cannot see: the widgets a
composite widget of a given class creates inside itself under the current
theme. -/
structure Toolkit where
  /-- Is a widget of this class a `GtkContainer`. -/
  container : String → Bool
  /-- The widgets a new widget of this class holds from the start. -/
  internals : String → List Shape

/-- The state of the legacy toolkit. -/
structure Gtk where
  /-- Number of calls made into the toolkit so far. -/
  calls : Nat
  /-- Has `gtk_init` run. -/
  initialised : Bool
  /-- Number of widget instances created so far; the next one gets this
  number plus one as its handle, so no handle is the null pointer. -/
  created : Nat
  /-- The widgets without a parent (top levels and widgets not yet packed),
  each with everything packed inside it. -/
  roots : List GtkNode
  /-- The widgets that have been realized. -/
  realized : List Nat
  /-- Default text direction is right-to-left. -/
  rtl : Bool
  /-- Signal handlers connected with `g_signal_connect`: widget, signal, handler. -/
  handlers : List (Nat × String × String)
  /-- Object properties set with `g_object_set`. -/
  properties : List (Nat × String × String)
  /-- Menus attached to menu items by `gtk_menu_item_set_submenu`. -/
  submenus : List (Nat × Nat)
  /-- Widgets destroyed with `gtk_widget_destroy`. -/
  destroyed : List Nat
  /-- The setting `gtk-theme-name`. -/
  themeName : String
deriving Repr

/-- The toolkit before the process has touched it. -/
def Gtk.init : Gtk :=
  { calls := 0, initialised := false, created := 0, roots := [], realized := [],
    rtl := false, handlers := [], properties := [], submenus := [], destroyed := [],
    themeName := "" }

/-- Every call into the toolkit is counted. -/
def Gtk.tick (g : Gtk) : Gtk := { g with calls := g.calls + 1 }

mutual
/-- Instantiate a shape when `n` widgets exist already, the widget itself
first; the second component is the number of widgets afterwards. -/
def Shape.build : Shape → Nat → GtkNode × Nat
  | .mk cls container kids, n =>
    let r := Shape.buildAll kids (n + 1)
    (.mk (n + 1) cls container r.1, r.2)
/-- Instantiate a list of shapes, left to right. -/
def Shape.buildAll : List Shape → Nat → List GtkNode × Nat
  | [], n => ([], n)
  | s :: ss, n =>
    let r := Shape.build s n
    let rs := Shape.buildAll ss r.2
    (r.1 :: rs.1, rs.2)
end

/-- Handle of the widget at the top of a node. -/
def GtkNode.handle : GtkNode → Nat
  | .mk h _ _ _ => h

/-- Class of the widget at the top of a node. -/
def GtkNode.cls : GtkNode → String
  | .mk _ c _ _ => c

/-- Children of the widget at the top of a node. -/
def GtkNode.children : GtkNode → List GtkNode
  | .mk _ _ _ kids => kids

/-- Is the widget at the top of a node a container. -/
def GtkNode.container : GtkNode → Bool
  | .mk _ _ c _ => c

mutual
/-- Class names from the top of the node down to widget `w`, when `w` is in it. -/
def GtkNode.pathTo (w : Nat) : GtkNode → Option (List String)
  | .mk h cls _ kids =>
    if h = w then some [cls]
    else match GtkNode.pathToIn w kids with
      | some p => some (cls :: p)
      | none => none
/-- Class names down to widget `w` in the first node of the list that has it. -/
def GtkNode.pathToIn (w : Nat) : List GtkNode → Option (List String)
  | [] => none
  | n :: ns =>
    match GtkNode.pathTo w n with
    | some p => some p
    | none => GtkNode.pathToIn w ns
end

mutual
/-- The node whose top is widget `w`, when `w` is in the given node. -/
def GtkNode.find (w : Nat) : GtkNode → Option GtkNode
  | .mk h cls c kids =>
    if h = w then some (.mk h cls c kids) else GtkNode.findIn w kids
/-- The node whose top is widget `w` in the first node of the list that has it. -/
def GtkNode.findIn (w : Nat) : List GtkNode → Option GtkNode
  | [] => none
  | n :: ns =>
    match GtkNode.find w n with
    | some r => some r
    | none => GtkNode.findIn w ns
end

mutual
/-- Pack `child` as the last child of widget `p` wherever `p` occurs. -/
def GtkNode.pack (p : Nat) (child : GtkNode) : GtkNode → GtkNode
  | .mk h cls c kids =>
    if h = p then .mk h cls c (kids ++ [child])
    else .mk h cls c (GtkNode.packIn p child kids)
/-- Pack `child` under widget `p` in every node of the list. -/
def GtkNode.packIn (p : Nat) (child : GtkNode) : List GtkNode → List GtkNode
  | [] => []
  | n :: ns => GtkNode.pack p child n :: GtkNode.packIn p child ns
end

/-- Drop the first node whose top is widget `w`. -/
def GtkNode.dropRoot (w : Nat) : List GtkNode → List GtkNode
  | [] => []
  | n :: ns => if n.handle = w then ns else n :: GtkNode.dropRoot w ns

mutual
/-- Handle of the widget that has `w` among its children, `0` when there is none. -/
def GtkNode.parentOf (w : Nat) : GtkNode → Nat
  | .mk h _ _ kids =>
    if kids.any (fun k => k.handle == w) then h else GtkNode.parentIn w kids
/-- Parent of `w` in the first node of the list that knows one. -/
def GtkNode.parentIn (w : Nat) : List GtkNode → Nat
  | [] => 0
  | n :: ns =>
    let p := GtkNode.parentOf w n
    if p ≠ 0 then p else GtkNode.parentIn w ns
end

namespace Gtk

/-- The node of widget `w`. -/
def node (g : Gtk) (w : Nat) : Option GtkNode := GtkNode.findIn w g.roots

/-- Is `w` a live widget instance; the null pointer is not. -/
def isWidget (g : Gtk) (w : Nat) : Bool := w != 0 && (g.node w).isSome

/-- `gtk_init`. -/
def gtk_init (g : Gtk) : Gtk := { g.tick with initialised := true }

/-- A constructor of the toolkit for class `cls`: the new widget has no parent
yet; the toolkit decides whether it is a container and what it holds. -/
def create (tk : Toolkit) (cls : String) (g : Gtk) : Nat × Gtk :=
  let r := Shape.build (.mk cls (tk.container cls) (tk.internals cls)) g.created
  (g.created + 1, { g.tick with created := r.2, roots := g.roots ++ [r.1] })

/-- `gtk_window_new`: a new top-level window. -/
def gtk_window_new (tk : Toolkit) (g : Gtk) : Nat × Gtk := create tk "GtkWindow" g

/-- `gtk_menu_new`: the toolkit puts every menu into a top-level window of its
own; the handle returned is the menu's. -/
def gtk_menu_new (tk : Toolkit) (g : Gtk) : Nat × Gtk :=
  let r := Shape.build (.mk "GtkMenu" (tk.container "GtkMenu") (tk.internals "GtkMenu"))
    (g.created + 1)
  (g.created + 2,
    { g.tick with created := r.2
                  roots := g.roots ++ [.mk (g.created + 1) "GtkWindow" true [r.1]] })

/-- `gtk_widget_realize`. -/
def gtk_widget_realize (w : Nat) (g : Gtk) : Gtk :=
  { g.tick with realized := if w ∈ g.realized then g.realized else w :: g.realized }

/-- `gtk_widget_get_parent`, `0` for a widget without parent. -/
def gtk_widget_get_parent (w : Nat) (g : Gtk) : Nat × Gtk :=
  (GtkNode.parentIn w g.roots, g.tick)

/-- `gtk_widget_is_toplevel`: a window that has no parent. -/
def gtk_widget_is_toplevel (w : Nat) (g : Gtk) : Bool × Gtk :=
  (g.roots.any (fun n => n.handle == w && n.cls == "GtkWindow"), g.tick)

/-- `gtk_container_add`, also `gtk_menu_shell_append` and `gtk_toolbar_insert` at
the end: a widget without parent becomes the last child of `parent`; the toolkit
refuses anything else. -/
def gtk_container_add (parent child : Nat) (g : Gtk) : Gtk :=
  match g.roots.find? (fun n => n.handle == child) with
  | some n =>
    if g.isWidget parent && parent != child then
      { g.tick with roots := GtkNode.packIn parent n (GtkNode.dropRoot child g.roots) }
    else g.tick
  | none => g.tick

/-- `gtk_widget_path`: the class names from the top level down to the widget,
joined with dots. -/
def gtk_widget_path (w : Nat) (g : Gtk) : String × Gtk :=
  (".".intercalate ((GtkNode.pathToIn w g.roots).getD []), g.tick)

/-- `g_signal_connect`. -/
def g_signal_connect (w : Nat) (signal handler : String) (g : Gtk) : Gtk :=
  { g.tick with handlers := (w, signal, handler) :: g.handlers }

/-- `g_object_set` of one string property. -/
def g_object_set (w : Nat) (property value : String) (g : Gtk) : Gtk :=
  { g.tick with properties := (w, property, value) :: g.properties }

/-- `gtk_menu_item_set_submenu`. -/
def gtk_menu_item_set_submenu (item menu : Nat) (g : Gtk) : Gtk :=
  { g.tick with submenus := (item, menu) :: g.submenus }

/-- `gtk_widget_set_default_direction (GTK_TEXT_DIR_RTL)`. -/
def gtk_widget_set_default_direction (g : Gtk) : Gtk := { g.tick with rtl := true }

/-- `gtk_widget_destroy`. -/
def gtk_widget_destroy (w : Nat) (g : Gtk) : Gtk :=
  { g.tick with destroyed := w :: g.destroyed }

end Gtk

/-! ## The cache: `QHash<QHashableLatin1Literal, GtkWidget*>` -/

/-- `QHashableLatin1Literal`: the address of a key string and its bytes.  Two
keys are equal when their bytes are (`operator==` compares sizes and
`qstrcmp`), whatever their addresses. -/
structure QHashableLatin1Literal where
  data : Nat
  str : String
deriving DecidableEq, Repr

/-- One node of the hash: the key it owns and the widget it points to. -/
structure Entry where
  key : QHashableLatin1Literal
  value : Nat
deriving DecidableEq, Repr

/-- The hash, as the list of its nodes. -/
abbrev WidgetMap := List Entry

namespace WidgetMap

/-- `QHash::find`. -/
def find (m : WidgetMap) (path : String) : Option Entry :=
  List.find? (fun e => e.key.str == path) m

/-- `QHash::contains`. -/
def contains (m : WidgetMap) (path : String) : Bool := (find m path).isSome

/-- `QHash::value`: the null pointer when the key is absent. -/
def value (m : WidgetMap) (path : String) : Nat :=
  match find m path with
  | some e => e.value
  | none => 0

/-- `QHash::insert`: a node with an equal key keeps its key and gets the new
value; otherwise a new node is added. -/
def insert (m : WidgetMap) (key : QHashableLatin1Literal) (w : Nat) : WidgetMap :=
  if contains m key.str then
    List.map (fun e => if e.key.str == key.str then { e with value := w } else e) m
  else { key := key, value := w } :: m

/-- `QHash::erase` of the node found for `path`. -/
def erase (m : WidgetMap) (path : String) : WidgetMap :=
  List.eraseP (fun e => e.key.str == path) m

end WidgetMap

/-- The ids the process runs under. -/
structure Process where
  ruid : Nat
  rgid : Nat
  euid : Nat
  egid : Nat
deriving DecidableEq, Repr

/-- The process-wide state the style code works on. -/
structure St where
  /-- Real and effective ids of the process. -/
  proc : Process
  /-- Is the layout direction of the application right to left. -/
  rightToLeft : Bool
  /-- The legacy toolkit. -/
  gtk : Gtk
  /-- The key strings. -/
  heap : Heap
  /-- The static `QGtkStylePrivate::widgetMap`, `none` while it is the null pointer. -/
  widgetMap : Option WidgetMap
  /-- Messages written with `qWarning`. -/
  warnings : List String

/-- The state of a process that has not used the style yet. -/
def St.init (proc : Process) (rightToLeft : Bool) : St :=
  { proc := proc, rightToLeft := rightToLeft, gtk := Gtk.init, heap := Heap.init,
    widgetMap := none, warnings := [] }

/-- The entries of the cache; none while the hash has not been created. -/
def St.map (s : St) : WidgetMap := s.widgetMap.getD []

/-- Modelled from the spec: `gtkWidgetMap()` is declared in `qgtkstyle_p_p.h`,
which is not among the sources.  It returns the static hash and creates it, empty,
on first use (the source initialises the pointer with `nullptr` and
`cleanupGtkWidgets` tests it). -/
def gtkWidgetMap (s : St) : St :=
  match s.widgetMap with
  | some _ => s
  | none => { s with widgetMap := some [] }

/-- Run a toolkit call that returns nothing. -/
def St.call (f : Gtk → Gtk) (s : St) : St := { s with gtk := f s.gtk }

/-- Run a toolkit call that returns a value. -/
def St.ask {α : Type} (f : Gtk → α × Gtk) (s : St) : α × St :=
  ((f s.gtk).1, { s with gtk := (f s.gtk).2 })

/-- `strdup`. -/
def strdup (str : String) (s : St) : QHashableLatin1Literal × St :=
  ({ data := s.heap.strdup.1, str := str }, { s with heap := s.heap.strdup.2 })

/-- `free`. -/
def free (p : Nat) (s : St) : St := { s with heap := s.heap.free p }

/-- `gtkWidgetMap()->insert(key, widget)`. -/
def mapInsert (key : QHashableLatin1Literal) (w : Nat) (s : St) : St :=
  { gtkWidgetMap s with widgetMap := some ((gtkWidgetMap s).map.insert key w) }

/-- Source: `classPath`.  The widget path of the toolkit without a leading
`GtkWindow.` and then without a leading `GtkFixed.`, copied with `strdup`. -/
def classPath (w : Nat) (s : St) : QHashableLatin1Literal × St :=
  let r := s.ask (Gtk.gtk_widget_path w)
  let copy := r.1.data
  let copy := if "GtkWindow.".data.isPrefixOf copy then copy.drop 10 else copy
  let copy := if "GtkFixed.".data.isPrefixOf copy then copy.drop 9 else copy
  strdup (String.mk copy) r.2

/-- Source: `QGtkStylePrivate::gtkWidget`. -/
def gtkWidget (path : String) (s : St) : Nat × St :=
  let s := gtkWidgetMap s
  let widget := s.map.value path
  if widget = 0 then
    -- Theme might have rearranged widget internals
    ((gtkWidgetMap s).map.value path, gtkWidgetMap s)
  else (widget, s)

/-- Source: `QGtkStylePrivate::removeWidgetFromMap`. -/
def removeWidgetFromMap (path : String) (s : St) : St :=
  let s := gtkWidgetMap s
  match s.map.find path with
  | some e => free e.key.data { s with widgetMap := some (s.map.erase path) }
  | none => s

/-- Source: `QGtkStylePrivate::addWidgetToMap`. -/
def addWidgetToMap (w : Nat) (s : St) : St :=
  if s.gtk.isWidget w then
    let s := s.call (Gtk.gtk_widget_realize w)
    let r := classPath w s
    let s := removeWidgetFromMap r.1.str r.2
    mapInsert r.1 w s
  else s

mutual
/-- Source: `QGtkStylePrivate::addAllSubWidgets`, on the node of the widget:
the widget itself, then, when it is a container, `gtk_container_forall` over
what it holds. -/
def addAllSubWidgetsNode : GtkNode → St → St
  | .mk h _ c kids, s =>
    let s := addWidgetToMap h s
    if c then addAllSubWidgetsEach kids (s.call Gtk.tick) else s
/-- The callback of `gtk_container_forall`, child after child. -/
def addAllSubWidgetsEach : List GtkNode → St → St
  | [], s => s
  | k :: ks, s => addAllSubWidgetsEach ks (addAllSubWidgetsNode k s)
end

/-- Source: `QGtkStylePrivate::addAllSubWidgets`.  Nothing the walk calls
changes the hierarchy, so the children are those of the node the widget has
when the walk starts.  A pointer that is no live widget is neither added nor
walked. -/
def addAllSubWidgets (w : Nat) (s : St) : St :=
  match s.gtk.node w with
  | some n => if w = 0 then s else addAllSubWidgetsNode n s
  | none => s

/-- Source: `QGtkStylePrivate::setupGtkWidget`. -/
def setupGtkWidget (tk : Toolkit) (w : Nat) (s : St) : St :=
  if s.gtk.isWidget w then
    let s := gtkWidgetMap s
    let protoLayout := s.map.value "GtkContainer"
    let r : Nat × St :=
      if protoLayout = 0 then
        let f := s.ask (Gtk.create tk "GtkFixed")
        let s := f.2.call (Gtk.gtk_container_add (f.2.map.value "GtkWindow") f.1)
        let k := strdup "GtkContainer" s
        (f.1, mapInsert k.1 f.1 k.2)
      else (protoLayout, s)
    let parent := r.2.ask (Gtk.gtk_widget_get_parent w)
    let s :=
      if parent.1 = 0 then
        let top := parent.2.ask (Gtk.gtk_widget_is_toplevel w)
        if !top.1 then top.2.call (Gtk.gtk_container_add r.1 w) else top.2
      else parent.2
    s.call (Gtk.gtk_widget_realize w)
  else s

/-- Source: `QGtkStylePrivate::addWidget`. -/
def addWidget (tk : Toolkit) (w : Nat) (s : St) : St :=
  if w ≠ 0 then addAllSubWidgets w (setupGtkWidget tk w s) else s

/-- A constructor call whose result goes straight into `addWidget`. -/
def addNew (tk : Toolkit) (cls : String) (s : St) : St :=
  let r := s.ask (Gtk.create tk cls)
  addWidget tk r.1 r.2

/-- Source: `QGtkStylePrivate::initGtkMenu`. -/
def initGtkMenu (tk : Toolkit) (s : St) : St :=
  -- Create menubar
  let gtkMenuBar := s.ask (Gtk.create tk "GtkMenuBar")
  let s := setupGtkWidget tk gtkMenuBar.1 gtkMenuBar.2
  let gtkMenuBarItem := s.ask (Gtk.create tk "GtkMenuItem")
  let s := gtkMenuBarItem.2.call (Gtk.gtk_container_add gtkMenuBar.1 gtkMenuBarItem.1)
  let s := s.call (Gtk.gtk_widget_realize gtkMenuBarItem.1)
  -- Create menu
  let gtkMenu := s.ask (Gtk.gtk_menu_new tk)
  let s := gtkMenu.2.call (Gtk.gtk_menu_item_set_submenu gtkMenuBarItem.1 gtkMenu.1)
  let s := s.call (Gtk.gtk_widget_realize gtkMenu.1)
  let gtkMenuItem := s.ask (Gtk.create tk "GtkMenuItem")
  let s := gtkMenuItem.2.call (Gtk.gtk_container_add gtkMenu.1 gtkMenuItem.1)
  let s := s.call (Gtk.gtk_widget_realize gtkMenuItem.1)
  let gtkCheckMenuItem := s.ask (Gtk.create tk "GtkCheckMenuItem")
  let s := gtkCheckMenuItem.2.call (Gtk.gtk_container_add gtkMenu.1 gtkCheckMenuItem.1)
  let s := s.call (Gtk.gtk_widget_realize gtkCheckMenuItem.1)
  let gtkMenuSeparator := s.ask (Gtk.create tk "GtkSeparatorMenuItem")
  let s := gtkMenuSeparator.2.call (Gtk.gtk_container_add gtkMenu.1 gtkMenuSeparator.1)
  let s := addAllSubWidgets gtkMenuBar.1 s
  addAllSubWidgets gtkMenu.1 s

/-- Source: `QGtkStylePrivate::initGtkTreeview`.  The three columns are objects
of the toolkit, not widgets: creating and appending them is counted only. -/
def initGtkTreeview (tk : Toolkit) (s : St) : St :=
  let gtkTreeView := s.ask (Gtk.create tk "GtkTreeView")
  let s := (gtkTreeView.2.call Gtk.tick).call Gtk.tick
  let s := (s.call Gtk.tick).call Gtk.tick
  let s := (s.call Gtk.tick).call Gtk.tick
  addWidget tk gtkTreeView.1 s

/-- The loop of the rebuild branch over the old hash: the subtree of every
widget whose key has no dot is added again, and every old key is freed. -/
def rebuildEach : List Entry → St → St
  | [], s => s
  | e :: es, s =>
    let s := if !(e.key.str.data.contains '.') then addAllSubWidgets e.value s else s
    rebuildEach es (free e.key.data s)

/-- The text of the warning of the security gate. -/
def setuidWarning : String :=
  "This process is currently running setuid or setgid. GTK+ does not allow this " ++
  "therefore Qt cannot use the GTK+ integration."

/-- Source: `QGtkStylePrivate::initGtkWidgets`.  Saving and restoring the X11
error handler around `gtk_init` is left out. -/
def initGtkWidgets (tk : Toolkit) (s : St) : St :=
  -- From gtkmain.c
  if s.proc.ruid != s.proc.euid || s.proc.rgid != s.proc.egid then
    { s with warnings := setuidWarning :: s.warnings }
  else
    let s := s.call Gtk.gtk_init
    -- make a window
    let gtkWindow := s.ask (Gtk.gtk_window_new tk)
    let s := gtkWindow.2.call (Gtk.gtk_widget_realize gtkWindow.1)
    let widgetPath := strdup "GtkWindow" s
    let s := removeWidgetFromMap widgetPath.1.str widgetPath.2
    let s := mapInsert widgetPath.1 gtkWindow.1 s
    -- Make all other widgets. respect the text direction
    let s := if s.rightToLeft then s.call Gtk.gtk_widget_set_default_direction else s
    let s := gtkWidgetMap s
    if !s.map.contains "GtkButton" then
      let gtkButton := s.ask (Gtk.create tk "GtkButton")
      let s := addWidget tk gtkButton.1 gtkButton.2
      let s := s.call (Gtk.g_signal_connect gtkButton.1 "style-set" "gtkStyleSetCallback")
      let s := addNew tk "GtkToolButton" s
      let s := addNew tk "GtkArrow" s
      let s := addNew tk "GtkHButtonBox" s
      let s := addNew tk "GtkCheckButton" s
      let s := addNew tk "GtkRadioButton" s
      let s := addNew tk "GtkComboBox" s
      let s := addNew tk "GtkComboBoxEntry" s
      let entry := s.ask (Gtk.create tk "GtkEntry")
      let s := entry.2.call (Gtk.g_object_set entry.1 "im-module" "gtk-im-context-none")
      let s := addWidget tk entry.1 s
      let s := addNew tk "GtkFrame" s
      let s := addNew tk "GtkExpander" s
      let s := addNew tk "GtkStatusbar" s
      let s := addNew tk "GtkHScale" (s.call Gtk.tick)
      let s := addNew tk "GtkHScrollbar" s
      let s := addNew tk "GtkScrolledWindow" s
      let s := initGtkMenu tk s
      let s := addNew tk "GtkNotebook" s
      let s := addNew tk "GtkProgressBar" s
      let s := addNew tk "GtkSpinButton" (s.call Gtk.tick)
      let toolbar := s.ask (Gtk.create tk "GtkToolbar")
      let s := toolbar.2.call
        (Gtk.g_signal_connect toolbar.1 "notify::toolbar-style" "update_toolbar_style")
      let item := s.ask (Gtk.create tk "GtkSeparatorToolItem")
      let s := item.2.call (Gtk.gtk_container_add toolbar.1 item.1)
      let s := addWidget tk toolbar.1 s
      let s := initGtkTreeview tk s
      let s := addNew tk "GtkVScale" (s.call Gtk.tick)
      addNew tk "GtkVScrollbar" s
    else
      -- Rebuild map
      let oldMap := s.map
      let s := { s with widgetMap := some [] }
      rebuildEach oldMap s

/-- Source: `QGtkStylePrivate::cleanupGtkWidgets`. -/
def cleanupGtkWidgets (s : St) : St :=
  match s.widgetMap with
  | none => s
  | some m =>
    let s := if m.contains "GtkWindow" then s.call (Gtk.gtk_widget_destroy (m.value "GtkWindow"))
             else s
    m.foldl (fun s e => free e.key.data s) s

/-- A toolkit for running the embedding: the containers of GTK+ 2 among the
classes the cache creates, with the parts a few composite widgets hold. -/
def gtk2 : Toolkit where
  container cls :=
    cls ∈ ["GtkWindow", "GtkFixed", "GtkButton", "GtkToolButton", "GtkHButtonBox",
      "GtkCheckButton", "GtkRadioButton", "GtkComboBox", "GtkComboBoxEntry", "GtkFrame",
      "GtkExpander", "GtkStatusbar", "GtkScrolledWindow", "GtkMenuBar", "GtkMenuItem",
      "GtkMenu", "GtkCheckMenuItem", "GtkSeparatorMenuItem", "GtkNotebook", "GtkToolbar",
      "GtkSeparatorToolItem", "GtkTreeView", "GtkToggleButton"]
  internals cls :=
    if cls = "GtkToolButton" then [.mk "GtkButton" true []]
    else if cls = "GtkComboBoxEntry" then
      [.mk "GtkEntry" false [], .mk "GtkToggleButton" true [.mk "GtkArrow" false []]]
    else if cls = "GtkMenuItem" then [.mk "GtkAccelLabel" false []]
    else if cls = "GtkScrolledWindow" then
      [.mk "GtkHScrollbar" false [], .mk "GtkVScrollbar" false []]
    else if cls = "GtkTreeView" then [.mk "GtkButton" true []]
    else []

/-- A process whose real and effective ids agree. -/
def plainProcess : Process := { ruid := 1000, rgid := 1000, euid := 1000, egid := 1000 }

/-- The state after the first `initGtkWidgets` of a plain process under `gtk2`. -/
def sampleSt : St := initGtkWidgets gtk2 (St.init plainProcess false)

/-- The invariant of the key strings: no key was freed twice, the live key
strings are the keys of the cache together with the keys `pending` (allocated
and not yet inserted, or taken out and not yet freed), no address is live
twice, no two nodes have the same path, and no node holds the null pointer. -/
def Inv (pending : List Nat) (s : St) : Prop :=
  s.heap.doubleFrees = 0 ∧
  (s.map.map (fun e => e.key.data) ++ pending).Perm s.heap.live ∧
  s.heap.live.Nodup ∧
  (∀ a ∈ s.heap.live, a < s.heap.next) ∧
  (s.map.map (fun e => e.key.str)).Nodup ∧
  (∀ e ∈ s.map, e.value ≠ 0)

/-- The entry of the button is sound: the cache has the path `GtkButton`, and
a node with this path points to a live widget whose class path is `GtkButton`. -/
def ButtonKept (s : St) : Prop :=
  s.map.contains "GtkButton" = true ∧
  ∀ e ∈ s.map, e.key.str = "GtkButton" →
    s.gtk.isWidget e.value = true ∧ (classPath e.value s).1.str = "GtkButton"

/-- The nodes of the list with path `GtkButton` point to live widgets of the
state whose class path is `GtkButton`. -/
def ButtonSound (es : List Entry) (s : St) : Prop :=
  ∀ e ∈ es, e.key.str = "GtkButton" →
    s.gtk.isWidget e.value = true ∧ (classPath e.value s).1.str = "GtkButton"

/-- The part of the state the walk over the widgets leaves alone. -/
def SameWorld (s t : St) : Prop :=
  t.gtk.roots = s.gtk.roots ∧ t.proc = s.proc ∧ t.rightToLeft = s.rightToLeft

/-- A state whose next `initGtkWidgets` is a rebuild: the process passes the
gate, the key strings are balanced and the entry of the button is sound. -/
def Rebuildable (s : St) : Prop :=
  (s.proc.ruid = s.proc.euid ∧ s.proc.rgid = s.proc.egid) ∧ Inv [] s ∧ ButtonKept s

/-- A process that runs setuid: the effective user is root, the real one is not. -/
def setuidProcess : Process := { ruid := 1000, rgid := 1000, euid := 0, egid := 1000 }

/-! ## Fonts: `qt_fontToString` and `qt_fontFromString` -/

/-- `PangoStyle`. -/
inductive PangoStyle where
  | normal
  | oblique
  | italic
deriving DecidableEq, Repr

/-- `QFont::Style`. -/
inductive QFontStyle where
  | StyleNormal
  | StyleItalic
  | StyleOblique
deriving DecidableEq, Repr

/-- The fields of a `PangoFontDescription` the code touches: the size in Pango
units (a `gint`), the family (empty for `NULL`), the weight and the style. -/
structure PangoFontDescription where
  size : Int
  family : String
  weight : Nat
  style : PangoStyle
deriving DecidableEq, Repr

/-- The fields of a `QFont` the code touches.  A `qreal` is a rational number:
every finite `double` is one. -/
structure QFont where
  pointSizeF : ℚ
  family : String
  weight : Nat
  style : QFontStyle
deriving DecidableEq, Repr

/-- What `QFontInfo` resolves for a font: the point size and the family of the
font actually used. -/
structure QFontInfo where
  pointSizeF : ℚ
  family : String
deriving DecidableEq, Repr

/-- The printer and the parser of description strings of the legacy toolkit:
`pango_font_description_to_string` and `pango_font_description_from_string`. -/
structure Pango where
  to_string : PangoFontDescription → String
  from_string : String → PangoFontDescription

/-- `PANGO_SCALE`. -/
def PANGO_SCALE : Nat := 1024

/-- The steps of `QFont::Weight`, equal in number to those of `PangoWeight`:
thin, extra light, light, normal, medium, demi bold, bold, extra bold, black. -/
def weightLadder : List Nat := [100, 200, 300, 400, 500, 600, 700, 800, 900]

/-- `pango_font_description_new`. -/
def pango_font_description_new : PangoFontDescription :=
  { size := 0, family := "", weight := 400, style := PangoStyle.normal }

/-- Conversion of a `double` to `gint` (32 bits): the fraction is dropped; for a
value out of range, where the language leaves the result open, the value the
x86 conversion gives. -/
def gintOfDouble (x : ℚ) : Int :=
  if -(2 : ℚ) ^ 31 - 1 < x ∧ x < (2 : ℚ) ^ 31 then
    (if 0 ≤ x then ⌊x⌋ else -⌊-x⌋)
  else -(2 : Int) ^ 31

/-- `pango_font_description_set_size`: a negative size is refused. -/
def pango_font_description_set_size (desc : PangoFontDescription) (size : Int) :
    PangoFontDescription :=
  if 0 ≤ size then { desc with size := size } else desc

/-- The number of low bits a `float` (24 bits of mantissa) cannot keep of `n`;
the fuel bounds the bits looked at. -/
def excessBits : Nat → Nat → Nat
  | 0, _ => 0
  | fuel + 1, n => if n < 2 ^ 24 then 0 else excessBits fuel (n / 2) + 1

/-- The natural number nearest to `n` that a `float` can hold, ties to even
(for `n` below `2 ^ 88`; a `gint` is below `2 ^ 31`). -/
def roundToFloat (n : Nat) : Nat :=
  if n < 2 ^ 24 then n
  else
    let e := excessBits 64 n
    let q := n / 2 ^ e
    let r := n % 2 ^ e
    let half := 2 ^ (e - 1)
    (if half < r ∨ (r = half ∧ q % 2 = 1) then q + 1 else q) * 2 ^ e

/-- `static_cast<float>` of a `gint`, as the rational number the float is. -/
def floatOfGint (n : Int) : ℚ :=
  if 0 ≤ n then (roundToFloat n.toNat : ℚ) else -(roundToFloat (-n).toNat : ℚ)

/-- `QFont::setPointSizeF`: a size that is not positive is refused with a warning. -/
def QFont.setPointSizeF (font : QFont) (pointSize : ℚ) : QFont :=
  if pointSize ≤ 0 then font else { font with pointSizeF := pointSize }

/-- `QFont::setWeight`: the weight is bounded to 1 .. 1000. -/
def QFont.setWeight (font : QFont) (weight : Nat) : QFont :=
  { font with weight := max 1 (min weight 1000) }

/-- The ladder of comparisons of `qt_fontToString`: the `PangoWeight` set for
a `QFont` weight. -/
def pangoWeightOf (weight : Nat) : Nat :=
  if weight ≥ 900 then 900
  else if weight ≥ 800 then 800
  else if weight ≥ 700 then 700
  else if weight ≥ 600 then 600
  else if weight ≥ 500 then 500
  else if weight ≥ 400 then 400
  else if weight ≥ 300 then 300
  else if weight ≥ 200 then 200
  else 100

/-- The `PangoStyle` `qt_fontToString` sets for a `QFont` style. -/
def pangoStyleOf (style : QFontStyle) : PangoStyle :=
  if style = QFontStyle.StyleItalic then PangoStyle.italic
  else if style = QFontStyle.StyleOblique then PangoStyle.oblique
  else PangoStyle.normal

/-- The `QFont` style `qt_fontFromString` sets for a `PangoStyle`. -/
def qFontStyleOf (style : PangoStyle) : QFontStyle :=
  if style = PangoStyle.italic then QFontStyle.StyleItalic
  else if style = PangoStyle.oblique then QFontStyle.StyleOblique
  else QFontStyle.StyleNormal

/-- The description `qt_fontToString` fills in before it prints it: size,
family, weight and style are set one after the other on a new description. -/
def qt_fontDescription (info : QFont → QFontInfo) (font : QFont) : PangoFontDescription :=
  { size := (pango_font_description_set_size pango_font_description_new
      (gintOfDouble ((if font.pointSizeF > 0 then font.pointSizeF else (info font).pointSizeF)
        * PANGO_SCALE))).size
    family := (info font).family
    weight := pangoWeightOf font.weight
    style := pangoStyleOf font.style }

/-- Source: `qt_fontToString`. -/
def qt_fontToString (pango : Pango) (info : QFont → QFontInfo) (font : QFont) : String :=
  pango.to_string (qt_fontDescription info font)

/-- Source: `qt_fontFromString`; `base` is the default-constructed `QFont`. -/
def qt_fontFromString (pango : Pango) (base : QFont) (name : String) : QFont :=
  { pointSizeF :=
      (base.setPointSizeF (floatOfGint (pango.from_string name).size / PANGO_SCALE)).pointSizeF
    family := if (pango.from_string name).family ≠ "" then (pango.from_string name).family
      else base.family
    weight := (base.setWeight (pango.from_string name).weight).weight
    style := qFontStyleOf (pango.from_string name).style }

/-- A font of 16384 points and one Pango unit. -/
def hugeFont : QFont :=
  { pointSizeF := 16777217 / 1024, family := "Sans", weight := 400, style := QFontStyle.StyleNormal }

/-- A bold italic font of 10.5 points. -/
def sampleFont : QFont :=
  { pointSizeF := 21 / 2, family := "Sans", weight := 700, style := QFontStyle.StyleItalic }

/-- A font information that resolves every font to itself. -/
def plainInfo (font : QFont) : QFontInfo :=
  { pointSizeF := font.pointSizeF, family := font.family }

/-- A printer and parser that know one description only. -/
def onePango (desc : PangoFontDescription) : Pango :=
  { to_string := fun _ => "font", from_string := fun _ => desc }

/-! ## The theme: styles, palettes and `updateTheme` -/

/-- `GdkColor`: three 16-bit channels. -/
structure GdkColor where
  red : Nat
  green : Nat
  blue : Nat
deriving DecidableEq, Repr

/-- `QColor` built from three 8-bit channels. -/
structure QColor where
  red : Nat
  green : Nat
  blue : Nat
deriving DecidableEq, Repr

/-- The fields of a `GtkStyle` the code reads. -/
structure GtkStyle where
  font_desc : PangoFontDescription
  bgNormal : GdkColor
  fgNormal : GdkColor
  fgInsensitive : GdkColor
  xthickness : Int
deriving DecidableEq, Repr

/-- The theme engine of the legacy toolkit: the style a widget has in a given
state of the toolkit. -/
structure ThemeEngine where
  style : Gtk → Nat → GtkStyle

/-- The brushes of a `QPalette` the code sets. -/
structure QPalette where
  window : QColor
  button : QColor
  base : QColor
  windowText : QColor
  windowTextDisabled : QColor
  buttonText : QColor
  buttonTextDisabled : QColor
deriving DecidableEq, Repr

/-- What `updateTheme` does to the framework, in the order it does it. -/
inductive Effect where
  | pixmapCacheClear
  | setFont (font : QFont)
  | setPalette (palette : QPalette)
  | rebuild
  | setClassPalette (palette : QPalette) (className : String)
  | styleChange (widgets : List Nat)
  | updateSystemTheme
deriving DecidableEq, Repr

/-- The application around the cache. -/
structure App where
  /-- The cache, the key strings and the legacy toolkit. -/
  st : St
  /-- The static `oldTheme` of `updateTheme`. -/
  oldTheme : String
  /-- `QGtkStylePrivate::instances`. -/
  instances : List Nat
  /-- `QApplication::font()`. -/
  font : QFont
  /-- `QApplication::palette()`. -/
  palette : QPalette
  /-- `qApp->style()->standardPalette()`. -/
  standardPalette : QPalette
  /-- `qApp->desktopSettingsAware()`. -/
  desktopSettingsAware : Bool
  /-- `QApplication::allWidgets()`. -/
  widgets : List Nat
  /-- The slot invocations posted to the event queue and not yet run. -/
  queue : List String
  /-- Has `qRegisterMetaType<QGtkStylePrivate *>` run. -/
  metaTypeRegistered : Bool
  /-- What has been done to the framework so far, oldest first. -/
  trace : List Effect

/-- The application before the first theme update. -/
def App.init (st : St) (font : QFont) (palette : QPalette) : App :=
  { st := st, oldTheme := "qt_not_set", instances := [], font := font, palette := palette,
    standardPalette := palette, desktopSettingsAware := true, widgets := [], queue := [],
    metaTypeRegistered := false, trace := [] }

/-- Source: `gtkStyleSetCallback`: the update is posted to the event queue
(`Qt::QueuedConnection`), not run. -/
def gtkStyleSetCallback (app : App) : App :=
  { app with metaTypeRegistered := true, queue := app.queue ++ ["updateTheme"] }

/-- Source: `QGtkStylePrivate::getThemeName`. -/
def getThemeName (app : App) : String × App :=
  (app.st.gtk.themeName, { app with st := (app.st.call Gtk.tick).call Gtk.tick })

/-- Source: `QGtkStylePrivate::gtkStyle`: the style of the widget cached for
the path, `none` for the null pointer. -/
def gtkStyle (engine : ThemeEngine) (path : String) (s : St) : Option GtkStyle × St :=
  let s := gtkWidgetMap s
  let w := s.map.value path
  if w ≠ 0 then (some (engine.style s.gtk w), s.call Gtk.tick) else (none, s)

/-- Source: `QGtkStylePrivate::getThemeFont`.  The default-constructed `QFont`
is the font of the application; `stylePath` is the default argument of
`gtkStyle`, declared in a header that is not among the sources. -/
def getThemeFont (engine : ThemeEngine) (stylePath : String) (app : App) : QFont × App :=
  let font := app.font
  let style := gtkStyle engine stylePath app.st
  let app := { app with st := style.2 }
  match style.1 with
  | some st =>
    if app.desktopSettingsAware then
      let gtk_font := st.font_desc
      let font := font.setPointSizeF (floatOfGint gtk_font.size / PANGO_SCALE)
      let family := gtk_font.family
      let font := if family ≠ "" then { font with family := family } else font
      let font := font.setWeight gtk_font.weight
      ({ font with style := qFontStyleOf gtk_font.style }, app)
    else (font, app)
  | none => (font, app)

/-- `QColor(c.red >> 8, c.green >> 8, c.blue >> 8)`. -/
def qColorOf (c : GdkColor) : QColor :=
  { red := c.red >>> 8, green := c.green >>> 8, blue := c.blue >>> 8 }

/-- Source: `QGtkStylePrivate::gtkWidgetPalette`; `none` when `Q_ASSERT(gtkWidget)`
fails, that is when the cache has no widget for the name. -/
def gtkWidgetPalette (engine : ThemeEngine) (gtkWidgetName : String) (app : App) :
    Option (QPalette × App) :=
  let w := gtkWidget gtkWidgetName app.st
  if w.1 = 0 then none
  else
    let pal := app.palette
    let s := ((w.2.call Gtk.tick).call Gtk.tick).call Gtk.tick
    let style := engine.style w.2.gtk w.1
    let bgColor := qColorOf style.bgNormal
    let textColor := qColorOf style.fgNormal
    let disabledTextColor := qColorOf style.fgInsensitive
    some ({ pal with window := bgColor, button := bgColor, windowText := textColor,
                     windowTextDisabled := disabledTextColor, buttonText := textColor,
                     buttonTextDisabled := disabledTextColor },
      { app with st := s })

/-- `qApp->setPalette(palette, className)`. -/
def setClassPalette (palette : QPalette) (className : String) (app : App) : App :=
  { app with trace := app.trace ++ [Effect.setClassPalette palette className] }

/-- Source: `QGtkStylePrivate::applyCustomPaletteHash`; `none` when one of the
three widgets is not in the cache. -/
def applyCustomPaletteHash (engine : ThemeEngine) (app : App) : Option App :=
  match gtkWidgetPalette engine "GtkMenu" app with
  | none => none
  | some (menuPal, app) =>
    let w := gtkWidget "GtkMenu" app.st
    if w.1 = 0 then none
    else
      let bgColor := qColorOf (engine.style w.2.gtk w.1).bgNormal
      let app := { app with st := w.2.call Gtk.tick }
      let menuPal := { menuPal with base := bgColor, window := bgColor }
      let app := setClassPalette menuPal "QMenu" app
      match gtkWidgetPalette engine "GtkToolbar" app with
      | none => none
      | some (toolbarPal, app) =>
        let app := setClassPalette toolbarPal "QToolBar" app
        match gtkWidgetPalette engine "GtkMenuBar" app with
        | none => none
        | some (menuBarPal, app) => some (setClassPalette menuBarPal "QMenuBar" app)

/-- Source: `QGtkStylePrivate::getTextColorWidget`. -/
def getTextColorWidget (s : St) : Nat × St := gtkWidget "GtkEntry" s

/-- `PANGO_PIXELS`: Pango units to device units, rounded. -/
def PANGO_PIXELS (d : Int) : Int := (d + 512) / 1024

/-- Source: `QGtkStylePrivate::getSpinboxArrowSize`; `none` when the style of
the null pointer is dereferenced. -/
def getSpinboxArrowSize (engine : ThemeEngine) (s : St) : Option (Int × St) :=
  let MIN_ARROW_WIDTH : Int := 6
  let spinButton := gtkWidget "GtkSpinButton" s
  let s := spinButton.2.call Gtk.tick
  if spinButton.1 = 0 then none
  else
    let style := engine.style spinButton.2.gtk spinButton.1
    let size := style.font_desc.size
    let arrow_size := max (PANGO_PIXELS size) MIN_ARROW_WIDTH + style.xthickness
    let arrow_size := arrow_size + (arrow_size.tmod 2 + 1)
    some (arrow_size, s)

/-- The font step of `updateTheme`: the theme font is computed and applied
when it differs from the font of the application. -/
def updateFont (engine : ThemeEngine) (stylePath : String) (app : App) : App :=
  let font := getThemeFont engine stylePath app
  if font.2.font ≠ font.1 then
    { font.2 with font := font.1, trace := font.2.trace ++ [Effect.setFont font.1] }
  else font.2

/-- The body of `if (oldTheme != getThemeName())` in `updateTheme`; `none` when
`applyCustomPaletteHash` does not complete. -/
def applyTheme (tk : Toolkit) (engine : ThemeEngine) (app : App) : Option App :=
  let name := getThemeName app
  let app := { name.2 with oldTheme := name.1 }
  let newPalette := app.standardPalette
  let app := { app with palette := newPalette,
                        trace := app.trace ++ [Effect.setPalette newPalette] }
  let r : Option App :=
    if !app.instances.isEmpty then
      applyCustomPaletteHash engine
        { app with st := initGtkWidgets tk app.st, trace := app.trace ++ [Effect.rebuild] }
    else some app
  match r with
  | none => none
  | some app =>
    -- Notify all widgets that size metrics might have changed
    some { app with trace := app.trace ++ [Effect.styleChange app.widgets] }

/-- Source: `QGtkStyleUpdateScheduler::updateTheme`, with its font step
(`updateFont`) and the body of its theme comparison (`applyTheme`) written
apart; `none` when `applyCustomPaletteHash` does not complete. -/
def updateTheme (tk : Toolkit) (engine : ThemeEngine) (stylePath : String) (app : App) :
    Option App :=
  let app := { app with trace := app.trace ++ [Effect.pixmapCacheClear] }
  let app := updateFont engine stylePath app
  let name := getThemeName app
  let r : Option App :=
    if name.2.oldTheme ≠ name.1 then applyTheme tk engine name.2 else some name.2
  match r with
  | none => none
  | some app => some { app with trace := app.trace ++ [Effect.updateSystemTheme] }

/-- A theme engine that gives every widget the same style. -/
def plainEngine : ThemeEngine :=
  { style := fun _ _ =>
      { font_desc := { size := 10240, family := "Sans", weight := 400, style := PangoStyle.normal }
        bgNormal := { red := 60909, green := 60909, blue := 60909 }
        fgNormal := { red := 0, green := 0, blue := 0 }
        fgInsensitive := { red := 30000, green := 30000, blue := 30000 }
        xthickness := 2 } }

/-- A grey palette. -/
def greyPalette : QPalette :=
  { window := ⟨239, 239, 239⟩, button := ⟨239, 239, 239⟩, base := ⟨255, 255, 255⟩,
    windowText := ⟨0, 0, 0⟩, windowTextDisabled := ⟨128, 128, 128⟩, buttonText := ⟨0, 0, 0⟩,
    buttonTextDisabled := ⟨128, 128, 128⟩ }

/-- An application over the sample cache whose toolkit runs the theme `Adwaita`,
without a live style instance when `instances` is empty. -/
def sampleApp (instances : List Nat) : App :=
  { App.init { sampleSt with gtk := { sampleSt.gtk with themeName := "Adwaita" } }
      sampleFont greyPalette with instances := instances, widgets := [7, 8] }

/-- Is the effect the palette of the application being set. -/
def Effect.isSetPalette : Effect → Bool
  | .setPalette _ => true
  | _ => false

/-- Is the effect the style change sent to the widgets. -/
def Effect.isStyleChange : Effect → Bool
  | .styleChange _ => true
  | _ => false

/-- Is the effect the rebuild of the cache. -/
def Effect.isRebuild : Effect → Bool
  | .rebuild => true
  | _ => false

/-- The event loop takes the oldest posted invocation and runs it. -/
def processNext (tk : Toolkit) (engine : ThemeEngine) (stylePath : String) (app : App) :
    Option App :=
  match app.queue with
  | [] => some app
  | slot :: rest =>
    if slot = "updateTheme" then updateTheme tk engine stylePath { app with queue := rest }
    else some { app with queue := rest }

/-- Is widget `w` the widget `root` or packed somewhere inside it. -/
def Gtk.isInside (g : Gtk) (root w : Nat) : Bool :=
  match g.node root with
  | some n => (GtkNode.find w n).isSome
  | none => false

/-- The state after the first `initGtkWidgets` and one rebuild. -/
def rebuiltSt : St := initGtkWidgets gtk2 sampleSt

/-- An application whose process was refused by the security gate. -/
def refusedApp : App :=
  App.init (initGtkWidgets gtk2 (St.init setuidProcess false)) sampleFont greyPalette

/-! ## The dialog adapters -/

/-- The part of a `QUrl` the adapters use: the scheme and the path. -/
structure QUrl where
  scheme : String
  path : String
deriving DecidableEq, Repr

/-- `QUrl()`. -/
def QUrl.null : QUrl := { scheme := "", path := "" }

/-- `QUrl::isEmpty`: the URL has no data. -/
def QUrl.isEmpty (u : QUrl) : Bool := u.scheme == "" && u.path == ""

/-- `QUrl::fromLocalFile`: the empty URL for the empty string. -/
def QUrl.fromLocalFile (localFile : String) : QUrl :=
  if localFile = "" then QUrl.null else { scheme := "file", path := localFile }

/-- `QUrl::isLocalFile`. -/
def QUrl.isLocalFile (u : QUrl) : Bool := u.scheme == "file"

/-- `QUrl::toLocalFile`. -/
def QUrl.toLocalFile (u : QUrl) : String := if u.isLocalFile then u.path else ""

/-- `GTK_RESPONSE_OK`. -/
def GTK_RESPONSE_OK : Int := -5

/-- `GTK_RESPONSE_CANCEL`. -/
def GTK_RESPONSE_CANCEL : Int := -6

/-- The signals of `QGtk2Dialog`. -/
inductive DialogSignal where
  | accept
  | reject
deriving DecidableEq, Repr

/-- Source: `QGtk2Dialog::onResponse`: the signals it emits. -/
def onResponse (response : Int) : List DialogSignal :=
  if response = GTK_RESPONSE_OK then [DialogSignal.accept] else [DialogSignal.reject]

/-- A `QHash` as the list of its nodes: `QHash::value`, with the
default-constructed value for an absent key. -/
def hashValue {κ ν : Type} [DecidableEq κ] (dflt : ν) (m : List (κ × ν)) (k : κ) : ν :=
  match m.find? (fun e => e.1 == k) with
  | some e => e.2
  | none => dflt

/-- `QHash::insert`: the value of an equal key is replaced, else a node is added. -/
def hashInsert {κ ν : Type} [DecidableEq κ] (m : List (κ × ν)) (k : κ) (v : ν) : List (κ × ν) :=
  if m.any (fun e => e.1 == k) then m.map (fun e => if e.1 == k then (e.1, v) else e)
  else (k, v) :: m

/-- A `GtkFileFilter` object. -/
structure GtkFileFilter where
  handle : Nat
  name : String
  patterns : List String
deriving DecidableEq, Repr

/-- `GtkFileChooserAction`. -/
inductive GtkFileChooserAction where
  | open
  | save
  | selectFolder
  | createFolder
deriving DecidableEq, Repr

/-- The state of the legacy file chooser dialog. -/
structure GtkFileChooser where
  title : String
  localOnly : Bool
  action : GtkFileChooserAction
  selectMultiple : Bool
  overwriteConfirmation : Bool
  /-- What `gtk_file_chooser_get_current_folder` answers, `none` for `NULL`. -/
  folder : Option String
  /-- What `gtk_file_chooser_get_filenames` answers. -/
  filenames : List String
  /-- What `gtk_file_chooser_get_filename` answers. -/
  filename : Option String
  /-- What `gtk_file_chooser_get_preview_filename` answers. -/
  previewFilename : Option String
  /-- Number of filter objects created so far; handles are counted from one. -/
  created : Nat
  /-- The filter objects alive. -/
  filterObjects : List GtkFileFilter
  /-- The filters registered with the chooser. -/
  filters : List Nat
  /-- The current filter, `0` for none. -/
  filter : Nat
  previewActive : Bool
  /-- The pixbuf the preview image shows. -/
  previewImage : Option Nat
  visible : Bool
  acceptLabel : String
  rejectLabel : String
deriving DecidableEq, Repr

/-- What the repository cannot see of the legacy file chooser: how setting a
folder, a name or a file, and how showing and hiding the dialog change what it
answers. -/
structure LegacyChooser where
  set_current_folder : GtkFileChooser → String → GtkFileChooser
  set_current_name : GtkFileChooser → String → GtkFileChooser
  select_filename : GtkFileChooser → String → GtkFileChooser
  gtk_widget_show : GtkFileChooser → GtkFileChooser
  gtk_widget_hide : GtkFileChooser → GtkFileChooser

namespace GtkFileChooser

/-- `gtk_file_filter_new`. -/
def gtk_file_filter_new (g : GtkFileChooser) : Nat × GtkFileChooser :=
  (g.created + 1,
    { g with
      created := g.created + 1,
      filterObjects :=
        ({ handle := g.created + 1, name := "", patterns := [] } : GtkFileFilter) :: g.filterObjects })

/-- `gtk_file_filter_set_name`. -/
def gtk_file_filter_set_name (f : Nat) (name : String) (g : GtkFileChooser) : GtkFileChooser :=
  let set := fun (o : GtkFileFilter) => if o.handle = f then { o with name := name } else o
  { g with filterObjects := g.filterObjects.map set }

/-- `gtk_file_filter_add_pattern`. -/
def gtk_file_filter_add_pattern (f : Nat) (pattern : String) (g : GtkFileChooser) :
    GtkFileChooser :=
  let add := fun (o : GtkFileFilter) =>
    if o.handle = f then { o with patterns := o.patterns ++ [pattern] } else o
  { g with filterObjects := g.filterObjects.map add }

/-- `gtk_file_chooser_add_filter`: a filter already registered is refused; when
the current filter is not registered, the new one becomes current. -/
def gtk_file_chooser_add_filter (f : Nat) (g : GtkFileChooser) : GtkFileChooser :=
  if f ∈ g.filters then g
  else
    { g with
      filters := g.filters ++ [f],
      filter := if g.filter ∈ g.filters ++ [f] then g.filter else f }

/-- `gtk_file_chooser_remove_filter`: the chooser drops its reference, and a
current filter that is removed gives way to the first one left. -/
def gtk_file_chooser_remove_filter (f : Nat) (g : GtkFileChooser) : GtkFileChooser :=
  if f ∈ g.filters then
    { g with
      filters := g.filters.erase f,
      filterObjects := g.filterObjects.filter (fun o => o.handle != f),
      filter := if g.filter = f then (g.filters.erase f).headD 0 else g.filter }
  else g

/-- `gtk_file_chooser_set_filter`: a filter that is not registered is ignored
while others are. -/
def gtk_file_chooser_set_filter (f : Nat) (g : GtkFileChooser) : GtkFileChooser :=
  if g.filters ≠ [] ∧ f ≠ 0 ∧ f ∉ g.filters then g else { g with filter := f }

/-- `gtk_file_chooser_get_filter`. -/
def gtk_file_chooser_get_filter (g : GtkFileChooser) : Nat := g.filter

/-- The handle and the name of every filter object alive. -/
def named (g : GtkFileChooser) : List (Nat × String) :=
  g.filterObjects.map (fun o => (o.handle, o.name))

/-- Every registered filter is an object that was created. -/
def WellFormed (g : GtkFileChooser) : Prop := ∀ h ∈ g.filters, h ≠ 0 ∧ h ≤ g.created

end GtkFileChooser

/-- `QFileDialogOptions::FileMode`. -/
inductive FileMode where
  | AnyFile
  | ExistingFile
  | Directory
  | ExistingFiles
  | DirectoryOnly
deriving DecidableEq, Repr

/-- `QFileDialogOptions::AcceptMode`. -/
inductive AcceptMode where
  | AcceptOpen
  | AcceptSave
deriving DecidableEq, Repr

/-- The options object of the file dialog, read only. -/
structure QFileDialogOptions where
  windowTitle : String
  fileMode : FileMode
  acceptMode : AcceptMode
  dontConfirmOverwrite : Bool
  nameFilters : List String
  initialDirectory : QUrl
  initiallySelectedFiles : List QUrl
  initiallySelectedNameFilter : String
  /-- The label of the accept button when it was set explicitly. -/
  acceptLabel : Option String
  /-- The label of the reject button when it was set explicitly. -/
  rejectLabel : Option String
deriving DecidableEq, Repr

/-- The signals of the file dialog adapter. -/
inductive FileSignal where
  | accept
  | reject
  | filterSelected (filter : String)
  | filesSelected (files : List QUrl)
  | fileSelected (file : QUrl)
  | currentChanged (file : QUrl)
  | directoryEntered (directory : QUrl)
deriving DecidableEq, Repr

/-- `Qt6Gtk2FileDialogHelper`: the legacy dialog it wraps and its members. -/
structure FileDialog where
  gtk : GtkFileChooser
  _dir : QUrl
  _selection : List QUrl
  _filters : List (String × Nat)
  _filterNames : List (Nat × String)
  options : QFileDialogOptions
  /-- The signals emitted so far, oldest first. -/
  emitted : List FileSignal
deriving DecidableEq, Repr

/-- What the adapters take from outside the repository: the legacy chooser,
`QPlatformFileDialogHelper::cleanFilterList`, and the file system with the image
decoder (`gdk_pixbuf_new_from_file_at_size`, `none` for `NULL`). -/
structure Outside where
  legacy : LegacyChooser
  cleanFilterList : String → List String
  fileExists : String → Bool
  isFile : String → Bool
  decode : String → Nat → Nat → Option Nat

/-- `PREVIEW_WIDTH`. -/
def PREVIEW_WIDTH : Nat := 256

/-- `PREVIEW_HEIGHT`. -/
def PREVIEW_HEIGHT : Nat := 512

/-- `QString::indexOf` of a character: `-1` when it does not occur. -/
def indexOf (c : Char) : List Char → Int
  | [] => -1
  | x :: xs => if x = c then 0 else if indexOf c xs = -1 then -1 else indexOf c xs + 1

/-- `QString::left`: the whole string when `n` is negative or not below the size. -/
def left (s : String) (n : Int) : String :=
  if n < 0 ∨ n ≥ s.data.length then s else String.mk (s.data.take n.toNat)

/-- Source: `Qt6Gtk2FileDialogHelper::directory`. -/
def directory (d : FileDialog) : QUrl :=
  if !d._dir.isEmpty then d._dir
  else
    let ret := match d.gtk.folder with
      | some folder => folder
      | none => ""
    QUrl.fromLocalFile ret

/-- Source: `Qt6Gtk2FileDialogHelper::selectedFiles`. -/
def selectedFiles (d : FileDialog) : List QUrl :=
  if !d._selection.isEmpty then d._selection
  else d.gtk.filenames.map QUrl.fromLocalFile

/-- Source: `Qt6Gtk2FileDialogHelper::setDirectory`. -/
def setDirectory (out : Outside) (directory : QUrl) (d : FileDialog) : FileDialog :=
  { d with gtk := out.legacy.set_current_folder d.gtk directory.toLocalFile }

/-- `QFileInfo::path`: the text before the last slash. -/
def fileInfoPath (file : String) : String :=
  if '/' ∈ file.data then
    String.mk ((file.data.reverse.dropWhile (fun c => c != '/')).drop 1).reverse
  else "."

/-- `QFileInfo::fileName`: the text after the last slash. -/
def fileInfoName (file : String) : String :=
  String.mk (file.data.reverse.takeWhile (fun c => c != '/')).reverse

/-- Source: `Qt6Gtk2FileDialogHelper::selectFile`. -/
def selectFile (out : Outside) (filename : QUrl) (d : FileDialog) : FileDialog :=
  if d.options.acceptMode = AcceptMode.AcceptSave then
    let g := out.legacy.set_current_folder d.gtk (fileInfoPath filename.toLocalFile)
    { d with gtk := out.legacy.set_current_name g (fileInfoName filename.toLocalFile) }
  else
    { d with gtk := out.legacy.select_filename d.gtk filename.toLocalFile }

/-- Source: `Qt6Gtk2FileDialogHelper::selectNameFilter`. -/
def selectNameFilter (filter : String) (d : FileDialog) : FileDialog :=
  let gtkFilter := hashValue 0 d._filters filter
  if gtkFilter ≠ 0 then { d with gtk := d.gtk.gtk_file_chooser_set_filter gtkFilter } else d

/-- Source: `Qt6Gtk2FileDialogHelper::selectedNameFilter`. -/
def selectedNameFilter (d : FileDialog) : String :=
  let gtkFilter := d.gtk.gtk_file_chooser_get_filter
  hashValue "" d._filterNames gtkFilter

/-- The display name `setNameFilters` gives the native filter of a spec. -/
def filterDisplayName (out : Outside) (filter : String) : String :=
  let name := left filter (indexOf '(' filter.data)
  let extensions := out.cleanFilterList filter
  if name = "" then ", ".intercalate extensions else name

/-- The body of the second loop of `setNameFilters`: one native filter is
created, named, given its patterns, registered and entered in both tables. -/
def addNameFilter (out : Outside) (d : FileDialog) (filter : String) : FileDialog :=
  let r := d.gtk.gtk_file_filter_new
  let gtkFilter := r.1
  let extensions := out.cleanFilterList filter
  let g := r.2.gtk_file_filter_set_name gtkFilter (filterDisplayName out filter)
  let g := extensions.foldl (fun g ext => g.gtk_file_filter_add_pattern gtkFilter ext) g
  let g := g.gtk_file_chooser_add_filter gtkFilter
  { d with
    gtk := g,
    _filters := hashInsert d._filters filter gtkFilter,
    _filterNames := hashInsert d._filterNames gtkFilter filter }

/-- Source: `Qt6Gtk2FileDialogHelper::setNameFilters`. -/
def setNameFilters (out : Outside) (filters : List String) (d : FileDialog) : FileDialog :=
  let g := d._filters.foldl (fun g e => g.gtk_file_chooser_remove_filter e.2) d.gtk
  let d := { d with gtk := g, _filters := [], _filterNames := [] }
  filters.foldl (addNameFilter out) d

/-- Source: `gtkFileChooserAction`. -/
def gtkFileChooserAction (options : QFileDialogOptions) : GtkFileChooserAction :=
  match options.fileMode with
  | FileMode.AnyFile | FileMode.ExistingFile | FileMode.ExistingFiles =>
    if options.acceptMode = AcceptMode.AcceptOpen then GtkFileChooserAction.open
    else GtkFileChooserAction.save
  | FileMode.Directory | FileMode.DirectoryOnly =>
    if options.acceptMode = AcceptMode.AcceptOpen then GtkFileChooserAction.selectFolder
    else GtkFileChooserAction.createFolder

/-- Source: `Qt6Gtk2FileDialogHelper::applyOptions`. -/
def applyOptions (out : Outside) (d : FileDialog) : FileDialog :=
  let opts := d.options
  let d := { d with gtk := { d.gtk with title := opts.windowTitle, localOnly := true } }
  let d := { d with gtk := { d.gtk with action := gtkFileChooserAction opts } }
  let selectMultiple := opts.fileMode = FileMode.ExistingFiles
  let d := { d with gtk := { d.gtk with selectMultiple := selectMultiple } }
  let confirmOverwrite := !opts.dontConfirmOverwrite
  let d := { d with gtk := { d.gtk with overwriteConfirmation := confirmOverwrite } }
  let nameFilters := opts.nameFilters
  let d := if !nameFilters.isEmpty then setNameFilters out nameFilters d else d
  let d := if opts.initialDirectory.isLocalFile then setDirectory out opts.initialDirectory d
           else d
  let d := opts.initiallySelectedFiles.foldl (fun d filename => selectFile out filename d) d
  let initialNameFilter := opts.initiallySelectedNameFilter
  let d := if initialNameFilter ≠ "" then selectNameFilter initialNameFilter d else d
  let acceptLabel := match opts.acceptLabel with
    | some label => label
    | none => if opts.acceptMode = AcceptMode.AcceptOpen then "gtk-open" else "gtk-save"
  let rejectLabel := match opts.rejectLabel with
    | some label => label
    | none => "gtk-cancel"
  { d with gtk := { d.gtk with acceptLabel := acceptLabel, rejectLabel := rejectLabel } }

/-- Source: `QGtk2Dialog::show`, on the file chooser. -/
def dialogShow (out : Outside) (g : GtkFileChooser) : GtkFileChooser :=
  { out.legacy.gtk_widget_show g with visible := true }

/-- Source: `QGtk2Dialog::hide`, on the file chooser. -/
def dialogHide (out : Outside) (g : GtkFileChooser) : GtkFileChooser :=
  { out.legacy.gtk_widget_hide g with visible := false }

/-- Source: `Qt6Gtk2FileDialogHelper::show`; the result is `true`. -/
def fileDialogShow (out : Outside) (d : FileDialog) : Bool × FileDialog :=
  let d := { d with _dir := QUrl.null }
  let d := { d with _selection := [] }
  let d := applyOptions out d
  (true, { d with gtk := dialogShow out d.gtk })

/-- Source: `Qt6Gtk2FileDialogHelper::hide`. -/
def fileDialogHide (out : Outside) (d : FileDialog) : FileDialog :=
  let d := { d with _dir := directory d }
  let d := { d with _selection := selectedFiles d }
  { d with gtk := dialogHide out d.gtk }

/-- Source: `Qt6Gtk2FileDialogHelper::onAccepted`. -/
def onAccepted (d : FileDialog) : FileDialog :=
  let d := { d with emitted := d.emitted ++ [FileSignal.accept] }
  let filter := selectedNameFilter d
  let d := if filter = "" then { d with emitted := d.emitted ++ [FileSignal.filterSelected filter] }
           else d
  let files := selectedFiles d
  let d := { d with emitted := d.emitted ++ [FileSignal.filesSelected files] }
  match files with
  | [file] => { d with emitted := d.emitted ++ [FileSignal.fileSelected file] }
  | _ => d

/-- Source: `Qt6Gtk2FileDialogHelper::onUpdatePreview`. -/
def onUpdatePreview (out : Outside) (d : FileDialog) : FileDialog :=
  match d.gtk.previewFilename with
  | none => { d with gtk := { d.gtk with previewActive := false } }
  | some filename =>
    -- Don't attempt to open anything which isn't a regular file.
    if !out.fileExists filename || !out.isFile filename then
      { d with gtk := { d.gtk with previewActive := false } }
    else
      -- This will preserve the image's aspect ratio.
      let pixbuf := out.decode filename PREVIEW_WIDTH PREVIEW_HEIGHT
      let g := match pixbuf with
        | some p => { d.gtk with previewImage := some p }
        | none => d.gtk
      { d with gtk := { g with previewActive := pixbuf.isSome } }

/-- Source: `Qt6Gtk2FileDialogHelper::onSelectionChanged`. -/
def onSelectionChanged (d : FileDialog) : FileDialog :=
  let selection := match d.gtk.filename with
    | some filename => filename
    | none => ""
  { d with emitted := d.emitted ++ [FileSignal.currentChanged (QUrl.fromLocalFile selection)] }

/-- Source: `Qt6Gtk2FileDialogHelper::onCurrentFolderChanged`. -/
def onCurrentFolderChanged (d : FileDialog) : FileDialog :=
  { d with emitted := d.emitted ++ [FileSignal.directoryEntered (directory d)] }

/-- Source: `Qt6Gtk2FileDialogHelper::setFilter`. -/
def setFilter (out : Outside) (d : FileDialog) : FileDialog := applyOptions out d

/-- The signal is `filesSelected`. -/
def FileSignal.isFilesSelected : FileSignal → Bool
  | .filesSelected _ => true
  | _ => false

/-- The signal is `fileSelected`. -/
def FileSignal.isFileSelected : FileSignal → Bool
  | .fileSelected _ => true
  | _ => false

/-- The signal is `filterSelected`. -/
def FileSignal.isFilterSelected : FileSignal → Bool
  | .filterSelected _ => true
  | _ => false

/-- What may happen to a file dialog between `hide` and the next `show`: calls
of the adapter and any change on the side of the legacy dialog. -/
inductive HiddenStep where
  | hide
  | setDirectory (directory : QUrl)
  | selectFile (filename : QUrl)
  | setFilter
  | setNameFilters (filters : List String)
  | selectNameFilter (filter : String)
  | onAccepted
  | onSelectionChanged
  | onCurrentFolderChanged
  | onUpdatePreview
  | legacy (change : GtkFileChooser → GtkFileChooser)

/-- One step on a file dialog. -/
def HiddenStep.run (out : Outside) (d : FileDialog) : HiddenStep → FileDialog
  | .hide => fileDialogHide out d
  | .setDirectory u => QGtk.setDirectory out u d
  | .selectFile u => QGtk.selectFile out u d
  | .setFilter => QGtk.setFilter out d
  | .setNameFilters fs => QGtk.setNameFilters out fs d
  | .selectNameFilter f => QGtk.selectNameFilter f d
  | .onAccepted => QGtk.onAccepted d
  | .onSelectionChanged => QGtk.onSelectionChanged d
  | .onCurrentFolderChanged => QGtk.onCurrentFolderChanged d
  | .onUpdatePreview => QGtk.onUpdatePreview out d
  | .legacy change => { d with gtk := change d.gtk }

/-- A legacy chooser that takes what it is told and answers nothing once hidden. -/
def plainChooser : LegacyChooser :=
  { set_current_folder := fun g folder => { g with folder := some folder }
    set_current_name := fun g _ => g
    select_filename := fun g file => { g with filenames := g.filenames ++ [file] }
    gtk_widget_show := fun g => g
    gtk_widget_hide := fun g => { g with folder := none, filenames := [] } }

/-- The text between the parentheses of a spec, cut at blanks. -/
def plainClean (filter : String) : List String :=
  let inner := ((filter.data.dropWhile (fun c => c != '(')).drop 1).takeWhile (fun c => c != ')')
  ((inner.splitOn ' ').filter (fun p => !p.isEmpty)).map String.mk

/-- An outside for running the embedding: every path under `/img` is an image. -/
def plainOutside : Outside :=
  { legacy := plainChooser
    cleanFilterList := plainClean
    fileExists := fun f => List.isPrefixOf "/".data f.data
    isFile := fun f => List.isPrefixOf "/".data f.data
    decode := fun f _ _ => if List.isPrefixOf "/img".data f.data then some 1 else none }

/-- Options of an open dialog without filters. -/
def plainOptions : QFileDialogOptions :=
  { windowTitle := "Open", fileMode := FileMode.ExistingFiles, acceptMode := AcceptMode.AcceptOpen,
    dontConfirmOverwrite := false, nameFilters := [], initialDirectory := QUrl.null,
    initiallySelectedFiles := [], initiallySelectedNameFilter := "", acceptLabel := none,
    rejectLabel := none }

/-- A new legacy file chooser. -/
def newChooser : GtkFileChooser :=
  { title := "", localOnly := false, action := GtkFileChooserAction.open, selectMultiple := false,
    overwriteConfirmation := false, folder := none, filenames := [], filename := none,
    previewFilename := none, created := 0, filterObjects := [], filters := [], filter := 0,
    previewActive := false, previewImage := none, visible := false, acceptLabel := "",
    rejectLabel := "" }

/-- A new file dialog adapter. -/
def newFileDialog : FileDialog :=
  { gtk := newChooser, _dir := QUrl.null, _selection := [], _filters := [], _filterNames := [],
    options := plainOptions, emitted := [] }

/-- A shown dialog in `/home` in which the files `a` and `b` are selected. -/
def shownDialog : FileDialog :=
  { newFileDialog with
    gtk := { newChooser with folder := some "/home", filenames := ["/home/a", "/home/b"],
                             visible := true } }

/-- A shown dialog in `/home` in which nothing is selected. -/
def shownEmptyDialog : FileDialog :=
  { newFileDialog with gtk := { newChooser with folder := some "/home", visible := true } }

/-- A dialog with one name filter, which is selected. -/
def filteredDialog : FileDialog :=
  selectNameFilter "Images (*.png *.jpg)"
    (setNameFilters plainOutside ["Images (*.png *.jpg)", "(*.txt)"] newFileDialog)

/-- A shown dialog over the preview of `/img/a.png`. -/
def previewDialog : FileDialog :=
  { shownDialog with gtk := { shownDialog.gtk with previewFilename := some "/img/a.png" } }

/-- The state of the two lookup tables while `setNameFilters` enters the specs
`Q` into a dialog that had `c0` filter objects before. -/
structure TablesInverse (c0 : Nat) (Q : String → Prop) (d : FileDialog) : Prop where
  forward : ∀ s, Q s → hashValue 0 d._filters s ≠ 0 ∧ hashValue 0 d._filters s ∈ d.gtk.filters ∧
    hashValue "" d._filterNames (hashValue 0 d._filters s) = s
  filtersNew : ∀ e ∈ d._filters, Q e.1 ∧ c0 < e.2 ∧ e.2 ≤ d.gtk.created
  namesNew : ∀ e ∈ d._filterNames,
    Q e.2 ∧ c0 < e.1 ∧ e.1 ≤ d.gtk.created ∧ hashValue 0 d._filters e.2 = e.1
  wellFormed : d.gtk.WellFormed
  base : c0 ≤ d.gtk.created

/-! ## The plugin factory -/

/-- `QVersionNumber`, as `QLibraryInfo::version` gives it. -/
structure QVersionNumber where
  majorVersion : Int
  minorVersion : Int
  microVersion : Int
deriving DecidableEq, Repr

/-- The version the plugin was built against: the constants `QT_VERSION_MAJOR`,
`QT_VERSION_MINOR` and `QT_VERSION_STR` of the build. -/
structure BuiltAgainst where
  QT_VERSION_MAJOR : Int
  QT_VERSION_MINOR : Int
  QT_VERSION_STR : String
deriving DecidableEq, Repr

/-- The styles the factory makes. -/
inductive QStyle where
  | QGtkStyle
deriving DecidableEq, Repr

/-- Source: `Qt6Gtk2StylePlugin::create`: the style, `none` for `nullptr`, and
what is logged as critical. -/
def Qt6Gtk2StylePlugin.create (built : BuiltAgainst) (v : QVersionNumber) (key : String) :
    Option QStyle × List String :=
  if v.majorVersion ≠ built.QT_VERSION_MAJOR ∨ v.minorVersion ≠ built.QT_VERSION_MINOR then
    (none, ["qt6gtk2 is compiled against incompatible Qt version (" ++ built.QT_VERSION_STR
      ++ ")."])
  else if key = "gtk2" ∨ key = "qt6gtk2" ∨ key = "qt5gtk2" then (some QStyle.QGtkStyle, [])
  else (none, [])

/-! ## Equality and hash of the cache keys -/

/-- `QHashableLatin1Literal::size`: the recorded length. -/
def QHashableLatin1Literal.size (k : QHashableLatin1Literal) : Nat := k.str.length

/-- The `size` bytes at `QHashableLatin1Literal::data`; a zero byte follows them. -/
def QHashableLatin1Literal.bytes (k : QHashableLatin1Literal) : List Nat :=
  k.str.data.map Char.toNat

/-- `strcmp` on two zero-terminated byte strings: the empty list is the
terminator that follows the bytes. -/
def strcmp : List Nat → List Nat → Int
  | [], [] => 0
  | [], y :: _ => -(y : Int)
  | x :: _, [] => (x : Int)
  | x :: xs, y :: ys => if x ≠ y then (x : Int) - (y : Int) else if x = 0 then 0 else strcmp xs ys

/-- `qstrcmp` on two pointers that are not null. -/
def qstrcmp (str1 str2 : List Nat) : Int := strcmp str1 str2

/-- Source: `operator==` of `QHashableLatin1Literal`. -/
def QHashableLatin1Literal.eq (l1 l2 : QHashableLatin1Literal) : Bool :=
  l1.size == l2.size && qstrcmp l1.bytes l2.bytes == 0

/-- One round of the loop of `qHash`, on 32-bit unsigned values. -/
def qHashStep (h : Nat) (p : Nat) : Nat :=
  let h := ((h <<< 4) + p) % 2 ^ 32
  let g := h &&& 0xf0000000
  let h := if g ≠ 0 then h ^^^ (g >>> 23) else h
  h &&& (0xffffffff ^^^ g)

/-- Source: `qHash` of `QHashableLatin1Literal`: `size` rounds over the bytes. -/
def qHash (key : QHashableLatin1Literal) : Nat := key.bytes.foldl qHashStep 0

/-- A key of three bytes whose second byte is zero. -/
def zeroKeyB : QHashableLatin1Literal := { data := 1, str := String.mk ['a', Char.ofNat 0, 'b'] }

/-- A key of three bytes whose second byte is zero. -/
def zeroKeyC : QHashableLatin1Literal := { data := 2, str := String.mk ['a', Char.ofNat 0, 'c'] }

/-! ## What a rebuild keeps -/

/-- The cache has the path `k`, and the lookup of `k` gives widget `w`. -/
def Owns (k : String) (w : Nat) (s : St) : Prop :=
  s.map.contains k = true ∧ s.map.value k = w

/-- Widget `w` is the only live widget whose class path is `k`. -/
def Sole (k : String) (w : Nat) (s : St) : Prop :=
  ∀ x, s.gtk.isWidget x = true → (classPath x s).1.str = k → x = w

mutual
/-- The widgets of a node: its top and everything below. -/
def GtkNode.handles : GtkNode → List Nat
  | .mk h _ _ kids => h :: GtkNode.handlesIn kids
/-- The widgets of a list of nodes. -/
def GtkNode.handlesIn : List GtkNode → List Nat
  | [] => []
  | n :: ns => GtkNode.handles n ++ GtkNode.handlesIn ns
end

/-! ## The event loop -/

/-- Is the effect the clearing of the pixmap cache, the first step of every run
of `updateTheme`. -/
def Effect.isPixmapCacheClear : Effect → Bool
  | .pixmapCacheClear => true
  | _ => false

/-- The event loop takes `n` posted invocations, oldest first, one after the
other; `none` when a run does not complete. -/
def processEvents (tk : Toolkit) (engine : ThemeEngine) (stylePath : String) :
    Nat → App → Option App
  | 0, app => some app
  | n + 1, app =>
    match processNext tk engine stylePath app with
    | some app => processEvents tk engine stylePath n app
    | none => none

/-! ## The colour dialog -/

/-- `QColor` with its alpha channel, four 8-bit channels. -/
structure QColorA where
  red : Nat
  green : Nat
  blue : Nat
  alpha : Nat
deriving DecidableEq, Repr

/-- The state of the legacy colour selection widget: it keeps the colour and
the alpha it is given, 16 bits a channel. -/
structure GtkColorSelection where
  color : GdkColor
  alpha : Nat
  hasOpacityControl : Bool
deriving DecidableEq, Repr

namespace GtkColorSelection

/-- `gtk_color_selection_set_current_color`. -/
def gtk_color_selection_set_current_color (color : GdkColor) (g : GtkColorSelection) :
    GtkColorSelection := { g with color := color }

/-- `gtk_color_selection_get_current_color`. -/
def gtk_color_selection_get_current_color (g : GtkColorSelection) : GdkColor := g.color

/-- `gtk_color_selection_set_has_opacity_control`. -/
def gtk_color_selection_set_has_opacity_control (has : Bool) (g : GtkColorSelection) :
    GtkColorSelection := { g with hasOpacityControl := has }

/-- `gtk_color_selection_set_current_alpha`, whose argument is a `guint16`. -/
def gtk_color_selection_set_current_alpha (alpha : Nat) (g : GtkColorSelection) :
    GtkColorSelection := { g with alpha := alpha % 65536 }

/-- `gtk_color_selection_get_current_alpha`: fully opaque for a widget without
opacity control. -/
def gtk_color_selection_get_current_alpha (g : GtkColorSelection) : Nat :=
  if g.hasOpacityControl then g.alpha else 65535

end GtkColorSelection

/-- Source: `Qt6Gtk2ColorDialogHelper::setCurrentColor`; the channels of a
`GdkColor` are `guint16`. -/
def setCurrentColor (color : QColorA) (g : GtkColorSelection) : GtkColorSelection :=
  let gdkColor : GdkColor :=
    { red := (color.red <<< 8) % 65536, green := (color.green <<< 8) % 65536,
      blue := (color.blue <<< 8) % 65536 }
  let g := g.gtk_color_selection_set_current_color gdkColor
  if color.alpha < 255 then
    let g := g.gtk_color_selection_set_has_opacity_control true
    g.gtk_color_selection_set_current_alpha (color.alpha <<< 8)
  else g

/-- Source: `Qt6Gtk2ColorDialogHelper::currentColor`. -/
def currentColor (g : GtkColorSelection) : QColorA :=
  let gdkColor := g.gtk_color_selection_get_current_color
  let alpha := g.gtk_color_selection_get_current_alpha
  { red := gdkColor.red >>> 8, green := gdkColor.green >>> 8, blue := gdkColor.blue >>> 8,
    alpha := alpha >>> 8 }

/-- A new colour selection widget: white, opaque, without opacity control. -/
def newColorSelection : GtkColorSelection :=
  { color := { red := 65535, green := 65535, blue := 65535 }, alpha := 65535,
    hasOpacityControl := false }

/-- A file dialog after `setNameFilters` with a list that has the same spec twice. -/
def repeatedDialog : FileDialog :=
  setNameFilters plainOutside ["Images (*.png)", "Images (*.png)"] newFileDialog

/-! ## Theorems -/

/-! ### Lemmas on the hash -/

theorem WidgetMap.find_eq_none_iff (m : WidgetMap) (p : String) :
    m.find p = none ↔ ∀ e ∈ m, e.key.str ≠ p := by
  simp [WidgetMap.find, List.find?_eq_none]

theorem WidgetMap.contains_eq_false_iff (m : WidgetMap) (p : String) :
    m.contains p = false ↔ ∀ e ∈ m, e.key.str ≠ p := by
  simp [WidgetMap.contains, WidgetMap.find, List.find?_eq_none]

theorem WidgetMap.find_some_mem {m : WidgetMap} {p : String} {e : Entry}
    (h : m.find p = some e) : e ∈ m ∧ e.key.str = p := by
  unfold WidgetMap.find at h
  exact ⟨List.mem_of_find?_eq_some h, by simpa using List.find?_some h⟩

theorem WidgetMap.erase_cons (e : Entry) (m : WidgetMap) (p : String) :
    WidgetMap.erase (e :: m) p = if e.key.str = p then m else e :: WidgetMap.erase m p := by
  by_cases h : e.key.str = p <;> simp [WidgetMap.erase, List.eraseP_cons, h]

/-- Erasing the node of `p` leaves the nodes with other keys as they were. -/
theorem WidgetMap.filter_ne_erase (m : WidgetMap) (p : String) :
    (m.erase p).filter (fun e => decide (e.key.str ≠ p)) =
      m.filter (fun e => decide (e.key.str ≠ p)) := by
  induction m with
  | nil => rfl
  | cons e m ih =>
    rw [WidgetMap.erase_cons]
    by_cases h : e.key.str = p
    · simp [h]
    · simp only [h, if_false, List.filter_cons, ih]

/-- In a hash with one node a key, erasing the node of `p` leaves no node of `p`. -/
theorem WidgetMap.erase_no_key (m : WidgetMap) (p : String)
    (hm : (m.map (fun e => e.key.str)).Nodup) :
    ∀ e ∈ m.erase p, e.key.str ≠ p := by
  induction m with
  | nil => intro e he; simp [WidgetMap.erase] at he
  | cons a m ih =>
    rw [List.map_cons, List.nodup_cons] at hm
    rw [WidgetMap.erase_cons]
    by_cases h : a.key.str = p
    · simp only [h, if_true]
      intro e he hp
      exact hm.1 (List.mem_map.mpr ⟨e, he, by rw [hp, h]⟩)
    · simp only [h, if_false]
      intro e he
      rcases List.mem_cons.mp he with rfl | he
      · exact h
      · exact ih hm.2 e he

/-! ### The cache -/

theorem map_gtkWidgetMap (s : St) : (gtkWidgetMap s).map = s.map := by
  unfold gtkWidgetMap St.map
  cases h : s.widgetMap <;> simp [h]

theorem map_mapInsert (key : QHashableLatin1Literal) (w : Nat) (s : St) :
    (mapInsert key w s).map = s.map.insert key w := by
  rw [← map_gtkWidgetMap s]
  rfl

theorem map_removeWidgetFromMap (p : String) (s : St) :
    (removeWidgetFromMap p s).map = s.map.erase p := by
  unfold removeWidgetFromMap
  simp only [map_gtkWidgetMap]
  cases h : s.map.find p with
  | none =>
    simp only [map_gtkWidgetMap]
    have : ∀ e ∈ s.map, e.key.str ≠ p := (WidgetMap.find_eq_none_iff _ _).mp h
    unfold WidgetMap.erase
    rw [List.eraseP_of_forall_not]
    intro e he
    simpa using this e he
  | some e => simp [free, St.map]

theorem classPath_str_realize (w v : Nat) (s : St) :
    (classPath w (s.call (Gtk.gtk_widget_realize v))).1.str = (classPath w s).1.str := rfl

theorem classPath_map (w : Nat) (s : St) : (classPath w s).2.map = s.map := rfl

/-- C1: for a cache with one node a key and a live widget `w` whose class path
is `p`, `addWidgetToMap w` removes the node of `p` when there is one, frees its
key, and only then inserts the new node; afterwards exactly one node has key
`p`, the lookup of `p` gives `w`, and the nodes with other keys are unchanged. -/
theorem addWidgetToMap_one_entry (s : St) (w : Nat) (p : String)
    (hw : s.gtk.isWidget w = true)
    (hp : (classPath w s).1.str = p)
    (hm : (s.map.map (fun e => e.key.str)).Nodup) :
    let r := classPath w (s.call (Gtk.gtk_widget_realize w))
    let mid := removeWidgetFromMap p r.2
    let s' := addWidgetToMap w s
    s' = mapInsert r.1 w mid ∧
    (∀ e, s.map.find p = some e → e ∉ mid.map ∧ mid.heap = r.2.heap.free e.key.data) ∧
    (s.map.find p = none → mid.heap = r.2.heap) ∧
    mid.map.contains p = false ∧
    (s'.map.filter (fun e => decide (e.key.str = p))).length = 1 ∧
    (gtkWidget p s').1 = w ∧
    s'.map.filter (fun e => decide (e.key.str ≠ p)) =
      s.map.filter (fun e => decide (e.key.str ≠ p)) := by
  intro r mid s'
  have hr : r.1.str = p := by rw [← hp]; rfl
  have hrm : r.2.map = s.map := rfl
  have hmid : mid.map = s.map.erase p := by
    show (removeWidgetFromMap p r.2).map = _
    rw [map_removeWidgetFromMap, hrm]
  have hno : ∀ e ∈ mid.map, e.key.str ≠ p := by
    rw [hmid]; exact WidgetMap.erase_no_key _ _ hm
  have hc : mid.map.contains p = false := (WidgetMap.contains_eq_false_iff _ _).mpr hno
  have hs' : s' = mapInsert r.1 w mid := by
    show addWidgetToMap w s = _
    unfold addWidgetToMap
    rw [if_pos hw]
    show mapInsert r.1 w (removeWidgetFromMap r.1.str r.2) = _
    rw [hr]
  have hmap : s'.map = { key := r.1, value := w } :: mid.map := by
    rw [hs', map_mapInsert, WidgetMap.insert, hr, hc]; rfl
  refine ⟨hs', ?_, ?_, hc, ?_, ?_, ?_⟩
  · intro e he
    have hfind : (gtkWidgetMap r.2).map.find p = some e := by
      rw [map_gtkWidgetMap, hrm]; exact he
    refine ⟨fun hmem => hno e hmem (WidgetMap.find_some_mem he).2, ?_⟩
    show (removeWidgetFromMap p r.2).heap = _
    unfold removeWidgetFromMap
    simp only [hfind]
    cases hwm : r.2.widgetMap <;> simp [free, gtkWidgetMap, hwm]
  · intro he
    have hfind : (gtkWidgetMap r.2).map.find p = none := by
      rw [map_gtkWidgetMap, hrm]; exact he
    show (removeWidgetFromMap p r.2).heap = _
    unfold removeWidgetFromMap
    simp only [hfind]
    cases hwm : r.2.widgetMap <;> simp [gtkWidgetMap, hwm]
  · rw [hmap, List.filter_cons]
    simp only [hr, decide_True, if_true, List.length_cons]
    rw [List.filter_eq_nil_iff.mpr]
    · rfl
    · intro e he; simpa using hno e he
  · unfold gtkWidget
    simp only [map_gtkWidgetMap, hmap, WidgetMap.value, WidgetMap.find, List.find?_cons, hr,
      beq_self_eq_true]
    by_cases hw0 : w = 0 <;> simp [hw0]
  · rw [hmap, List.filter_cons]
    simp only [hr, ne_eq, not_true_eq_false, decide_False, Bool.false_eq_true, if_false]
    rw [hmid]
    exact WidgetMap.filter_ne_erase _ _

/-- C1 at the button of the sample state, whose key `GtkButton` is already in
the cache. -/
theorem addWidgetToMap_one_entry_witness :
    sampleSt.gtk.isWidget 2 = true ∧ sampleSt.map.contains "GtkButton" = true ∧
    (gtkWidget "GtkButton" (addWidgetToMap 2 sampleSt)).1 = 2 :=
  ⟨by decide!, by decide!,
    (addWidgetToMap_one_entry sampleSt 2 "GtkButton" (by decide!) (by decide!)
      (by decide!)).2.2.2.2.2.1⟩

/-! ### The key strings stay balanced -/

theorem heap_gtkWidgetMap (s : St) : (gtkWidgetMap s).heap = s.heap := by
  unfold gtkWidgetMap
  cases h : s.widgetMap <;> simp

theorem inv_of_eq {pending : List Nat} {s t : St} (h : Inv pending s)
    (hh : t.heap = s.heap) (hm : t.map = s.map) : Inv pending t := by
  unfold Inv at *
  rw [hh, hm]
  exact h

theorem inv_gtkWidgetMap {pending : List Nat} {s : St} (h : Inv pending s) :
    Inv pending (gtkWidgetMap s) :=
  inv_of_eq h (heap_gtkWidgetMap s) (map_gtkWidgetMap s)

theorem inv_call {pending : List Nat} {s : St} (f : Gtk → Gtk) (h : Inv pending s) :
    Inv pending (s.call f) := h

theorem inv_ask {pending : List Nat} {s : St} {α : Type} (f : Gtk → α × Gtk)
    (h : Inv pending s) : Inv pending (s.ask f).2 := h

/-- A string copied with `strdup` is a pending key. -/
theorem inv_strdup {pending : List Nat} {s : St} (str : String) (h : Inv pending s) :
    Inv ((strdup str s).1.data :: pending) (strdup str s).2 := by
  obtain ⟨h1, h2, h3, h4, h5, h6⟩ := h
  refine ⟨h1, ?_, ?_, ?_, h5, h6⟩
  · show (s.map.map (fun e => e.key.data) ++ s.heap.next :: pending).Perm
      (s.heap.next :: s.heap.live)
    exact List.perm_middle.trans (List.Perm.cons _ h2)
  · show (s.heap.next :: s.heap.live).Nodup
    exact List.nodup_cons.mpr ⟨fun hmem => lt_irrefl _ (h4 _ hmem), h3⟩
  · show ∀ a ∈ s.heap.next :: s.heap.live, a < s.heap.next + 1
    intro a ha
    rcases List.mem_cons.mp ha with rfl | ha
    · exact Nat.lt_succ_self _
    · exact Nat.lt_succ_of_lt (h4 a ha)

/-- Freeing a pending key keeps the balance. -/
theorem inv_free {pending : List Nat} {s : St} {d : Nat} (h : Inv (d :: pending) s) :
    Inv pending (free d s) := by
  obtain ⟨h1, h2, h3, h4, h5, h6⟩ := h
  have hd : d ∈ s.heap.live := h2.subset (by simp)
  have hheap : (free d s).heap = { s.heap with live := s.heap.live.erase d } := by
    simp [free, Heap.free, hd]
  have hmap : (free d s).map = s.map := rfl
  unfold Inv
  rw [hheap, hmap]
  refine ⟨h1, ?_, h3.erase d, ?_, h5, h6⟩
  · have := (List.perm_middle.symm.trans h2).erase d
    simpa using this
  · intro a ha
    exact h4 a (List.mem_of_mem_erase ha)

theorem WidgetMap.keys_perm_erase (m : WidgetMap) (p : String) (e : Entry)
    (h : m.find p = some e) :
    (m.map (fun e => e.key.data)).Perm (e.key.data :: (m.erase p).map (fun e => e.key.data)) := by
  induction m with
  | nil => simp [WidgetMap.find] at h
  | cons a m ih =>
    rw [WidgetMap.erase_cons]
    by_cases ha : a.key.str = p
    · have : e = a := by
        simp [WidgetMap.find, List.find?_cons, ha] at h
        exact h.symm
      subst this
      simp [ha]
    · have h' : WidgetMap.find m p = some e := by
        simpa [WidgetMap.find, List.find?_cons, ha] using h
      simp only [ha, if_false, List.map_cons]
      exact (List.Perm.cons _ (ih h')).trans (List.Perm.swap _ _ _)

/-- `removeWidgetFromMap` keeps the balance and leaves no node with the path. -/
theorem inv_removeWidgetFromMap {pending : List Nat} {s : St} (p : String)
    (h : Inv pending s) :
    Inv pending (removeWidgetFromMap p s) ∧ (removeWidgetFromMap p s).map.contains p = false := by
  have hc : (removeWidgetFromMap p s).map.contains p = false := by
    rw [map_removeWidgetFromMap]
    exact (WidgetMap.contains_eq_false_iff _ _).mpr (WidgetMap.erase_no_key _ _ h.2.2.2.2.1)
  refine ⟨?_, hc⟩
  cases hf : s.map.find p with
  | none =>
    have : removeWidgetFromMap p s = gtkWidgetMap s := by
      unfold removeWidgetFromMap
      simp only [map_gtkWidgetMap, hf]
    rw [this]
    exact inv_gtkWidgetMap h
  | some e =>
    have hmap := map_removeWidgetFromMap p s
    have hheap : (removeWidgetFromMap p s).heap = s.heap.free e.key.data := by
      unfold removeWidgetFromMap
      simp only [map_gtkWidgetMap, hf]
      cases hwm : s.widgetMap <;> simp [free, gtkWidgetMap, hwm]
    obtain ⟨h1, h2, h3, h4, h5, h6⟩ := h
    have hperm := WidgetMap.keys_perm_erase _ _ _ hf
    have hlive : (e.key.data :: ((s.map.erase p).map (fun e => e.key.data) ++ pending)).Perm
        s.heap.live := ((List.Perm.append_right pending hperm).symm).trans h2
    have hd : e.key.data ∈ s.heap.live := hlive.subset (by simp)
    unfold Inv
    rw [hheap, hmap]
    simp only [Heap.free, hd, if_true]
    refine ⟨h1, ?_, h3.erase _, ?_, ?_, ?_⟩
    · simpa using hlive.erase e.key.data
    · intro a ha
      exact h4 a (List.mem_of_mem_erase ha)
    · exact h5.sublist ((List.eraseP_sublist _).map _)
    · intro a ha
      exact h6 a (List.mem_of_mem_eraseP ha)

/-- Inserting a pending key under a path the cache does not have. -/
theorem inv_mapInsert {pending : List Nat} {s : St} {key : QHashableLatin1Literal} {w : Nat}
    (h : Inv (key.data :: pending) s) (hc : s.map.contains key.str = false) (hw : w ≠ 0) :
    Inv pending (mapInsert key w s) := by
  obtain ⟨h1, h2, h3, h4, h5, h6⟩ := h
  have hmap : (mapInsert key w s).map = { key := key, value := w } :: s.map := by
    rw [map_mapInsert, WidgetMap.insert, hc]; rfl
  have hheap : (mapInsert key w s).heap = s.heap := heap_gtkWidgetMap s
  unfold Inv
  rw [hheap, hmap]
  refine ⟨h1, ?_, h3, h4, ?_, ?_⟩
  · exact (List.perm_middle.symm).trans h2
  · rw [List.map_cons, List.nodup_cons]
    refine ⟨?_, h5⟩
    intro hmem
    obtain ⟨e, he, hek⟩ := List.mem_map.mp hmem
    exact (WidgetMap.contains_eq_false_iff _ _).mp hc e he hek
  · intro e he
    rcases List.mem_cons.mp he with rfl | he
    · exact hw
    · exact h6 e he

theorem isWidget_ne_zero {g : Gtk} {w : Nat} (h : g.isWidget w = true) : w ≠ 0 := by
  unfold Gtk.isWidget at h
  intro h0
  simp [h0] at h

theorem inv_addWidgetToMap {pending : List Nat} {s : St} (w : Nat) (h : Inv pending s) :
    Inv pending (addWidgetToMap w s) := by
  unfold addWidgetToMap
  by_cases hw : s.gtk.isWidget w = true
  · rw [if_pos hw]
    have h1 : Inv pending (s.call (Gtk.gtk_widget_realize w)) := h
    have h2 := inv_strdup (classPath w (s.call (Gtk.gtk_widget_realize w))).1.str
      (inv_ask (Gtk.gtk_widget_path w) h1)
    have h3 := inv_removeWidgetFromMap (classPath w (s.call (Gtk.gtk_widget_realize w))).1.str h2
    exact inv_mapInsert h3.1 h3.2 (isWidget_ne_zero hw)
  · rw [if_neg hw]
    exact h

mutual
theorem inv_addAllSubWidgetsNode : ∀ (n : GtkNode) (pending : List Nat) (s : St),
    Inv pending s → Inv pending (addAllSubWidgetsNode n s)
  | .mk h _ c kids, pending, s, hi => by
    rw [addAllSubWidgetsNode]
    have h1 := inv_addWidgetToMap h hi
    cases c
    · exact h1
    · exact inv_addAllSubWidgetsEach kids pending _ (inv_call Gtk.tick h1)
theorem inv_addAllSubWidgetsEach : ∀ (ns : List GtkNode) (pending : List Nat) (s : St),
    Inv pending s → Inv pending (addAllSubWidgetsEach ns s)
  | [], _, _, hi => by
    rw [addAllSubWidgetsEach]
    exact hi
  | k :: ks, pending, s, hi => by
    rw [addAllSubWidgetsEach]
    exact inv_addAllSubWidgetsEach ks pending _ (inv_addAllSubWidgetsNode k pending s hi)
end

theorem inv_addAllSubWidgets {pending : List Nat} {s : St} (w : Nat) (h : Inv pending s) :
    Inv pending (addAllSubWidgets w s) := by
  unfold addAllSubWidgets
  cases s.gtk.node w with
  | none => exact h
  | some n =>
    by_cases hw : w = 0
    · simp only [hw, if_true]; exact h
    · simp only [hw, if_false]; exact inv_addAllSubWidgetsNode n pending s h

theorem value_eq_zero_contains {s : St} {p : String} (h6 : ∀ e ∈ s.map, e.value ≠ 0)
    (hv : s.map.value p = 0) : s.map.contains p = false := by
  unfold WidgetMap.value at hv
  unfold WidgetMap.contains
  cases hf : s.map.find p with
  | none => rfl
  | some e =>
    rw [hf] at hv
    exact absurd hv (h6 e (WidgetMap.find_some_mem hf).1)

theorem inv_setupGtkWidget {pending : List Nat} {s : St} (tk : Toolkit) (w : Nat)
    (h : Inv pending s) : Inv pending (setupGtkWidget tk w s) := by
  unfold setupGtkWidget
  by_cases hw : s.gtk.isWidget w = true
  · rw [if_pos hw]
    have hg := inv_gtkWidgetMap h
    by_cases hp : (gtkWidgetMap s).map.value "GtkContainer" = 0
    · simp only [hp, if_true]
      have hc := value_eq_zero_contains hg.2.2.2.2.2 hp
      have h1 := inv_strdup "GtkContainer"
        (inv_call (Gtk.gtk_container_add
          (((gtkWidgetMap s).ask (Gtk.create tk "GtkFixed")).2.map.value "GtkWindow")
          ((gtkWidgetMap s).ask (Gtk.create tk "GtkFixed")).1)
          (inv_ask (Gtk.create tk "GtkFixed") hg))
      have hne : ((gtkWidgetMap s).ask (Gtk.create tk "GtkFixed")).1 ≠ 0 := by
        exact Nat.succ_ne_zero _
      have h2 := inv_mapInsert h1 hc hne
      split <;> [split; skip] <;> exact h2
    · simp only [hp, if_false]
      split <;> [split; skip] <;> exact hg
  · rw [if_neg hw]
    exact h

theorem inv_addWidget {pending : List Nat} {s : St} (tk : Toolkit) (w : Nat)
    (h : Inv pending s) : Inv pending (addWidget tk w s) := by
  unfold addWidget
  split
  · exact inv_addAllSubWidgets w (inv_setupGtkWidget tk w h)
  · exact h

theorem inv_addNew {pending : List Nat} {s : St} (tk : Toolkit) (cls : String)
    (h : Inv pending s) : Inv pending (addNew tk cls s) :=
  inv_addWidget tk _ (inv_ask (Gtk.create tk cls) h)

theorem inv_initGtkMenu {pending : List Nat} {s : St} (tk : Toolkit)
    (h : Inv pending s) : Inv pending (initGtkMenu tk s) := by
  unfold initGtkMenu
  with_reducible
    repeat (first | exact h | refine inv_call _ ?_ | refine inv_ask _ ?_ | refine inv_addAllSubWidgets _ ?_ | refine inv_setupGtkWidget tk _ ?_)

theorem inv_initGtkTreeview {pending : List Nat} {s : St} (tk : Toolkit)
    (h : Inv pending s) : Inv pending (initGtkTreeview tk s) := by
  unfold initGtkTreeview
  with_reducible
    repeat (first | exact h | refine inv_call _ ?_ | refine inv_ask _ ?_ | refine inv_addWidget tk _ ?_)

theorem inv_rebuildEach : ∀ (es : List Entry) (s : St),
    Inv (es.map (fun e => e.key.data)) s → Inv [] (rebuildEach es s)
  | [], _, h => h
  | e :: es, s, h => by
    rw [rebuildEach]
    apply inv_rebuildEach es
    apply inv_free
    split
    · exact inv_addAllSubWidgets e.value h
    · exact h

/-- The widgets of the first call keep the key strings balanced. -/
theorem inv_initialize {s : St} (tk : Toolkit) (h : Inv [] s) :
    Inv []
      (let gtkButton := s.ask (Gtk.create tk "GtkButton")
      let s := addWidget tk gtkButton.1 gtkButton.2
      let s := s.call (Gtk.g_signal_connect gtkButton.1 "style-set" "gtkStyleSetCallback")
      let s := addNew tk "GtkToolButton" s
      let s := addNew tk "GtkArrow" s
      let s := addNew tk "GtkHButtonBox" s
      let s := addNew tk "GtkCheckButton" s
      let s := addNew tk "GtkRadioButton" s
      let s := addNew tk "GtkComboBox" s
      let s := addNew tk "GtkComboBoxEntry" s
      let entry := s.ask (Gtk.create tk "GtkEntry")
      let s := entry.2.call (Gtk.g_object_set entry.1 "im-module" "gtk-im-context-none")
      let s := addWidget tk entry.1 s
      let s := addNew tk "GtkFrame" s
      let s := addNew tk "GtkExpander" s
      let s := addNew tk "GtkStatusbar" s
      let s := addNew tk "GtkHScale" (s.call Gtk.tick)
      let s := addNew tk "GtkHScrollbar" s
      let s := addNew tk "GtkScrolledWindow" s
      let s := initGtkMenu tk s
      let s := addNew tk "GtkNotebook" s
      let s := addNew tk "GtkProgressBar" s
      let s := addNew tk "GtkSpinButton" (s.call Gtk.tick)
      let toolbar := s.ask (Gtk.create tk "GtkToolbar")
      let s := toolbar.2.call
        (Gtk.g_signal_connect toolbar.1 "notify::toolbar-style" "update_toolbar_style")
      let item := s.ask (Gtk.create tk "GtkSeparatorToolItem")
      let s := item.2.call (Gtk.gtk_container_add toolbar.1 item.1)
      let s := addWidget tk toolbar.1 s
      let s := initGtkTreeview tk s
      let s := addNew tk "GtkVScale" (s.call Gtk.tick)
      addNew tk "GtkVScrollbar" s) := by
  with_reducible
    repeat (first | exact h | refine inv_call _ ?_ | refine inv_ask _ ?_ | refine inv_addNew tk _ ?_ | refine inv_addWidget tk _ ?_ | refine inv_initGtkMenu tk ?_ | refine inv_initGtkTreeview tk ?_)

/-- `initGtkWidgets` keeps the key strings balanced, in the refused call, the
first call and the rebuild alike. -/
theorem inv_initGtkWidgets {s : St} (tk : Toolkit) (h : Inv [] s) :
    Inv [] (initGtkWidgets tk s) := by
  unfold initGtkWidgets
  split
  · exact h
  · lift_lets
    intro s1 gtkWindow s2 widgetPath s3 s4 s5 s6
    have h2w : Inv [widgetPath.1.data] widgetPath.2 := inv_strdup "GtkWindow" h
    have h3 := inv_removeWidgetFromMap "GtkWindow" h2w
    have hne : gtkWindow.1 ≠ 0 := Nat.succ_ne_zero s1.gtk.created
    have h4 : Inv [] s4 := inv_mapInsert h3.1 h3.2 hne
    have h5 : Inv [] s5 := by
      show Inv [] (if s4.rightToLeft then _ else _)
      split
      · exact h4
      · exact h4
    have h6 : Inv [] s6 := inv_gtkWidgetMap h5
    split
    · exact inv_initialize tk h6
    · intro oldMap s7
      apply inv_rebuildEach
      refine ⟨h6.1, ?_, h6.2.2.1, h6.2.2.2.1, List.nodup_nil, ?_⟩
      · simpa [s7, St.map] using h6.2.1
      · intro e he; simp [s7, St.map] at he

theorem inv_init (proc : Process) (rtl : Bool) : Inv [] (St.init proc rtl) := by
  simp [Inv, St.init, St.map, Heap.init]

theorem inv_iterate (tk : Toolkit) (n : Nat) (s : St) (h : Inv [] s) :
    Inv [] ((initGtkWidgets tk)^[n] s) := by
  induction n generalizing s with
  | zero => exact h
  | succ n ih =>
    rw [Function.iterate_succ_apply]
    exact ih _ (inv_initGtkWidgets tk h)

/-- C2: whatever the toolkit builds inside its widgets, after the first
`initGtkWidgets` of a process and `n` further calls no key string has been
freed twice, the key strings allocated and not freed are as many as the nodes
of the cache (they are the keys of these nodes), and no two nodes have the same
path. -/
theorem rebuild_keys_balanced (tk : Toolkit) (proc : Process) (rightToLeft : Bool) (n : Nat) :
    ((initGtkWidgets tk)^[n + 1] (St.init proc rightToLeft)).heap.doubleFrees = 0 ∧
    ((initGtkWidgets tk)^[n + 1] (St.init proc rightToLeft)).heap.live.length =
      ((initGtkWidgets tk)^[n + 1] (St.init proc rightToLeft)).map.length ∧
    (((initGtkWidgets tk)^[n + 1] (St.init proc rightToLeft)).map.map
      (fun e => e.key.data)).Perm
      ((initGtkWidgets tk)^[n + 1] (St.init proc rightToLeft)).heap.live ∧
    (((initGtkWidgets tk)^[n + 1] (St.init proc rightToLeft)).map.map
      (fun e => e.key.str)).Nodup := by
  have h := inv_iterate tk (n + 1) _ (inv_init proc rightToLeft)
  obtain ⟨h1, h2, _, _, h5, _⟩ := h
  rw [List.append_nil] at h2
  refine ⟨h1, ?_, h2, h5⟩
  rw [← h2.length_eq, List.length_map]

/-! ### Every later call of `initGtkWidgets` is a rebuild -/

mutual
theorem find_handle : ∀ (n : GtkNode) (w : Nat) (r : GtkNode),
    GtkNode.find w n = some r → r.handle = w
  | .mk h cls c kids, w, r, hf => by
    rw [GtkNode.find] at hf
    by_cases hw : h = w
    · rw [if_pos hw] at hf
      cases hf
      exact hw
    · rw [if_neg hw] at hf
      exact findIn_handle kids w r hf
theorem findIn_handle : ∀ (ns : List GtkNode) (w : Nat) (r : GtkNode),
    GtkNode.findIn w ns = some r → r.handle = w
  | [], _, _, hf => by simp [GtkNode.findIn] at hf
  | n :: ns, w, r, hf => by
    rw [GtkNode.findIn] at hf
    cases hn : GtkNode.find w n with
    | some x =>
      rw [hn] at hf
      injection hf with hxr
      rw [← hxr]
      exact find_handle n w x hn
    | none =>
      rw [hn] at hf
      exact findIn_handle ns w r hf
end

mutual
theorem pathTo_isSome : ∀ (n : GtkNode) (w : Nat),
    (GtkNode.pathTo w n).isSome = (GtkNode.find w n).isSome
  | .mk h cls c kids, w => by
    rw [GtkNode.pathTo, GtkNode.find]
    by_cases hw : h = w
    · simp [hw]
    · simp only [hw, if_false]
      rw [← pathToIn_isSome kids w]
      cases GtkNode.pathToIn w kids <;> rfl
theorem pathToIn_isSome : ∀ (ns : List GtkNode) (w : Nat),
    (GtkNode.pathToIn w ns).isSome = (GtkNode.findIn w ns).isSome
  | [], _ => by simp [GtkNode.pathToIn, GtkNode.findIn]
  | n :: ns, w => by
    rw [GtkNode.pathToIn, GtkNode.findIn]
    have h1 := pathTo_isSome n w
    have h2 := pathToIn_isSome ns w
    cases hp : GtkNode.pathTo w n <;> cases hf : GtkNode.find w n <;>
      simp_all
end

theorem findIn_append (w : Nat) (l₁ l₂ : List GtkNode) (r : GtkNode)
    (h : GtkNode.findIn w l₁ = some r) : GtkNode.findIn w (l₁ ++ l₂) = some r := by
  induction l₁ with
  | nil => simp [GtkNode.findIn] at h
  | cons n ns ih =>
    rw [List.cons_append, GtkNode.findIn]
    rw [GtkNode.findIn] at h
    cases hn : GtkNode.find w n with
    | some x => rw [hn] at h; exact h
    | none => rw [hn] at h; exact ih h

theorem pathToIn_append (w : Nat) (l₁ l₂ : List GtkNode)
    (h : (GtkNode.pathToIn w l₁).isSome = true) :
    GtkNode.pathToIn w (l₁ ++ l₂) = GtkNode.pathToIn w l₁ := by
  induction l₁ with
  | nil => simp [GtkNode.pathToIn] at h
  | cons n ns ih =>
    rw [List.cons_append, GtkNode.pathToIn, GtkNode.pathToIn]
    rw [GtkNode.pathToIn] at h
    cases hn : GtkNode.pathTo w n with
    | some x => rfl
    | none => rw [hn] at h; exact ih h

/-- What `isWidget` and the class path say depends on the hierarchy only. -/
theorem isWidget_congr {g g' : Gtk} (h : g'.roots = g.roots) (w : Nat) :
    g'.isWidget w = g.isWidget w := by
  unfold Gtk.isWidget Gtk.node
  rw [h]

theorem classPath_congr {s t : St} (h : t.gtk.roots = s.gtk.roots) (w : Nat) :
    (classPath w t).1.str = (classPath w s).1.str := by
  unfold classPath St.ask Gtk.gtk_widget_path strdup
  simp only [h]

/-- A new top level changes neither which widgets are live nor their paths. -/
theorem isWidget_append {g g' : Gtk} (extra : List GtkNode) (h : g'.roots = g.roots ++ extra)
    (w : Nat) (hw : g.isWidget w = true) : g'.isWidget w = true := by
  unfold Gtk.isWidget Gtk.node at *
  rw [h]
  simp only [Bool.and_eq_true] at hw ⊢
  refine ⟨hw.1, ?_⟩
  cases hf : GtkNode.findIn w g.roots with
  | none => rw [hf] at hw; simp at hw
  | some r => rw [findIn_append w _ extra r hf]; rfl

theorem classPath_append {s t : St} (extra : List GtkNode)
    (h : t.gtk.roots = s.gtk.roots ++ extra) (w : Nat) (hw : s.gtk.isWidget w = true) :
    (classPath w t).1.str = (classPath w s).1.str := by
  have hsome : (GtkNode.pathToIn w s.gtk.roots).isSome = true := by
    rw [pathToIn_isSome]
    unfold Gtk.isWidget Gtk.node at hw
    simp only [Bool.and_eq_true] at hw
    exact hw.2
  unfold classPath St.ask Gtk.gtk_widget_path strdup
  simp only [h, pathToIn_append w _ extra hsome]

theorem SameWorld.rfl (s : St) : SameWorld s s := ⟨Eq.refl _, Eq.refl _, Eq.refl _⟩

theorem SameWorld.trans {s t u : St} (h₁ : SameWorld s t) (h₂ : SameWorld t u) :
    SameWorld s u :=
  ⟨h₂.1.trans h₁.1, h₂.2.1.trans h₁.2.1, h₂.2.2.trans h₁.2.2⟩

theorem ButtonSound.of_sameWorld {es : List Entry} {s t : St} (h : ButtonSound es s)
    (hw : SameWorld s t) : ButtonSound es t := by
  intro e he hk
  obtain ⟨h1, h2⟩ := h e he hk
  exact ⟨by rw [isWidget_congr hw.1]; exact h1, by rw [classPath_congr hw.1]; exact h2⟩

theorem sameWorld_gtkWidgetMap (s : St) : SameWorld s (gtkWidgetMap s) := by
  unfold gtkWidgetMap
  cases s.widgetMap <;> exact SameWorld.rfl _

theorem sameWorld_removeWidgetFromMap (p : String) (s : St) :
    SameWorld s (removeWidgetFromMap p s) := by
  unfold removeWidgetFromMap
  simp only []
  cases (gtkWidgetMap s).map.find p with
  | none => exact sameWorld_gtkWidgetMap s
  | some e => exact sameWorld_gtkWidgetMap s

theorem sameWorld_mapInsert (key : QHashableLatin1Literal) (w : Nat) (s : St) :
    SameWorld s (mapInsert key w s) := sameWorld_gtkWidgetMap s

theorem sameWorld_addWidgetToMap (w : Nat) (s : St) : SameWorld s (addWidgetToMap w s) := by
  unfold addWidgetToMap
  split
  · refine SameWorld.trans ?_ (sameWorld_mapInsert _ _ _)
    refine SameWorld.trans ?_ (sameWorld_removeWidgetFromMap _ _)
    exact ⟨Eq.refl _, Eq.refl _, Eq.refl _⟩
  · exact SameWorld.rfl _

mutual
theorem sameWorld_addAllSubWidgetsNode : ∀ (n : GtkNode) (s : St),
    SameWorld s (addAllSubWidgetsNode n s)
  | .mk h _ c kids, s => by
    rw [addAllSubWidgetsNode]
    cases c
    · exact sameWorld_addWidgetToMap h s
    · refine (sameWorld_addWidgetToMap h s).trans ?_
      refine SameWorld.trans ?_ (sameWorld_addAllSubWidgetsEach kids _)
      exact ⟨Eq.refl _, Eq.refl _, Eq.refl _⟩
theorem sameWorld_addAllSubWidgetsEach : ∀ (ns : List GtkNode) (s : St),
    SameWorld s (addAllSubWidgetsEach ns s)
  | [], s => by
    rw [addAllSubWidgetsEach]
    exact SameWorld.rfl _
  | k :: ks, s => by
    rw [addAllSubWidgetsEach]
    exact (sameWorld_addAllSubWidgetsNode k s).trans (sameWorld_addAllSubWidgetsEach ks _)
end

theorem sameWorld_addAllSubWidgets (w : Nat) (s : St) :
    SameWorld s (addAllSubWidgets w s) := by
  unfold addAllSubWidgets
  cases s.gtk.node w with
  | none => exact SameWorld.rfl _
  | some n =>
    by_cases hw : w = 0
    · simp only [hw, if_true]; exact SameWorld.rfl _
    · simp only [hw, if_false]; exact sameWorld_addAllSubWidgetsNode n s

theorem WidgetMap.contains_erase_ne (m : WidgetMap) {p q : String} (h : p ≠ q) :
    (m.erase q).contains p = m.contains p := by
  induction m with
  | nil => rfl
  | cons e m ih =>
    rw [WidgetMap.erase_cons]
    by_cases he : e.key.str = q
    · have hqp : (e.key.str == p) = false := by
        rw [he]; exact beq_false_of_ne (Ne.symm h)
      rw [if_pos he]
      simp only [WidgetMap.contains, WidgetMap.find, List.find?_cons, hqp]
    · simp only [he, if_false]
      by_cases hp : e.key.str = p
      · simp [WidgetMap.contains, WidgetMap.find, List.find?_cons, hp]
      · simpa [WidgetMap.contains, WidgetMap.find, List.find?_cons, hp] using ih

/-- The cache after `addWidgetToMap` of a live widget: the new node in front of
the old nodes without the one of the same path. -/
theorem map_addWidgetToMap {pending : List Nat} {s : St} (w : Nat) (h : Inv pending s)
    (hw : s.gtk.isWidget w = true) :
    (addWidgetToMap w s).map =
      { key := { data := s.heap.next, str := (classPath w s).1.str }, value := w } ::
        s.map.erase (classPath w s).1.str := by
  have h1 := (addWidgetToMap_one_entry s w _ hw (Eq.refl _) h.2.2.2.2.1).1
  have h4 := (addWidgetToMap_one_entry s w _ hw (Eq.refl _) h.2.2.2.2.1).2.2.2.1
  simp only [] at h1 h4
  rw [h1, map_mapInsert, WidgetMap.insert]
  have hstr : (classPath w (s.call (Gtk.gtk_widget_realize w))).1.str = (classPath w s).1.str :=
    Eq.refl _
  rw [hstr, h4]
  simp only [Bool.false_eq_true, if_false]
  rw [map_removeWidgetFromMap]
  rfl

/-- `addWidgetToMap` keeps what the cache knows about the button, and adds the
path `GtkButton` when that is the class path of the widget. -/
theorem button_addWidgetToMap {pending : List Nat} {s : St} (w : Nat) (h : Inv pending s)
    (hg : ButtonSound s.map s) :
    ButtonSound (addWidgetToMap w s).map (addWidgetToMap w s) ∧
    (s.map.contains "GtkButton" = true →
      (addWidgetToMap w s).map.contains "GtkButton" = true) ∧
    (s.gtk.isWidget w = true → (classPath w s).1.str = "GtkButton" →
      (addWidgetToMap w s).map.contains "GtkButton" = true) := by
  by_cases hw : s.gtk.isWidget w = true
  · have hmap := map_addWidgetToMap w h hw
    have hsw := sameWorld_addWidgetToMap w s
    refine ⟨?_, ?_, ?_⟩
    · intro e he hk
      rw [hmap] at he
      rcases List.mem_cons.mp he with rfl | he
      · exact ⟨by rw [isWidget_congr hsw.1]; exact hw,
          by rw [classPath_congr hsw.1]; exact hk⟩
      · exact ButtonSound.of_sameWorld hg hsw e (List.mem_of_mem_eraseP he) hk
    · intro hc
      rw [hmap]
      by_cases hk : (classPath w s).1.str = "GtkButton"
      · simp [WidgetMap.contains, WidgetMap.find, List.find?_cons, hk]
      · have := WidgetMap.contains_erase_ne s.map (Ne.symm hk)
        rw [hc] at this
        simpa [WidgetMap.contains, WidgetMap.find, List.find?_cons, hk] using this
    · intro _ hk
      rw [hmap]
      simp [WidgetMap.contains, WidgetMap.find, List.find?_cons, hk]
  · have : addWidgetToMap w s = s := by
      unfold addWidgetToMap
      rw [if_neg hw]
    rw [this]
    exact ⟨hg, id, fun h' => absurd h' hw⟩

mutual
theorem button_addAllSubWidgetsNode : ∀ (n : GtkNode) (pending : List Nat) (s : St),
    Inv pending s → ButtonSound s.map s →
    ButtonSound (addAllSubWidgetsNode n s).map (addAllSubWidgetsNode n s) ∧
    (s.map.contains "GtkButton" = true →
      (addAllSubWidgetsNode n s).map.contains "GtkButton" = true)
  | .mk h _ c kids, pending, s, hi, hg => by
    rw [addAllSubWidgetsNode]
    have h1 := button_addWidgetToMap h hi hg
    cases c
    · exact ⟨h1.1, h1.2.1⟩
    · have h2 := button_addAllSubWidgetsEach kids pending ((addWidgetToMap h s).call Gtk.tick)
        (inv_call Gtk.tick (inv_addWidgetToMap h hi))
        (ButtonSound.of_sameWorld h1.1 ⟨Eq.refl _, Eq.refl _, Eq.refl _⟩)
      exact ⟨h2.1, fun hc => h2.2 (h1.2.1 hc)⟩
theorem button_addAllSubWidgetsEach : ∀ (ns : List GtkNode) (pending : List Nat) (s : St),
    Inv pending s → ButtonSound s.map s →
    ButtonSound (addAllSubWidgetsEach ns s).map (addAllSubWidgetsEach ns s) ∧
    (s.map.contains "GtkButton" = true →
      (addAllSubWidgetsEach ns s).map.contains "GtkButton" = true)
  | [], _, s, _, hg => by
    rw [addAllSubWidgetsEach]
    exact ⟨hg, id⟩
  | k :: ks, pending, s, hi, hg => by
    rw [addAllSubWidgetsEach]
    have h1 := button_addAllSubWidgetsNode k pending s hi hg
    have h2 := button_addAllSubWidgetsEach ks pending _
      (inv_addAllSubWidgetsNode k pending s hi) h1.1
    exact ⟨h2.1, fun hc => h2.2 (h1.2 hc)⟩
end

theorem button_addAllSubWidgets {pending : List Nat} {s : St} (w : Nat) (hi : Inv pending s)
    (hg : ButtonSound s.map s) :
    ButtonSound (addAllSubWidgets w s).map (addAllSubWidgets w s) ∧
    (s.map.contains "GtkButton" = true →
      (addAllSubWidgets w s).map.contains "GtkButton" = true) ∧
    (s.gtk.isWidget w = true → (classPath w s).1.str = "GtkButton" →
      (addAllSubWidgets w s).map.contains "GtkButton" = true) := by
  unfold addAllSubWidgets
  cases hn : s.gtk.node w with
  | none =>
    refine ⟨hg, id, fun hw => ?_⟩
    unfold Gtk.isWidget at hw
    rw [hn] at hw
    simp at hw
  | some n =>
    by_cases hw0 : w = 0
    · simp only [hw0, if_true]
      refine ⟨hg, id, fun hw => ?_⟩
      exact absurd (Eq.refl 0) (isWidget_ne_zero hw)
    · simp only [hw0, if_false]
      have h1 := button_addAllSubWidgetsNode n pending s hi hg
      refine ⟨h1.1, h1.2, fun hw hk => ?_⟩
      have hh : n.handle = w := findIn_handle _ _ _ hn
      cases n with
      | mk h cls c kids =>
        have hh' : h = w := hh
        subst hh'
        rw [addAllSubWidgetsNode]
        have h2 := button_addWidgetToMap h hi hg
        cases c
        · exact h2.2.2 hw hk
        · exact (button_addAllSubWidgetsEach kids pending ((addWidgetToMap h s).call Gtk.tick)
            (inv_call Gtk.tick (inv_addWidgetToMap h hi))
            (ButtonSound.of_sameWorld h2.1 ⟨Eq.refl _, Eq.refl _, Eq.refl _⟩)).2 (h2.2.2 hw hk)

theorem sameWorld_rebuildEach : ∀ (es : List Entry) (s : St), SameWorld s (rebuildEach es s)
  | [], s => SameWorld.rfl s
  | e :: es, s => by
    rw [rebuildEach]
    refine SameWorld.trans ?_ (sameWorld_rebuildEach es _)
    split
    · exact (sameWorld_addAllSubWidgets e.value s).trans ⟨Eq.refl _, Eq.refl _, Eq.refl _⟩
    · exact ⟨Eq.refl _, Eq.refl _, Eq.refl _⟩

/-- The loop of the rebuild puts the path `GtkButton` back when the old hash
had it for a live widget with this class path. -/
theorem button_rebuildEach : ∀ (es : List Entry) (s : St),
    Inv (es.map (fun e => e.key.data)) s → ButtonSound s.map s → ButtonSound es s →
    (s.map.contains "GtkButton" = true ∨ ∃ e ∈ es, e.key.str = "GtkButton") →
    ButtonKept (rebuildEach es s)
  | [], s, _, hg, _, hc => by
    rw [rebuildEach]
    rcases hc with hc | ⟨e, he, _⟩
    · exact ⟨hc, hg⟩
    · simp at he
  | e :: es, s, hi, hg, hes, hc => by
    rw [rebuildEach]
    by_cases hdot : (e.key.str.data.contains '.') = true
    · simp only [hdot, Bool.not_true, Bool.false_eq_true, if_false]
      have hne : e.key.str ≠ "GtkButton" := by
        intro hk
        rw [hk] at hdot
        exact absurd hdot (by decide)
      refine button_rebuildEach es _ (inv_free hi) hg
        (fun x hx => hes x (List.mem_cons_of_mem _ hx)) ?_
      rcases hc with hc | ⟨x, hx, hxk⟩
      · exact Or.inl hc
      · rcases List.mem_cons.mp hx with rfl | hx
        · exact absurd hxk hne
        · exact Or.inr ⟨x, hx, hxk⟩
    · simp only [hdot, Bool.not_false, if_true]
      have h1 := button_addAllSubWidgets e.value hi hg
      have hsw := sameWorld_addAllSubWidgets e.value s
      refine button_rebuildEach es _ (inv_free (inv_addAllSubWidgets e.value hi))
        (ButtonSound.of_sameWorld h1.1 ⟨Eq.refl _, Eq.refl _, Eq.refl _⟩)
        (ButtonSound.of_sameWorld (fun x hx => hes x (List.mem_cons_of_mem _ hx))
          (hsw.trans ⟨Eq.refl _, Eq.refl _, Eq.refl _⟩)) ?_
      rcases hc with hc | ⟨x, hx, hxk⟩
      · exact Or.inl (h1.2.1 hc)
      · rcases List.mem_cons.mp hx with rfl | hx
        · have hx' := hes x (List.mem_cons_self _ _) hxk
          exact Or.inl (h1.2.2 hx'.1 hx'.2)
        · exact Or.inr ⟨x, hx, hxk⟩

/-- A call of `initGtkWidgets` on a cache that has the button is a rebuild and
leaves a cache that has the button. -/
theorem rebuildable_initGtkWidgets (tk : Toolkit) (s : St) (h : Rebuildable s) :
    Rebuildable (initGtkWidgets tk s) := by
  obtain ⟨⟨hu, hgid⟩, hinv, hc, hsound⟩ := h
  unfold initGtkWidgets
  have hgate : (s.proc.ruid != s.proc.euid || s.proc.rgid != s.proc.egid) = false := by
    simp [hu, hgid]
  rw [if_neg (by rw [hgate]; simp)]
  lift_lets
  intro s1 gtkWindow s2 widgetPath s3 s4 s5 s6
  -- the balance, as in `inv_initGtkWidgets`
  have h2w : Inv [widgetPath.1.data] widgetPath.2 := inv_strdup "GtkWindow" hinv
  have h3 := inv_removeWidgetFromMap "GtkWindow" h2w
  have hne : gtkWindow.1 ≠ 0 := Nat.succ_ne_zero s1.gtk.created
  have h4 : Inv [] s4 := inv_mapInsert h3.1 h3.2 hne
  have h5 : Inv [] s5 := by
    show Inv [] (if s4.rightToLeft then _ else _)
    split <;> exact h4
  have h6 : Inv [] s6 := inv_gtkWidgetMap h5
  -- the world: one more top level, the same process
  have hw4 : SameWorld widgetPath.2 s4 :=
    (sameWorld_removeWidgetFromMap _ _).trans (sameWorld_mapInsert _ _ _)
  have hw5 : SameWorld s4 s5 := by
    show SameWorld s4 (if s4.rightToLeft then _ else _)
    split
    · exact ⟨Eq.refl _, Eq.refl _, Eq.refl _⟩
    · exact SameWorld.rfl _
  have hw6 : SameWorld widgetPath.2 s6 := (hw4.trans hw5).trans (sameWorld_gtkWidgetMap _)
  have hroots : s6.gtk.roots = s.gtk.roots ++
      [(Shape.build (.mk "GtkWindow" (tk.container "GtkWindow") (tk.internals "GtkWindow"))
        s.gtk.created).1] := hw6.1
  have hproc : s6.proc = s.proc := hw6.2.1
  -- the cache: the new window in front of the old nodes without the old window
  have hmap4 : s4.map = { key := widgetPath.1, value := gtkWindow.1 } ::
      s.map.erase "GtkWindow" := by
    show (mapInsert widgetPath.1 gtkWindow.1 s3).map = _
    rw [map_mapInsert, WidgetMap.insert]
    have : s3.map.contains widgetPath.1.str = false := h3.2
    rw [this]
    simp only [Bool.false_eq_true, if_false]
    show _ :: (removeWidgetFromMap "GtkWindow" widgetPath.2).map = _
    rw [map_removeWidgetFromMap]
    rfl
  have hmap5 : s5.map = s4.map := by
    show (if s4.rightToLeft then _ else _ : St).map = _
    split <;> rfl
  have hmap6 : s6.map = { key := widgetPath.1, value := gtkWindow.1 } ::
      s.map.erase "GtkWindow" := by
    show (gtkWidgetMap s5).map = _
    rw [map_gtkWidgetMap, hmap5, hmap4]
  have hc6 : s6.map.contains "GtkButton" = true := by
    have := WidgetMap.contains_erase_ne s.map (p := "GtkButton") (q := "GtkWindow") (by decide)
    rw [hc] at this
    rw [hmap6]
    have hk : (widgetPath.1.str == "GtkButton") = false := by
      show (("GtkWindow" : String) == "GtkButton") = false
      decide
    simpa [WidgetMap.contains, WidgetMap.find, List.find?_cons, hk] using this
  have hsound6 : ButtonSound s6.map s6 := by
    intro e he hk
    rw [hmap6] at he
    rcases List.mem_cons.mp he with rfl | he
    · have hk' : ("GtkWindow" : String) = "GtkButton" := hk
      exact absurd hk' (by decide)
    · obtain ⟨ha, hb⟩ := hsound e (List.mem_of_mem_eraseP he) hk
      exact ⟨isWidget_append _ hroots _ ha, by rw [classPath_append _ hroots _ ha]; exact hb⟩
  show Rebuildable (if (!s6.map.contains "GtkButton") = true then _
    else rebuildEach s6.map { s6 with widgetMap := some [] })
  rw [if_neg (by rw [hc6]; simp)]
  generalize hs7 : ({ s6 with widgetMap := some [] } : St) = s7
  have hi7 : Inv (s6.map.map (fun e => e.key.data)) s7 := by
    subst hs7
    refine ⟨h6.1, ?_, h6.2.2.1, h6.2.2.2.1, List.nodup_nil, ?_⟩
    · simpa [St.map] using h6.2.1
    · intro e he; simp [St.map] at he
  have hw7 : SameWorld s6 s7 := by
    subst hs7
    exact ⟨Eq.refl _, Eq.refl _, Eq.refl _⟩
  have hkept := button_rebuildEach s6.map s7 hi7
    (by subst hs7; intro e he; simp [St.map] at he)
    (ButtonSound.of_sameWorld hsound6 hw7)
    (Or.inr (by
      obtain ⟨e, he⟩ := Option.isSome_iff_exists.mp hc6
      exact ⟨e, (WidgetMap.find_some_mem he).1, (WidgetMap.find_some_mem he).2⟩))
  have hwr := sameWorld_rebuildEach s6.map s7
  refine ⟨?_, inv_rebuildEach s6.map s7 hi7, hkept⟩
  rw [hwr.2.1, hw7.2.1, hproc]
  exact ⟨hu, hgid⟩

theorem rebuildable_iterate (tk : Toolkit) (n : Nat) (s : St) (h : Rebuildable s) :
    Rebuildable ((initGtkWidgets tk)^[n] s) := by
  induction n generalizing s with
  | zero => exact h
  | succ n ih =>
    rw [Function.iterate_succ_apply]
    exact ih _ (rebuildable_initGtkWidgets tk s h)

theorem buttonKept_sample : ButtonKept sampleSt := by
  have h : sampleSt.map.all (fun e => !(e.key.str == "GtkButton") ||
      (sampleSt.gtk.isWidget e.value && (classPath e.value sampleSt).1.str == "GtkButton"))
      = true := by decide!
  refine ⟨by decide!, ?_⟩
  intro e he hk
  have := List.all_eq_true.mp h e he
  simpa [hk] using this

/-- Under the sample toolkit every call of `initGtkWidgets` after the first one
finds `GtkButton` in the cache, so it runs the rebuild branch. -/
theorem later_calls_rebuild (n : Nat) :
    ((initGtkWidgets gtk2)^[n + 1] (St.init plainProcess false)).map.contains "GtkButton"
      = true := by
  rw [Function.iterate_succ_apply]
  have hp : sampleSt.proc.ruid = sampleSt.proc.euid ∧ sampleSt.proc.rgid = sampleSt.proc.egid := by
    decide!
  have hi : Inv [] sampleSt := inv_initGtkWidgets gtk2 (inv_init _ _)
  exact (rebuildable_iterate gtk2 n sampleSt ⟨hp, hi, buttonKept_sample⟩).2.2.1

/-! ### The security gate -/

/-- C3: when the real and the effective user id differ, or the real and the
effective group id, `initGtkWidgets` makes no call into the toolkit (the
toolkit with its call counter is unchanged) and leaves the cache and the key
strings as they were; a cache that was empty stays empty and the lookup of
every path gives the null pointer. -/
theorem initGtkWidgets_refused (tk : Toolkit) (s : St)
    (h : s.proc.ruid ≠ s.proc.euid ∨ s.proc.rgid ≠ s.proc.egid) :
    (initGtkWidgets tk s).gtk = s.gtk ∧
    (initGtkWidgets tk s).gtk.calls = s.gtk.calls ∧
    (initGtkWidgets tk s).widgetMap = s.widgetMap ∧
    (initGtkWidgets tk s).heap = s.heap ∧
    (s.map = [] → (initGtkWidgets tk s).map = [] ∧
      ∀ path, (gtkWidget path (initGtkWidgets tk s)).1 = 0 ∧
        (gtkWidget path (initGtkWidgets tk s)).2.map = []) := by
  have hgate : (s.proc.ruid != s.proc.euid || s.proc.rgid != s.proc.egid) = true := by
    rcases h with h | h <;> simp [h]
  have hs : initGtkWidgets tk s = { s with warnings := setuidWarning :: s.warnings } := by
    unfold initGtkWidgets
    rw [if_pos hgate]
  rw [hs]
  refine ⟨rfl, rfl, rfl, rfl, fun hm => ⟨hm, fun path => ?_⟩⟩
  have hm' : (gtkWidgetMap { s with warnings := setuidWarning :: s.warnings }).map = [] := by
    rw [map_gtkWidgetMap]; exact hm
  unfold gtkWidget
  simp [map_gtkWidgetMap, hm', WidgetMap.value, WidgetMap.find]

/-- C3 for a setuid process that has not used the toolkit yet. -/
theorem initGtkWidgets_refused_witness :
    (setuidProcess.ruid ≠ setuidProcess.euid ∨ setuidProcess.rgid ≠ setuidProcess.egid) ∧
    (initGtkWidgets gtk2 (St.init setuidProcess false)).gtk.calls = 0 ∧
    (gtkWidget "GtkButton" (initGtkWidgets gtk2 (St.init setuidProcess false))).1 = 0 :=
  ⟨Or.inl (by decide),
    (initGtkWidgets_refused gtk2 (St.init setuidProcess false) (Or.inl (by decide))).2.1,
    ((initGtkWidgets_refused gtk2 (St.init setuidProcess false) (Or.inl (by decide))).2.2.2.2
      rfl).2 "GtkButton" |>.1⟩

/-- A plain process does reach the toolkit: the gate is what keeps the calls away. -/
theorem initGtkWidgets_plain_calls :
    0 < (initGtkWidgets gtk2 (St.init plainProcess false)).gtk.calls ∧
    (initGtkWidgets gtk2 (St.init plainProcess false)).gtk.initialised = true := by
  decide!

/-! ### Fonts -/

theorem pangoWeightOf_thin (x : Nat) (hx : x < 200) : pangoWeightOf x = 100 := by
  unfold pangoWeightOf
  split_ifs <;> omega

/-- C8: when the parser of description strings gives back the description the
printer was given, the font read back has the style of the font written, and
its weight is the weight written when that is one of the nine steps; in general
it is the largest step not above the weight written, and thin below 200. -/
theorem font_roundtrip_weight_style (pango : Pango) (info : QFont → QFontInfo) (base font : QFont)
    (hrt : pango.from_string (pango.to_string (qt_fontDescription info font)) =
      qt_fontDescription info font) :
    (font.weight ∈ weightLadder →
      (qt_fontFromString pango base (qt_fontToString pango info font)).weight = font.weight) ∧
    (qt_fontFromString pango base (qt_fontToString pango info font)).style = font.style ∧
    (qt_fontFromString pango base (qt_fontToString pango info font)).weight ∈ weightLadder ∧
    (200 ≤ font.weight →
      (qt_fontFromString pango base (qt_fontToString pango info font)).weight ≤ font.weight ∧
      ∀ l ∈ weightLadder, l ≤ font.weight →
        l ≤ (qt_fontFromString pango base (qt_fontToString pango info font)).weight) ∧
    (font.weight < 200 →
      (qt_fontFromString pango base (qt_fontToString pango info font)).weight = 100) := by
  have hw : (qt_fontFromString pango base (qt_fontToString pango info font)).weight =
      max 1 (min (pangoWeightOf font.weight) 1000) := by
    show max 1 (min (pango.from_string
      (pango.to_string (qt_fontDescription info font))).weight 1000) = _
    rw [hrt]
    rfl
  have hs : (qt_fontFromString pango base (qt_fontToString pango info font)).style =
      font.style := by
    show qFontStyleOf (pango.from_string
      (pango.to_string (qt_fontDescription info font))).style = _
    rw [hrt]
    show qFontStyleOf (pangoStyleOf font.style) = font.style
    cases font.style <;> rfl
  have h5 : font.weight < 200 → max 1 (min (pangoWeightOf font.weight) 1000) = 100 := by
    intro h
    rw [pangoWeightOf_thin _ h]
    rfl
  rw [hw]
  unfold pangoWeightOf
  refine ⟨?_, hs, ?_, ?_, ?_⟩
  · intro hl
    simp only [weightLadder, List.mem_cons, List.mem_singleton, List.not_mem_nil, or_false] at hl
    rcases hl with h | h | h | h | h | h | h | h | h <;> rw [h] <;> rfl
  · simp only [weightLadder, List.mem_cons, List.mem_singleton, List.not_mem_nil, or_false]
    split_ifs <;> simp
  · intro h200
    refine ⟨?_, ?_⟩
    · split_ifs <;> simp <;> omega
    · intro l hl hle
      simp only [weightLadder, List.mem_cons, List.mem_singleton, List.not_mem_nil, or_false] at hl
      split_ifs <;> simp <;> omega
  · exact h5

/-- C8 for a bold italic font. -/
theorem font_roundtrip_weight_style_witness :
    (qt_fontFromString (onePango (qt_fontDescription plainInfo sampleFont)) hugeFont
      (qt_fontToString (onePango (qt_fontDescription plainInfo sampleFont)) plainInfo
        sampleFont)).weight = 700 ∧
    (qt_fontFromString (onePango (qt_fontDescription plainInfo sampleFont)) hugeFont
      (qt_fontToString (onePango (qt_fontDescription plainInfo sampleFont)) plainInfo
        sampleFont)).style = QFontStyle.StyleItalic :=
  ⟨(font_roundtrip_weight_style (onePango (qt_fontDescription plainInfo sampleFont)) plainInfo
      hugeFont sampleFont rfl).1 (by decide),
    (font_roundtrip_weight_style (onePango (qt_fontDescription plainInfo sampleFont)) plainInfo
      hugeFont sampleFont rfl).2.1⟩

theorem pango_scale_cast : ((PANGO_SCALE : Nat) : ℚ) = 1024 := by
  unfold PANGO_SCALE; norm_num

theorem roundToFloat_small (n : Nat) (h : n < 2 ^ 24) : roundToFloat n = n := by
  unfold roundToFloat
  rw [if_pos h]

/-- C9, amended: for a font whose explicit point size `S` has
`1 ≤ S * 1024 < 2 ^ 24`, and a parser that gives back the description printed,
the size pushed to the description is `S * 1024` without its fraction and the
size read back is that integer divided by 1024; so the font read back has
point size `S` when `S * 1024` is an integer and otherwise a point size below
`S` by less than 1/1024. -/
theorem font_pointSize_roundtrip (pango : Pango) (info : QFont → QFontInfo) (base font : QFont)
    (hrt : pango.from_string (pango.to_string (qt_fontDescription info font)) =
      qt_fontDescription info font)
    (h1 : 1 ≤ font.pointSizeF * 1024) (h2 : font.pointSizeF * 1024 < 2 ^ 24) :
    (qt_fontDescription info font).size = ⌊font.pointSizeF * 1024⌋ ∧
    (qt_fontFromString pango base (qt_fontToString pango info font)).pointSizeF =
      (⌊font.pointSizeF * 1024⌋ : ℚ) / 1024 ∧
    (∀ k : ℤ, font.pointSizeF * 1024 = k →
      (qt_fontFromString pango base (qt_fontToString pango info font)).pointSizeF =
        font.pointSizeF) ∧
    ((¬ ∃ k : ℤ, font.pointSizeF * 1024 = k) →
      (qt_fontFromString pango base (qt_fontToString pango info font)).pointSizeF <
        font.pointSizeF ∧
      font.pointSizeF - 1 / 1024 <
        (qt_fontFromString pango base (qt_fontToString pango info font)).pointSizeF) := by
  have hpos : font.pointSizeF > 0 := by
    by_contra hneg
    have : font.pointSizeF * 1024 ≤ 0 := by nlinarith [not_lt.mp hneg]
    linarith
  have hfl1 : (1 : ℤ) ≤ ⌊font.pointSizeF * 1024⌋ := Int.le_floor.mpr (by simpa using h1)
  have hfl2 : ⌊font.pointSizeF * 1024⌋ < 2 ^ 24 := by
    apply Int.floor_lt.mpr
    simpa using h2
  have hgint : gintOfDouble (font.pointSizeF * 1024) = ⌊font.pointSizeF * 1024⌋ := by
    unfold gintOfDouble
    have hr : -(2 : ℚ) ^ 31 - 1 < font.pointSizeF * 1024 ∧ font.pointSizeF * 1024 < (2 : ℚ) ^ 31 := by
      constructor <;> linarith
    rw [if_pos hr, if_pos (by linarith)]
  have hsize : (qt_fontDescription info font).size = ⌊font.pointSizeF * 1024⌋ := by
    show (pango_font_description_set_size pango_font_description_new
      (gintOfDouble ((if font.pointSizeF > 0 then font.pointSizeF else (info font).pointSizeF)
        * PANGO_SCALE))).size = _
    rw [if_pos hpos, pango_scale_cast, hgint]
    unfold pango_font_description_set_size
    rw [if_pos (by omega)]
  have hfloat : floatOfGint ⌊font.pointSizeF * 1024⌋ = (⌊font.pointSizeF * 1024⌋ : ℚ) := by
    unfold floatOfGint
    rw [if_pos (by omega), roundToFloat_small _ (by omega)]
    have : ((⌊font.pointSizeF * 1024⌋.toNat : ℤ) : ℚ) = (⌊font.pointSizeF * 1024⌋ : ℚ) := by
      rw [Int.toNat_of_nonneg (by omega)]
    exact_mod_cast this
  have hback : (qt_fontFromString pango base (qt_fontToString pango info font)).pointSizeF =
      (⌊font.pointSizeF * 1024⌋ : ℚ) / 1024 := by
    show (base.setPointSizeF (floatOfGint (pango.from_string
      (pango.to_string (qt_fontDescription info font))).size / PANGO_SCALE)).pointSizeF = _
    rw [hrt, hsize, hfloat, pango_scale_cast]
    unfold QFont.setPointSizeF
    have hq : (0 : ℚ) < (⌊font.pointSizeF * 1024⌋ : ℚ) / 1024 := by
      have : (1 : ℚ) ≤ (⌊font.pointSizeF * 1024⌋ : ℚ) := by exact_mod_cast hfl1
      positivity
    rw [if_neg (not_le.mpr hq)]
  refine ⟨hsize, hback, ?_, ?_⟩
  · intro k hk
    rw [hback, hk, Int.floor_intCast, ← hk]
    field_simp
  · intro hno
    rw [hback]
    have hle : (⌊font.pointSizeF * 1024⌋ : ℚ) ≤ font.pointSizeF * 1024 := Int.floor_le _
    have hlt : font.pointSizeF * 1024 < (⌊font.pointSizeF * 1024⌋ : ℚ) + 1 :=
      Int.lt_floor_add_one _
    have hne : (⌊font.pointSizeF * 1024⌋ : ℚ) ≠ font.pointSizeF * 1024 :=
      fun h => hno ⟨_, h.symm⟩
    have hlt' : (⌊font.pointSizeF * 1024⌋ : ℚ) < font.pointSizeF * 1024 :=
      lt_of_le_of_ne hle hne
    constructor
    · rw [div_lt_iff₀ (by norm_num)]; exact hlt'
    · rw [lt_div_iff₀ (by norm_num)]; linarith

/-- C9, amended, for a font of 10.5 points. -/
theorem font_pointSize_roundtrip_witness :
    (1 : ℚ) ≤ sampleFont.pointSizeF * 1024 ∧ sampleFont.pointSizeF * 1024 < 2 ^ 24 ∧
    (qt_fontFromString (onePango (qt_fontDescription plainInfo sampleFont)) hugeFont
      (qt_fontToString (onePango (qt_fontDescription plainInfo sampleFont)) plainInfo
        sampleFont)).pointSizeF = sampleFont.pointSizeF :=
  have h0 : sampleFont.pointSizeF = 21 / 2 := rfl
  have h1 : (1 : ℚ) ≤ sampleFont.pointSizeF * 1024 := by rw [h0]; norm_num
  have h2 : sampleFont.pointSizeF * 1024 < 2 ^ 24 := by rw [h0]; norm_num
  ⟨h1, h2, (font_pointSize_roundtrip (onePango (qt_fontDescription plainInfo sampleFont))
    plainInfo hugeFont sampleFont rfl h1 h2).2.2.1 10752 (by rw [h0]; norm_num)⟩

theorem roundToFloat_huge : roundToFloat 16777217 = 16777216 := by decide!

theorem hugeFont_size : (qt_fontDescription plainInfo hugeFont).size = 16777217 := by
  show (pango_font_description_set_size pango_font_description_new
      (gintOfDouble ((if hugeFont.pointSizeF > 0 then hugeFont.pointSizeF
        else (plainInfo hugeFont).pointSizeF) * PANGO_SCALE))).size = _
  have h0 : hugeFont.pointSizeF = 16777217 / 1024 := rfl
  have hpos : hugeFont.pointSizeF > 0 := by rw [h0]; norm_num
  rw [if_pos hpos, pango_scale_cast, h0]
  have hm : (16777217 / 1024 : ℚ) * 1024 = ((16777217 : ℤ) : ℚ) := by norm_num
  rw [hm]
  unfold gintOfDouble
  rw [if_pos (by norm_num), if_pos (by norm_num), Int.floor_intCast]
  unfold pango_font_description_set_size
  rw [if_pos (by norm_num)]

theorem hugeFont_back :
    (qt_fontFromString (onePango (qt_fontDescription plainInfo hugeFont)) sampleFont
      (qt_fontToString (onePango (qt_fontDescription plainInfo hugeFont)) plainInfo
        hugeFont)).pointSizeF = 16384 := by
  show (sampleFont.setPointSizeF (floatOfGint (qt_fontDescription plainInfo hugeFont).size
    / PANGO_SCALE)).pointSizeF = _
  rw [hugeFont_size, pango_scale_cast]
  have hf : floatOfGint 16777217 = 16777216 := by
    unfold floatOfGint
    rw [if_pos (by norm_num)]
    have : (16777217 : ℤ).toNat = 16777217 := Int.toNat_ofNat 16777217
    rw [this, roundToFloat_huge]
    norm_num
  rw [hf]
  unfold QFont.setPointSizeF
  rw [if_neg (by norm_num)]
  norm_num

/-- C9 fails for a font of 16384 points and one Pango unit: its size times 1024
is the integer 16777217, which `static_cast<float>` rounds to 16777216, so the
font read back has 16384 points although the parser gave back the description
printed. -/
theorem font_pointSize_counterexample :
    0 < hugeFont.pointSizeF ∧
    hugeFont.pointSizeF * 1024 = ((16777217 : ℤ) : ℚ) ∧
    (onePango (qt_fontDescription plainInfo hugeFont)).from_string
      ((onePango (qt_fontDescription plainInfo hugeFont)).to_string
        (qt_fontDescription plainInfo hugeFont)) = qt_fontDescription plainInfo hugeFont ∧
    (qt_fontFromString (onePango (qt_fontDescription plainInfo hugeFont)) sampleFont
      (qt_fontToString (onePango (qt_fontDescription plainInfo hugeFont)) plainInfo
        hugeFont)).pointSizeF = 16384 ∧
    (qt_fontFromString (onePango (qt_fontDescription plainInfo hugeFont)) sampleFont
      (qt_fontToString (onePango (qt_fontDescription plainInfo hugeFont)) plainInfo
        hugeFont)).pointSizeF ≠ hugeFont.pointSizeF := by
  have h0 : hugeFont.pointSizeF = 16777217 / 1024 := rfl
  refine ⟨by rw [h0]; norm_num, by rw [h0]; norm_num, rfl, hugeFont_back, ?_⟩
  rw [hugeFont_back, h0]
  norm_num

/-! ### The theme update -/

theorem gtkWidgetMap_gtk (s : St) : (gtkWidgetMap s).gtk = s.gtk := by
  unfold gtkWidgetMap
  cases s.widgetMap <;> rfl

theorem gtkWidget_themeName (path : String) (s : St) :
    (gtkWidget path s).2.gtk.themeName = s.gtk.themeName := by
  unfold gtkWidget
  simp only []
  split <;> simp [gtkWidgetMap_gtk]

theorem gtkStyle_themeName (engine : ThemeEngine) (path : String) (s : St) :
    (gtkStyle engine path s).2.gtk.themeName = s.gtk.themeName := by
  unfold gtkStyle
  simp only []
  split
  · show (gtkWidgetMap s).gtk.themeName = _
    rw [gtkWidgetMap_gtk]
  · rw [gtkWidgetMap_gtk]

/-- `getThemeFont` changes the toolkit side of the application only. -/
theorem getThemeFont_frame (engine : ThemeEngine) (stylePath : String) (app : App) :
    (getThemeFont engine stylePath app).2 =
      { app with st := (gtkStyle engine stylePath app.st).2 } := by
  unfold getThemeFont
  simp only []
  split
  · split <;> rfl
  · rfl

theorem gtkWidgetPalette_frame (engine : ThemeEngine) (name : String) (app : App)
    (pal : QPalette) (app' : App) (h : gtkWidgetPalette engine name app = some (pal, app')) :
    ∃ st', app' = { app with st := st' } ∧ st'.gtk.themeName = app.st.gtk.themeName := by
  unfold gtkWidgetPalette at h
  simp only [] at h
  split at h
  · cases h
  · simp only [Option.some.injEq, Prod.mk.injEq] at h
    refine ⟨_, h.2.symm, ?_⟩
    exact gtkWidget_themeName name app.st

theorem applyCustomPaletteHash_frame (engine : ThemeEngine) (app app' : App)
    (h : applyCustomPaletteHash engine app = some app') :
    ∃ st' p₁ p₂ p₃, app' = { app with st := st', trace := app.trace ++
      [Effect.setClassPalette p₁ "QMenu", Effect.setClassPalette p₂ "QToolBar",
        Effect.setClassPalette p₃ "QMenuBar"] } := by
  unfold applyCustomPaletteHash at h
  split at h
  · cases h
  · rename_i menuPal a1 h1
    obtain ⟨st1, ha1, _⟩ := gtkWidgetPalette_frame _ _ _ _ _ h1
    simp only [] at h
    split at h
    · cases h
    · split at h
      · cases h
      · rename_i pal2 a2 h2
        obtain ⟨st2, ha2, _⟩ := gtkWidgetPalette_frame _ _ _ _ _ h2
        split at h
        · cases h
        · rename_i pal3 a3 h3
          obtain ⟨st3, ha3, _⟩ := gtkWidgetPalette_frame _ _ _ _ _ h3
          simp only [Option.some.injEq] at h
          refine ⟨st3, { menuPal with
            base := qColorOf (engine.style (gtkWidget "GtkMenu" a1.st).2.gtk
              (gtkWidget "GtkMenu" a1.st).1).bgNormal,
            window := qColorOf (engine.style (gtkWidget "GtkMenu" a1.st).2.gtk
              (gtkWidget "GtkMenu" a1.st).1).bgNormal }, pal2, pal3, ?_⟩
          rw [← h, ha3, ha2, ha1]
          simp [setClassPalette]



theorem getThemeFont_trace (engine : ThemeEngine) (stylePath : String) (app : App)
    (tr : List Effect) :
    (getThemeFont engine stylePath { app with trace := tr }).1 =
      (getThemeFont engine stylePath app).1 := by
  unfold getThemeFont
  simp only []
  split
  · split <;> rfl
  · rfl

/-- The font step: the font is applied exactly when it differs, and nothing
else of the framework is touched. -/
theorem updateFont_eq (engine : ThemeEngine) (stylePath : String) (app : App) :
    updateFont engine stylePath app =
      { app with
        st := (gtkStyle engine stylePath app.st).2
        font := if app.font ≠ (getThemeFont engine stylePath app).1
          then (getThemeFont engine stylePath app).1 else app.font
        trace := app.trace ++ (if app.font ≠ (getThemeFont engine stylePath app).1
          then [Effect.setFont (getThemeFont engine stylePath app).1] else []) } := by
  unfold updateFont
  simp only [getThemeFont_frame]
  by_cases hfont : app.font ≠ (getThemeFont engine stylePath app).1
  · simp only [hfont, if_true, ne_eq, not_false_eq_true]
  · simp only [hfont, if_false, List.append_nil]

theorem applyTheme_some (tk : Toolkit) (engine : ThemeEngine) (a a' : App)
    (h : applyTheme tk engine a = some a') :
    a'.oldTheme = a.st.gtk.themeName ∧
    ((a.instances = [] ∧ a'.trace = a.trace ++
        [Effect.setPalette a.standardPalette, Effect.styleChange a.widgets]) ∨
     (a.instances ≠ [] ∧ ∃ p₁ p₂ p₃, a'.trace = a.trace ++
        [Effect.setPalette a.standardPalette, Effect.rebuild,
          Effect.setClassPalette p₁ "QMenu", Effect.setClassPalette p₂ "QToolBar",
          Effect.setClassPalette p₃ "QMenuBar", Effect.styleChange a.widgets])) := by
  unfold applyTheme at h
  simp only [getThemeName] at h
  by_cases hi : a.instances = []
  · simp only [hi, List.isEmpty_nil, Bool.not_true, Bool.false_eq_true, if_false,
      Option.some.injEq] at h
    subst h
    exact ⟨rfl, Or.inl ⟨hi, by simp⟩⟩
  · have hne : (!a.instances.isEmpty) = true := by
      cases hl : a.instances with
      | nil => exact absurd hl hi
      | cons x xs => rfl
    simp only [hne, if_true] at h
    split at h
    · cases h
    · rename_i b hb
      obtain ⟨st', p₁, p₂, p₃, hb'⟩ := applyCustomPaletteHash_frame _ _ _ hb
      simp only [Option.some.injEq] at h
      subst h
      subst hb'
      exact ⟨rfl, Or.inr ⟨hi, p₁, p₂, p₃, by simp⟩⟩


/-- C4, amended: a completed run of `updateTheme` puts the palette and sends the
style change to the widgets exactly when the theme name differs from the name
applied last, and rebuilds the cache exactly when, in addition, a style
instance is live; it always clears the pixmap cache and refreshes the icon
theme, and applies the font exactly when it differs.  After the run the name
applied last is the theme name, so a second run under the same theme name
completes and does the font step and the icon refresh only. -/
theorem updateTheme_steps (tk : Toolkit) (engine : ThemeEngine) (stylePath : String)
    (app app' : App) (h : updateTheme tk engine stylePath app = some app') :
    ∃ effs, app'.trace = app.trace ++ effs ∧
      Effect.pixmapCacheClear ∈ effs ∧
      Effect.updateSystemTheme ∈ effs ∧
      (∀ f, Effect.setFont f ∈ effs ↔
        (f = (getThemeFont engine stylePath app).1 ∧ app.font ≠ f)) ∧
      ((∃ p, Effect.setPalette p ∈ effs) ↔ app.oldTheme ≠ app.st.gtk.themeName) ∧
      ((∃ ws, Effect.styleChange ws ∈ effs) ↔ app.oldTheme ≠ app.st.gtk.themeName) ∧
      (Effect.rebuild ∈ effs ↔ (app.oldTheme ≠ app.st.gtk.themeName ∧ app.instances ≠ [])) ∧
      app'.oldTheme = app.st.gtk.themeName ∧
      ∀ app₂ : App, app₂.oldTheme = app'.oldTheme →
        app₂.st.gtk.themeName = app.st.gtk.themeName →
        ∃ app₃, updateTheme tk engine stylePath app₂ = some app₃ ∧
          app₃.trace = app₂.trace ++ (Effect.pixmapCacheClear ::
            ((if app₂.font ≠ (getThemeFont engine stylePath app₂).1
              then [Effect.setFont (getThemeFont engine stylePath app₂).1] else []) ++
              [Effect.updateSystemTheme])) := by
  have hname : ∀ a : App, (gtkStyle engine stylePath a.st).2.gtk.themeName =
      a.st.gtk.themeName := fun a => gtkStyle_themeName engine stylePath a.st
  have hsame : ∀ a : App, a.oldTheme = a.st.gtk.themeName →
      ∃ a₃, updateTheme tk engine stylePath a = some a₃ ∧
        a₃.oldTheme = a.oldTheme ∧
        a₃.trace = a.trace ++ (Effect.pixmapCacheClear ::
          ((if a.font ≠ (getThemeFont engine stylePath a).1
            then [Effect.setFont (getThemeFont engine stylePath a).1] else []) ++
            [Effect.updateSystemTheme])) := by
    intro a ha
    unfold updateTheme
    simp only [updateFont_eq, getThemeFont_trace, getThemeName, hname]
    rw [if_neg (by simpa using ha)]
    exact ⟨_, rfl, rfl, by simp⟩
  by_cases hd : app.oldTheme = app.st.gtk.themeName
  · obtain ⟨a₃, h₃, ho, ht⟩ := hsame app hd
    rw [h₃] at h
    simp only [Option.some.injEq] at h
    subst h
    refine ⟨_, ht, by simp, by simp, ?_, ?_, ?_, ?_, ho.trans hd, ?_⟩
    · intro f
      by_cases hf : app.font = (getThemeFont engine stylePath app).1
      · simp only [hf, ne_eq, not_true_eq_false, if_false]
        constructor
        · intro hm; simp at hm
        · rintro ⟨h1, h2⟩; exact absurd h1.symm h2
      · simp only [ne_eq, hf, not_false_eq_true, if_true]
        constructor
        · intro hm
          simp at hm
          exact ⟨hm, fun hc => hf (hc.trans hm)⟩
        · rintro ⟨h1, _⟩; simp [h1]
    · constructor
      · rintro ⟨p, hp⟩
        split at hp <;> simp at hp
      · intro hc; exact absurd hd hc
    · constructor
      · rintro ⟨p, hp⟩
        split at hp <;> simp at hp
      · intro hc; exact absurd hd hc
    · constructor
      · intro hp
        split at hp <;> simp at hp
      · rintro ⟨hc, _⟩; exact absurd hd hc
    · intro app₂ h₂ hn₂
      obtain ⟨b, hb, _, hbt⟩ := hsame app₂ (by rw [h₂, ho, hd, hn₂])
      exact ⟨b, hb, hbt⟩
  · unfold updateTheme at h
    simp only [updateFont_eq, getThemeFont_trace, getThemeName, hname] at h
    rw [if_pos (by simpa using hd)] at h
    split at h
    · cases h
    · rename_i r b hb
      simp only [Option.some.injEq] at h
      subst h
      obtain ⟨hold, htr⟩ := applyTheme_some tk engine _ b hb
      have hold' : b.oldTheme = app.st.gtk.themeName := by
        rw [hold]; exact hname app
      have hfontmem : ∀ f, Effect.setFont f ∈
          (if app.font ≠ (getThemeFont engine stylePath app).1
            then [Effect.setFont (getThemeFont engine stylePath app).1] else []) ↔
          (f = (getThemeFont engine stylePath app).1 ∧ app.font ≠ f) := by
        intro f
        by_cases hf : app.font = (getThemeFont engine stylePath app).1
        · simp only [hf, ne_eq, not_true_eq_false, if_false]
          constructor
          · intro hm; simp at hm
          · rintro ⟨h1, h2⟩; exact absurd h1.symm h2
        · simp only [ne_eq, hf, not_false_eq_true, if_true]
          constructor
          · intro hm
            simp at hm
            exact ⟨hm, fun hc => hf (hc.trans hm)⟩
          · rintro ⟨h1, _⟩; simp [h1]
      have hnofont : ∀ e, e ∈ (if app.font ≠ (getThemeFont engine stylePath app).1
            then [Effect.setFont (getThemeFont engine stylePath app).1] else []) →
          ∃ f, e = Effect.setFont f := by
        intro e he
        split at he
        · exact ⟨_, by simpa using he⟩
        · simp at he
      have hsecond : ∀ app₂ : App, app₂.oldTheme = b.oldTheme →
          app₂.st.gtk.themeName = app.st.gtk.themeName →
          ∃ app₃, updateTheme tk engine stylePath app₂ = some app₃ ∧
            app₃.trace = app₂.trace ++ (Effect.pixmapCacheClear ::
              ((if app₂.font ≠ (getThemeFont engine stylePath app₂).1
                then [Effect.setFont (getThemeFont engine stylePath app₂).1] else []) ++
                [Effect.updateSystemTheme])) := by
        intro app₂ h₂ hn₂
        obtain ⟨c, hc, _, hct⟩ := hsame app₂ (by rw [h₂, hold', hn₂])
        exact ⟨c, hc, hct⟩
      rcases htr with ⟨hi, htr⟩ | ⟨hi, p₁, p₂, p₃, htr⟩
      · refine ⟨Effect.pixmapCacheClear ::
          ((if app.font ≠ (getThemeFont engine stylePath app).1
            then [Effect.setFont (getThemeFont engine stylePath app).1] else []) ++
          [Effect.setPalette app.standardPalette,
            Effect.styleChange app.widgets, Effect.updateSystemTheme]), ?_, ?_, ?_, ?_, ?_, ?_,
          ?_, hold', hsecond⟩
        · show b.trace ++ [Effect.updateSystemTheme] = _
          rw [htr]
          simp
        · simp
        · simp
        · intro f
          rw [List.mem_cons, List.mem_append, hfontmem f]
          simp
        · exact ⟨fun _ => hd, fun _ => ⟨app.standardPalette, by simp⟩⟩
        · exact ⟨fun _ => hd, fun _ => ⟨app.widgets, by simp⟩⟩
        · constructor
          · intro hm
            rcases List.mem_cons.mp hm with hm | hm
            · cases hm
            · rcases List.mem_append.mp hm with hm | hm
              · obtain ⟨f, hf⟩ := hnofont _ hm
                cases hf
              · simp at hm
          · rintro ⟨_, hne⟩; exact absurd hi hne
      · refine ⟨Effect.pixmapCacheClear ::
          ((if app.font ≠ (getThemeFont engine stylePath app).1
            then [Effect.setFont (getThemeFont engine stylePath app).1] else []) ++
          [Effect.setPalette app.standardPalette, Effect.rebuild,
            Effect.setClassPalette p₁ "QMenu", Effect.setClassPalette p₂ "QToolBar",
            Effect.setClassPalette p₃ "QMenuBar",
            Effect.styleChange app.widgets, Effect.updateSystemTheme]), ?_, ?_, ?_, ?_, ?_, ?_,
          ?_, hold', hsecond⟩
        · show b.trace ++ [Effect.updateSystemTheme] = _
          rw [htr]
          simp
        · simp
        · simp
        · intro f
          rw [List.mem_cons, List.mem_append, hfontmem f]
          simp
        · exact ⟨fun _ => hd, fun _ => ⟨app.standardPalette, by simp⟩⟩
        · exact ⟨fun _ => hd, fun _ => ⟨app.widgets, by simp⟩⟩
        · exact ⟨fun _ => ⟨hd, hi⟩, fun _ => by simp⟩

/-- C4, amended, for an application with one live style instance whose theme
has just changed to `Adwaita`. -/
theorem updateTheme_steps_witness :
    ∃ app', updateTheme gtk2 plainEngine "GtkWindow" (sampleApp [1]) = some app' ∧
      app'.oldTheme = "Adwaita" := by
  obtain ⟨app', h⟩ := Option.isSome_iff_exists.mp
    (show (updateTheme gtk2 plainEngine "GtkWindow" (sampleApp [1])).isSome = true by decide!)
  obtain ⟨_, _, _, _, _, _, _, _, hold, _⟩ :=
    updateTheme_steps gtk2 plainEngine "GtkWindow" (sampleApp [1]) app' h
  exact ⟨app', h, hold⟩

/-- C4 fails without a live style instance: the theme name differs from the name
applied last, the run completes, the palette is put and the style change is
sent, but the cache is not rebuilt. -/
theorem updateTheme_no_instance_counterexample :
    (sampleApp []).oldTheme ≠ (sampleApp []).st.gtk.themeName ∧
    (updateTheme gtk2 plainEngine "GtkWindow" (sampleApp [])).map
      (fun a => (a.trace.any Effect.isSetPalette, a.trace.any Effect.isStyleChange,
        a.trace.any Effect.isRebuild)) = some (true, true, false) := by
  decide!

/-! ### The style-change callback -/

/-- C20: the callback of the native style-change signal leaves the cache, the
toolkit, the font, the palette, the name applied last and everything done to
the framework as they are, and appends one `updateTheme` invocation to the
event queue; the update runs when the event loop takes the invocation. -/
theorem gtkStyleSetCallback_only_posts (tk : Toolkit) (engine : ThemeEngine)
    (stylePath : String) (app : App) :
    (gtkStyleSetCallback app).st = app.st ∧
    (gtkStyleSetCallback app).font = app.font ∧
    (gtkStyleSetCallback app).palette = app.palette ∧
    (gtkStyleSetCallback app).oldTheme = app.oldTheme ∧
    (gtkStyleSetCallback app).trace = app.trace ∧
    (gtkStyleSetCallback app).queue = app.queue ++ ["updateTheme"] ∧
    (app.queue = [] →
      processNext tk engine stylePath (gtkStyleSetCallback app) =
        updateTheme tk engine stylePath { app with metaTypeRegistered := true }) := by
  refine ⟨rfl, rfl, rfl, rfl, rfl, rfl, fun hq => ?_⟩
  unfold processNext gtkStyleSetCallback
  simp only [hq, List.nil_append, if_true]

/-! ### The callers of the lookup -/

theorem gtkWidget_fst (path : String) (s : St) : (gtkWidget path s).1 = s.map.value path := by
  unfold gtkWidget
  simp only [map_gtkWidgetMap]
  split
  · rename_i h; exact h.symm ▸ rfl
  · rfl

theorem gtkWidget_map (path : String) (s : St) : (gtkWidget path s).2.map = s.map := by
  unfold gtkWidget
  simp only [map_gtkWidgetMap]
  split <;> simp [map_gtkWidgetMap]

theorem gtkWidgetPalette_isSome (engine : ThemeEngine) (name : String) (app : App) :
    (gtkWidgetPalette engine name app).isSome = true ↔ app.st.map.value name ≠ 0 := by
  unfold gtkWidgetPalette
  simp only [gtkWidget_fst]
  by_cases h : app.st.map.value name = 0
  · simp [h]
  · simp [h]

theorem gtkWidgetPalette_map (engine : ThemeEngine) (name : String) (app : App)
    (pal : QPalette) (app' : App) (h : gtkWidgetPalette engine name app = some (pal, app')) :
    app'.st.map = app.st.map := by
  unfold gtkWidgetPalette at h
  simp only [] at h
  split at h
  · cases h
  · simp only [Option.some.injEq, Prod.mk.injEq] at h
    rw [← h.2]
    exact gtkWidget_map name app.st


theorem gtkWidgetPalette_none (engine : ThemeEngine) (name : String) (app : App)
    (h : app.st.map.value name = 0) : gtkWidgetPalette engine name app = none := by
  have := (gtkWidgetPalette_isSome engine name app).not.mpr (by simpa using h)
  cases hg : gtkWidgetPalette engine name app with
  | none => rfl
  | some x => rw [hg] at this; simp at this

theorem gtkWidgetPalette_some (engine : ThemeEngine) (name : String) (app : App)
    (h : app.st.map.value name ≠ 0) :
    ∃ pal app', gtkWidgetPalette engine name app = some (pal, app') := by
  have := (gtkWidgetPalette_isSome engine name app).mpr h
  cases hg : gtkWidgetPalette engine name app with
  | none => rw [hg] at this; simp at this
  | some x => exact ⟨x.1, x.2, rfl⟩

theorem value_zero_of_not_contains (m : WidgetMap) (p : String) (h : m.contains p = false) :
    m.value p = 0 := by
  unfold WidgetMap.contains at h
  unfold WidgetMap.value
  cases hf : m.find p with
  | none => rfl
  | some e => rw [hf] at h; simp at h

/-- C18, amended: `getTextColorWidget` completes for every cache and gives the
null pointer when the cache has no `GtkEntry`; `gtkWidgetPalette` asserts the
widget it looks up, so it completes exactly when the cache has a widget for
the name, and `applyCustomPaletteHash` completes exactly when the cache has
`GtkMenu`, `GtkToolbar` and `GtkMenuBar`. -/
theorem callers_of_lookup (engine : ThemeEngine) (app : App) :
    (getTextColorWidget app.st).1 = app.st.map.value "GtkEntry" ∧
    (app.st.map.contains "GtkEntry" = false → (getTextColorWidget app.st).1 = 0) ∧
    (∀ name, (gtkWidgetPalette engine name app).isSome = true ↔ app.st.map.value name ≠ 0) ∧
    ((applyCustomPaletteHash engine app).isSome = true ↔
      (app.st.map.value "GtkMenu" ≠ 0 ∧ app.st.map.value "GtkToolbar" ≠ 0 ∧
        app.st.map.value "GtkMenuBar" ≠ 0)) := by
  refine ⟨gtkWidget_fst _ _, fun h => ?_, fun name => gtkWidgetPalette_isSome engine name app, ?_⟩
  · show (gtkWidget "GtkEntry" app.st).1 = 0
    rw [gtkWidget_fst]
    exact value_zero_of_not_contains _ _ h
  · by_cases h1 : app.st.map.value "GtkMenu" = 0
    · have : applyCustomPaletteHash engine app = none := by
        unfold applyCustomPaletteHash
        rw [gtkWidgetPalette_none engine _ app h1]
      rw [this]
      simp [h1]
    · obtain ⟨pal1, a1, hp1⟩ := gtkWidgetPalette_some engine _ app h1
      have hm1 := gtkWidgetPalette_map _ _ _ _ _ hp1
      have hw1 : ¬ (gtkWidget "GtkMenu" a1.st).1 = 0 := by
        rw [gtkWidget_fst, hm1]; exact h1
      unfold applyCustomPaletteHash
      rw [hp1]
      simp only [hw1, if_false]
      by_cases h2 : app.st.map.value "GtkToolbar" = 0
      · rw [gtkWidgetPalette_none engine "GtkToolbar" _ (by
          show (gtkWidget "GtkMenu" a1.st).2.map.value "GtkToolbar" = 0
          rw [gtkWidget_map, hm1]; exact h2)]
        simp [h2]
      · obtain ⟨pal2, a2, hp2⟩ := gtkWidgetPalette_some engine "GtkToolbar"
          (setClassPalette
            { pal1 with
              base := qColorOf (engine.style (gtkWidget "GtkMenu" a1.st).2.gtk
                (gtkWidget "GtkMenu" a1.st).1).bgNormal,
              window := qColorOf (engine.style (gtkWidget "GtkMenu" a1.st).2.gtk
                (gtkWidget "GtkMenu" a1.st).1).bgNormal }
            "QMenu" { a1 with st := (gtkWidget "GtkMenu" a1.st).2.call Gtk.tick }) (by
          show (gtkWidget "GtkMenu" a1.st).2.map.value "GtkToolbar" ≠ 0
          rw [gtkWidget_map, hm1]; exact h2)
        have hm2 := gtkWidgetPalette_map _ _ _ _ _ hp2
        have hm2' : a2.st.map = app.st.map := by
          rw [hm2]
          show (gtkWidget "GtkMenu" a1.st).2.map = _
          rw [gtkWidget_map, hm1]
        rw [hp2]
        simp only []
        by_cases h3 : app.st.map.value "GtkMenuBar" = 0
        · rw [gtkWidgetPalette_none engine "GtkMenuBar" _ (by
            show a2.st.map.value "GtkMenuBar" = 0
            rw [hm2']; exact h3)]
          simp [h3]
        · obtain ⟨pal3, a3, hp3⟩ := gtkWidgetPalette_some engine "GtkMenuBar"
            (setClassPalette pal2 "QToolBar" a2) (by
            show a2.st.map.value "GtkMenuBar" ≠ 0
            rw [hm2']; exact h3)
          rw [hp3]
          simp [h1, h2, h3]

/-- C18 fails on the empty cache a refused initialization leaves:
`gtkWidgetPalette` stops at its assertion, `applyCustomPaletteHash` with it,
and `getSpinboxArrowSize` reads the style of the null pointer. -/
theorem callers_of_lookup_counterexample :
    refusedApp.st.map = [] ∧
    (gtkWidgetPalette plainEngine "GtkMenu" refusedApp).isSome = false ∧
    (applyCustomPaletteHash plainEngine refusedApp).isSome = false ∧
    (getSpinboxArrowSize plainEngine refusedApp.st).isSome = false := by
  decide!

/-! ### Teardown -/

/-- C19 at the failing input: after one rebuild `cleanupGtkWidgets` destroys
widget 42, the window the rebuild has made, while the button the cache holds
(widget 2) is not inside it; the key strings are all freed, none twice.  Before
the rebuild the window destroyed is widget 1, which does hold the button. -/
theorem cleanup_after_rebuild :
    (cleanupGtkWidgets rebuiltSt).gtk.destroyed = [42] ∧
    rebuiltSt.map.value "GtkButton" = 2 ∧
    rebuiltSt.gtk.isInside 42 2 = false ∧
    (cleanupGtkWidgets rebuiltSt).heap.live = [] ∧
    (cleanupGtkWidgets rebuiltSt).heap.doubleFrees = 0 ∧
    (cleanupGtkWidgets sampleSt).gtk.destroyed = [1] ∧
    sampleSt.gtk.isInside 1 2 = true := by
  decide!

/-! ### Response codes and the plugin factory -/

/-- C12: for every response code `onResponse` emits one signal, `accept` exactly
for `GTK_RESPONSE_OK` and `reject` exactly for every other code, the cancel
code among them. -/
theorem onResponse_accept_or_reject (r : Int) :
    (onResponse r).length = 1 ∧
    (DialogSignal.accept ∈ onResponse r ↔ r = GTK_RESPONSE_OK) ∧
    (DialogSignal.reject ∈ onResponse r ↔ r ≠ GTK_RESPONSE_OK) ∧
    onResponse GTK_RESPONSE_CANCEL = [DialogSignal.reject] := by
  unfold onResponse
  refine ⟨?_, ?_, ?_, by decide⟩ <;> by_cases h : r = GTK_RESPONSE_OK <;> simp [h]

/-- C16: `create` gives a style exactly when the running major and minor
version equal those of the build and the key is `gtk2`, `qt6gtk2` or `qt5gtk2`;
on a version mismatch it gives nothing for every key, the three valid ones
included, and logs one critical message. -/
theorem create_iff_version_and_key (built : BuiltAgainst) (v : QVersionNumber) (key : String) :
    ((Qt6Gtk2StylePlugin.create built v key).1.isSome = true ↔
      (v.majorVersion = built.QT_VERSION_MAJOR ∧ v.minorVersion = built.QT_VERSION_MINOR) ∧
        (key = "gtk2" ∨ key = "qt6gtk2" ∨ key = "qt5gtk2")) ∧
    (¬ (v.majorVersion = built.QT_VERSION_MAJOR ∧ v.minorVersion = built.QT_VERSION_MINOR) →
      (Qt6Gtk2StylePlugin.create built v key).1 = none ∧
      (Qt6Gtk2StylePlugin.create built v "gtk2").1 = none ∧
      (Qt6Gtk2StylePlugin.create built v "qt6gtk2").1 = none ∧
      (Qt6Gtk2StylePlugin.create built v "qt5gtk2").1 = none ∧
      (Qt6Gtk2StylePlugin.create built v key).2.length = 1) := by
  unfold Qt6Gtk2StylePlugin.create
  by_cases hv : v.majorVersion = built.QT_VERSION_MAJOR ∧ v.minorVersion = built.QT_VERSION_MINOR
  · obtain ⟨h1, h2⟩ := hv
    by_cases hk : key = "gtk2" ∨ key = "qt6gtk2" ∨ key = "qt5gtk2"
    · simp [h1, h2, hk]
    · simp [h1, h2, hk]
  · have hv2 : v.majorVersion ≠ built.QT_VERSION_MAJOR ∨ v.minorVersion ≠ built.QT_VERSION_MINOR := by
      by_contra hc
      push_neg at hc
      exact hv hc
    simp [hv2, hv]


/-! ### Equality and hash of the keys -/

theorem strcmp_eq_zero_iff (a : List Nat) : ∀ b : List Nat, 0 ∉ a → 0 ∉ b →
    (strcmp a b = 0 ↔ a = b) := by
  induction a with
  | nil =>
    intro b _ hb
    cases b with
    | nil => simp [strcmp]
    | cons y ys =>
      have hy : y ≠ 0 := fun h => hb (by simp [h])
      simp [strcmp, hy]
  | cons x xs ih =>
    intro b ha hb
    have hx : x ≠ 0 := fun h => ha (by simp [h])
    have hxs : 0 ∉ xs := fun h => ha (List.mem_cons_of_mem _ h)
    cases b with
    | nil => simp [strcmp, hx]
    | cons y ys =>
      have hys : 0 ∉ ys := fun h => hb (List.mem_cons_of_mem _ h)
      by_cases hxy : x = y
      · subst hxy
        simp [strcmp, hx, ih ys hxs hys]
      · have hne : (x : Int) - (y : Int) ≠ 0 := by omega
        have hstep : strcmp (x :: xs) (y :: ys) = (x : Int) - (y : Int) := by
          rw [strcmp, if_pos hxy]
        rw [hstep]
        exact ⟨fun h => absurd h hne, fun h => absurd (List.cons.inj h).1 hxy⟩

/-- C17, amended: for cache keys whose recorded bytes hold no zero byte,
`operator==` holds exactly when the two keys have the same length and the same
bytes, and keys that are equal have the same `qHash`. -/
theorem key_eq_iff_same_bytes (k1 k2 : QHashableLatin1Literal)
    (h1 : 0 ∉ k1.bytes) (h2 : 0 ∉ k2.bytes) :
    (k1.eq k2 = true ↔ k1.size = k2.size ∧ k1.bytes = k2.bytes) ∧
    (k1.eq k2 = true → qHash k1 = qHash k2) := by
  have key : k1.eq k2 = true ↔ k1.size = k2.size ∧ k1.bytes = k2.bytes := by
    unfold QHashableLatin1Literal.eq qstrcmp
    simp only [Bool.and_eq_true, beq_iff_eq]
    rw [strcmp_eq_zero_iff _ _ h1 h2]
  refine ⟨key, fun h => ?_⟩
  unfold qHash
  rw [(key.mp h).2]

/-- C17, amended, for two copies of the key `GtkWindow`. -/
theorem key_eq_iff_same_bytes_witness :
    (({ data := 1, str := "GtkWindow" } : QHashableLatin1Literal).eq
        { data := 2, str := "GtkWindow" } = true ↔
      ({ data := 1, str := "GtkWindow" } : QHashableLatin1Literal).size =
        ({ data := 2, str := "GtkWindow" } : QHashableLatin1Literal).size ∧
      ({ data := 1, str := "GtkWindow" } : QHashableLatin1Literal).bytes =
        ({ data := 2, str := "GtkWindow" } : QHashableLatin1Literal).bytes) ∧
    (({ data := 1, str := "GtkWindow" } : QHashableLatin1Literal).eq
        { data := 2, str := "GtkWindow" } = true →
      qHash { data := 1, str := "GtkWindow" } = qHash { data := 2, str := "GtkWindow" }) :=
  key_eq_iff_same_bytes _ _ (by decide!) (by decide!)

/-- C17 fails for keys with a zero byte inside: `operator==` holds for the
keys `a\0b` and `a\0c` of length three although their bytes and their hashes
differ. -/
theorem key_eq_zero_byte_counterexample :
    zeroKeyB.eq zeroKeyC = true ∧ zeroKeyB.size = zeroKeyC.size ∧
    zeroKeyB.bytes ≠ zeroKeyC.bytes ∧ qHash zeroKeyB ≠ qHash zeroKeyC := by
  decide!

/-! ### Signals of the file dialog -/

theorem onAccepted_emitted (d : FileDialog) :
    (onAccepted d).emitted =
      d.emitted ++ [FileSignal.accept]
        ++ (if selectedNameFilter d = "" then [FileSignal.filterSelected (selectedNameFilter d)]
            else [])
        ++ [FileSignal.filesSelected (selectedFiles d)]
        ++ (match selectedFiles d with
            | [file] => [FileSignal.fileSelected file]
            | _ => []) := by
  have hsel : ∀ e, selectedFiles { d with emitted := e } = selectedFiles d := fun _ => rfl
  have hflt : ∀ e, selectedNameFilter { d with emitted := e } = selectedNameFilter d := fun _ => rfl
  unfold onAccepted
  simp only [hflt]
  by_cases hf : selectedNameFilter d = ""
  · simp only [hf, if_true, hsel]
    rcases hF : selectedFiles d with _ | ⟨u, _ | ⟨v, rest⟩⟩ <;> simp
  · simp only [hf, if_false, hsel]
    rcases hF : selectedFiles d with _ | ⟨u, _ | ⟨v, rest⟩⟩ <;> simp

/-- C13: on accept the adapter emits, after what it emitted before,
`filesSelected` once, carrying the selection `F` read from the dialog, and
`fileSelected u` exactly when `F` is the one-element list of `u`, at most once. -/
theorem onAccepted_file_signals (d : FileDialog) :
    ∃ new, (onAccepted d).emitted = d.emitted ++ new ∧
      new.filter FileSignal.isFilesSelected = [FileSignal.filesSelected (selectedFiles d)] ∧
      (∀ u, FileSignal.fileSelected u ∈ new ↔ selectedFiles d = [u]) ∧
      (new.filter FileSignal.isFileSelected).length ≤ 1 := by
  refine ⟨[FileSignal.accept]
        ++ (if selectedNameFilter d = "" then [FileSignal.filterSelected (selectedNameFilter d)]
            else [])
        ++ [FileSignal.filesSelected (selectedFiles d)]
        ++ (match selectedFiles d with
            | [file] => [FileSignal.fileSelected file]
            | _ => []), ?_, ?_, ?_, ?_⟩
  · rw [onAccepted_emitted]; simp only [List.append_assoc]
  · by_cases hf : selectedNameFilter d = "" <;>
      rcases hF : selectedFiles d with _ | ⟨u, _ | ⟨v, rest⟩⟩ <;>
      simp [hf, FileSignal.isFilesSelected]
  · intro w
    by_cases hf : selectedNameFilter d = "" <;>
      rcases hF : selectedFiles d with _ | ⟨u, _ | ⟨v, rest⟩⟩ <;>
      simp [hf, eq_comm]
  · by_cases hf : selectedNameFilter d = "" <;>
      rcases hF : selectedFiles d with _ | ⟨u, _ | ⟨v, rest⟩⟩ <;>
      simp [hf, FileSignal.isFileSelected]

/-- C14 at the failing input: with the filter `Images (*.png *.jpg)` selected,
`onAccepted` emits `accept` and `filesSelected` and no `filterSelected`; the
signal is emitted for a dialog without filters, carrying the empty string. -/
theorem onAccepted_selected_filter :
    selectedNameFilter filteredDialog = "Images (*.png *.jpg)" ∧
    (onAccepted filteredDialog).emitted = [FileSignal.accept, FileSignal.filesSelected []] ∧
    (∀ s ∈ (onAccepted filteredDialog).emitted, s.isFilterSelected = false) ∧
    (onAccepted newFileDialog).emitted =
      [FileSignal.accept, FileSignal.filterSelected "", FileSignal.filesSelected []] := by
  decide!

/-- C15: after `onUpdatePreview` the preview pane is active exactly when a
hovered path is present, exists, is a file, and the decoder bounded by 256 by 512
gave a pixbuf; the function always returns, and emits no signal. -/
theorem onUpdatePreview_active_iff (out : Outside) (d : FileDialog) :
    ((onUpdatePreview out d).gtk.previewActive = true ↔
      ∃ filename, d.gtk.previewFilename = some filename ∧ out.fileExists filename = true ∧
        out.isFile filename = true ∧ (out.decode filename 256 512).isSome = true) ∧
    (onUpdatePreview out d).emitted = d.emitted := by
  unfold onUpdatePreview PREVIEW_WIDTH PREVIEW_HEIGHT
  cases hp : d.gtk.previewFilename with
  | none => simp
  | some f =>
    by_cases he : out.fileExists f = true <;> by_cases hi : out.isFile f = true <;>
      cases hd : out.decode f 256 512 <;> simp [he, hi, hd]

/-- C7 at the failing input: a dialog hidden with an empty selection has the
empty list as snapshot, and `selectedFiles` then gives what the hidden legacy
dialog reports. -/
theorem hide_empty_selection_serves_legacy :
    selectedFiles shownEmptyDialog = [] ∧
    (fileDialogHide plainOutside shownEmptyDialog)._selection = [] ∧
    selectedFiles
      (HiddenStep.run plainOutside (fileDialogHide plainOutside shownEmptyDialog)
        (HiddenStep.legacy (fun g => { g with filenames := ["/home/stale"] })))
      = [QUrl.fromLocalFile "/home/stale"] := by
  decide!

/-! ### The snapshot of the file dialog -/

theorem foldl_snapshot {α : Type} (f : FileDialog → α → FileDialog)
    (hf : ∀ d a, (f d a)._dir = d._dir ∧ (f d a)._selection = d._selection) :
    ∀ (l : List α) (d : FileDialog),
      (l.foldl f d)._dir = d._dir ∧ (l.foldl f d)._selection = d._selection := by
  intro l
  induction l with
  | nil => intro d; exact ⟨rfl, rfl⟩
  | cons a l ih =>
    intro d
    rw [List.foldl_cons]
    exact ⟨(ih (f d a)).1.trans (hf d a).1, (ih (f d a)).2.trans (hf d a).2⟩

theorem setNameFilters_snapshot (out : Outside) (fs : List String) (d : FileDialog) :
    (setNameFilters out fs d)._dir = d._dir ∧
    (setNameFilters out fs d)._selection = d._selection := by
  unfold setNameFilters
  exact foldl_snapshot (addNameFilter out) (fun _ _ => ⟨rfl, rfl⟩) fs _

theorem selectFile_snapshot (out : Outside) (u : QUrl) (d : FileDialog) :
    (selectFile out u d)._dir = d._dir ∧ (selectFile out u d)._selection = d._selection := by
  unfold selectFile
  split <;> exact ⟨rfl, rfl⟩

theorem selectNameFilter_snapshot (f : String) (d : FileDialog) :
    (selectNameFilter f d)._dir = d._dir ∧ (selectNameFilter f d)._selection = d._selection := by
  unfold selectNameFilter
  dsimp only
  split <;> exact ⟨rfl, rfl⟩

theorem selectFiles_snapshot (out : Outside) (us : List QUrl) (d : FileDialog) :
    (us.foldl (fun d filename => selectFile out filename d) d)._dir = d._dir ∧
    (us.foldl (fun d filename => selectFile out filename d) d)._selection = d._selection :=
  foldl_snapshot (fun d filename => selectFile out filename d)
    (fun d a => selectFile_snapshot out a d) us d

theorem applyOptions_snapshot (out : Outside) (d : FileDialog) :
    (applyOptions out d)._dir = d._dir ∧ (applyOptions out d)._selection = d._selection := by
  unfold applyOptions
  dsimp only
  simp only [apply_ite FileDialog._dir, apply_ite FileDialog._selection,
    (selectNameFilter_snapshot _ _).1, (selectNameFilter_snapshot _ _).2,
    (selectFiles_snapshot _ _ _).1, (selectFiles_snapshot _ _ _).2,
    (setNameFilters_snapshot _ _ _).1, (setNameFilters_snapshot _ _ _).2,
    setDirectory, ite_self, and_self]

theorem hiddenStep_snapshot (out : Outside) (d : FileDialog) (step : HiddenStep)
    (hD : d._dir.isEmpty = false) (hS : d._selection ≠ []) :
    (step.run out d)._dir = d._dir ∧ (step.run out d)._selection = d._selection := by
  cases step with
  | hide =>
    have h1 : directory d = d._dir := by unfold directory; simp [hD]
    have h2 : ∀ u, selectedFiles { d with _dir := u } = d._selection := by
      intro u
      unfold selectedFiles
      cases hs : d._selection with
      | nil => exact absurd hs hS
      | cons a l => simp [hs]
    show (fileDialogHide out d)._dir = d._dir ∧ (fileDialogHide out d)._selection = d._selection
    unfold fileDialogHide
    exact ⟨h1, h2 _⟩
  | setDirectory u => exact ⟨rfl, rfl⟩
  | selectFile u => exact selectFile_snapshot out u d
  | setFilter => exact applyOptions_snapshot out d
  | setNameFilters fs => exact setNameFilters_snapshot out fs d
  | selectNameFilter f => exact selectNameFilter_snapshot f d
  | onAccepted =>
    show (onAccepted d)._dir = d._dir ∧ (onAccepted d)._selection = d._selection
    unfold onAccepted
    dsimp only
    split <;> split <;> exact ⟨rfl, rfl⟩
  | onSelectionChanged => exact ⟨rfl, rfl⟩
  | onCurrentFolderChanged => exact ⟨rfl, rfl⟩
  | onUpdatePreview =>
    show (onUpdatePreview out d)._dir = d._dir ∧ (onUpdatePreview out d)._selection = d._selection
    unfold onUpdatePreview
    split
    · exact ⟨rfl, rfl⟩
    · split <;> exact ⟨rfl, rfl⟩
  | legacy change => exact ⟨rfl, rfl⟩

theorem hiddenSteps_snapshot (out : Outside) (steps : List HiddenStep) :
    ∀ d : FileDialog, d._dir.isEmpty = false → d._selection ≠ [] →
      (steps.foldl (HiddenStep.run out) d)._dir = d._dir ∧
      (steps.foldl (HiddenStep.run out) d)._selection = d._selection := by
  induction steps with
  | nil => intro d _ _; exact ⟨rfl, rfl⟩
  | cons step steps ih =>
    intro d hD hS
    rw [List.foldl_cons]
    have h := hiddenStep_snapshot out d step hD hS
    have h2 := ih (step.run out d) (by rw [h.1]; exact hD) (by rw [h.2]; exact hS)
    exact ⟨h2.1.trans h.1, h2.2.trans h.2⟩

/-- C5: when the selection `S` is not empty and the directory `D` is not the
empty URL at `hide`, then after any sequence of adapter calls other than `show`
and of changes of the legacy dialog, `selectedFiles` is `S` and `directory` is
`D`. -/
theorem hide_serves_snapshot (out : Outside) (d : FileDialog) (steps : List HiddenStep)
    (hS : selectedFiles d ≠ []) (hD : (directory d).isEmpty = false) :
    selectedFiles (steps.foldl (HiddenStep.run out) (fileDialogHide out d)) = selectedFiles d ∧
    directory (steps.foldl (HiddenStep.run out) (fileDialogHide out d)) = directory d := by
  have h0 : (fileDialogHide out d)._dir = directory d ∧
      (fileDialogHide out d)._selection = selectedFiles d := ⟨rfl, rfl⟩
  have h := hiddenSteps_snapshot out steps (fileDialogHide out d)
    (by rw [h0.1]; exact hD) (by rw [h0.2]; exact hS)
  rw [h0.1, h0.2] at h
  generalize steps.foldl (HiddenStep.run out) (fileDialogHide out d) = e at h
  constructor
  · have hne : e._selection ≠ [] := by rw [h.2]; exact hS
    have : selectedFiles e = e._selection := by
      unfold selectedFiles
      cases hs : e._selection with
      | nil => exact absurd hs hne
      | cons a l => simp
    rw [this, h.2]
  · have hne : e._dir.isEmpty = false := by rw [h.1]; exact hD
    have : directory e = e._dir := by unfold directory; simp [hne]
    rw [this, h.1]

/-- C5 for a dialog with two files selected in `/home`, when the hidden legacy
dialog answers nothing and the directory is set and `hide` called once more. -/
theorem hide_serves_snapshot_witness :
    selectedFiles shownDialog ≠ [] ∧ (directory shownDialog).isEmpty = false ∧
    selectedFiles
      ([HiddenStep.legacy (fun g => { g with folder := none, filenames := [] }),
        HiddenStep.setDirectory (QUrl.fromLocalFile "/tmp"), HiddenStep.hide].foldl
        (HiddenStep.run plainOutside) (fileDialogHide plainOutside shownDialog))
      = selectedFiles shownDialog ∧
    directory
      ([HiddenStep.legacy (fun g => { g with folder := none, filenames := [] }),
        HiddenStep.setDirectory (QUrl.fromLocalFile "/tmp"), HiddenStep.hide].foldl
        (HiddenStep.run plainOutside) (fileDialogHide plainOutside shownDialog))
      = directory shownDialog :=
  ⟨by decide!, by decide!, hide_serves_snapshot plainOutside shownDialog _ (by decide!) (by decide!)⟩

/-- C6: `show` returns `true` and leaves both snapshots empty, whatever they
were, so `directory` and `selectedFiles` are what the legacy dialog answers,
and stay so for every later state of the legacy dialog. -/
theorem show_clears_snapshot (out : Outside) (d : FileDialog) :
    (fileDialogShow out d).1 = true ∧
    (fileDialogShow out d).2._dir = QUrl.null ∧
    (fileDialogShow out d).2._selection = [] ∧
    directory (fileDialogShow out d).2
      = QUrl.fromLocalFile ((fileDialogShow out d).2.gtk.folder.getD "") ∧
    selectedFiles (fileDialogShow out d).2
      = (fileDialogShow out d).2.gtk.filenames.map QUrl.fromLocalFile ∧
    ∀ g : GtkFileChooser,
      directory { (fileDialogShow out d).2 with gtk := g }
        = QUrl.fromLocalFile (g.folder.getD "") ∧
      selectedFiles { (fileDialogShow out d).2 with gtk := g }
        = g.filenames.map QUrl.fromLocalFile := by
  have h1 : (fileDialogShow out d).2._dir = QUrl.null :=
    (applyOptions_snapshot out _).1
  have h2 : (fileDialogShow out d).2._selection = [] :=
    (applyOptions_snapshot out _).2
  have hdir : ∀ e : FileDialog, e._dir = QUrl.null →
      directory e = QUrl.fromLocalFile (e.gtk.folder.getD "") := by
    intro e he
    unfold directory
    rw [he]
    cases e.gtk.folder <;> simp [QUrl.null, QUrl.isEmpty]
  have hsel : ∀ e : FileDialog, e._selection = [] →
      selectedFiles e = e.gtk.filenames.map QUrl.fromLocalFile := by
    intro e he
    unfold selectedFiles
    rw [he]
    simp
  exact ⟨rfl, h1, h2, hdir _ h1, hsel _ h2, fun g => ⟨hdir _ h1, hsel _ h2⟩⟩

/-! ### The lookup tables of the name filters -/

theorem hashValue_cons {κ ν : Type} [DecidableEq κ] (dflt : ν) (m : List (κ × ν)) (k k' : κ)
    (v : ν) : hashValue dflt ((k, v) :: m) k' = if k = k' then v else hashValue dflt m k' := by
  unfold hashValue
  by_cases h : k = k'
  · simp [List.find?_cons, h]
  · simp [List.find?_cons, h]

theorem hashValue_map {κ ν : Type} [DecidableEq κ] (dflt : ν) (k k' : κ) (v : ν) :
    ∀ m : List (κ × ν),
      hashValue dflt (m.map (fun e => if e.1 == k then (e.1, v) else e)) k' =
        if k' = k then (if m.any (fun e => e.1 == k) then v else dflt)
        else hashValue dflt m k' := by
  intro m
  induction m with
  | nil => simp [hashValue]
  | cons e m ih =>
    obtain ⟨a, b⟩ := e
    rw [List.map_cons]
    by_cases hak : a = k
    · subst hak
      simp only [beq_self_eq_true, if_true, hashValue_cons]
      by_cases hk : a = k'
      · subst hk; simp
      · have hk2 : ¬ k' = a := fun h => hk h.symm
        rw [if_neg hk, if_neg hk2, if_neg hk, ih, if_neg hk2]
    · have hb : (a == k) = false := by simpa using hak
      simp only [hb, Bool.false_eq_true, if_false, hashValue_cons, List.any_cons, Bool.false_or]
      by_cases hk : a = k'
      · subst hk
        rw [if_pos rfl, if_neg hak, if_pos rfl]
      · rw [if_neg hk, ih, if_neg hk]

theorem hashValue_insert_self {κ ν : Type} [DecidableEq κ] (dflt : ν) (m : List (κ × ν)) (k : κ)
    (v : ν) : hashValue dflt (hashInsert m k v) k = v := by
  unfold hashInsert
  by_cases h : m.any (fun e => e.1 == k) = true
  · rw [if_pos h, hashValue_map, if_pos rfl, if_pos h]
  · rw [if_neg h, hashValue_cons, if_pos rfl]

theorem hashValue_insert_other {κ ν : Type} [DecidableEq κ] (dflt : ν) (m : List (κ × ν))
    (k k' : κ) (v : ν) (hne : k' ≠ k) :
    hashValue dflt (hashInsert m k v) k' = hashValue dflt m k' := by
  unfold hashInsert
  by_cases h : m.any (fun e => e.1 == k) = true
  · rw [if_pos h, hashValue_map, if_neg hne]
  · rw [if_neg h, hashValue_cons, if_neg (fun h => hne h.symm)]

theorem hashInsert_new {κ ν : Type} [DecidableEq κ] (m : List (κ × ν)) (k : κ) (v : ν)
    (hnew : ∀ e ∈ m, e.1 ≠ k) : hashInsert m k v = (k, v) :: m := by
  unfold hashInsert
  have h : ¬ m.any (fun e => e.1 == k) = true := by
    rw [List.any_eq_true]
    rintro ⟨e, he, hk⟩
    exact hnew e he (by simpa using hk)
  rw [if_neg h]

/-! ### The legacy filter calls -/

theorem add_pattern_frame (f : Nat) (ext : String) (g : GtkFileChooser) :
    (g.gtk_file_filter_add_pattern f ext).created = g.created ∧
    (g.gtk_file_filter_add_pattern f ext).filters = g.filters ∧
    (g.gtk_file_filter_add_pattern f ext).filter = g.filter ∧
    (g.gtk_file_filter_add_pattern f ext).named = g.named := by
  refine ⟨rfl, rfl, rfl, ?_⟩
  unfold GtkFileChooser.named GtkFileChooser.gtk_file_filter_add_pattern
  dsimp only
  rw [List.map_map]
  apply List.map_congr_left
  intro o _
  by_cases h : o.handle = f <;> simp [h]

theorem add_patterns_frame (f : Nat) (exts : List String) :
    ∀ g : GtkFileChooser,
      (exts.foldl (fun g ext => g.gtk_file_filter_add_pattern f ext) g).created = g.created ∧
      (exts.foldl (fun g ext => g.gtk_file_filter_add_pattern f ext) g).filters = g.filters ∧
      (exts.foldl (fun g ext => g.gtk_file_filter_add_pattern f ext) g).filter = g.filter ∧
      (exts.foldl (fun g ext => g.gtk_file_filter_add_pattern f ext) g).named = g.named := by
  induction exts with
  | nil => intro g; exact ⟨rfl, rfl, rfl, rfl⟩
  | cons e exts ih =>
    intro g
    rw [List.foldl_cons]
    obtain ⟨h1, h2, h3, h4⟩ := ih (g.gtk_file_filter_add_pattern f e)
    obtain ⟨k1, k2, k3, k4⟩ := add_pattern_frame f e g
    exact ⟨h1.trans k1, h2.trans k2, h3.trans k3, h4.trans k4⟩

theorem set_name_named (f : Nat) (name : String) (g : GtkFileChooser) :
    (g.gtk_file_filter_set_name f name).named =
      g.named.map (fun p => if p.1 = f then (p.1, name) else p) := by
  unfold GtkFileChooser.named GtkFileChooser.gtk_file_filter_set_name
  dsimp only
  rw [List.map_map, List.map_map]
  apply List.map_congr_left
  intro o _
  by_cases h : o.handle = f <;> simp [h]

theorem add_filter_frame (f : Nat) (g : GtkFileChooser) :
    (g.gtk_file_chooser_add_filter f).created = g.created ∧
    (g.gtk_file_chooser_add_filter f).named = g.named ∧
    (g.gtk_file_chooser_add_filter f).filters =
      if f ∈ g.filters then g.filters else g.filters ++ [f] := by
  unfold GtkFileChooser.gtk_file_chooser_add_filter
  by_cases h : f ∈ g.filters
  · simp [h]
  · simp [h, GtkFileChooser.named]

/-- What one round of the second loop of `setNameFilters` does. -/
theorem addNameFilter_step (out : Outside) (d : FileDialog) (x : String) :
    (addNameFilter out d x)._filters = hashInsert d._filters x (d.gtk.created + 1) ∧
    (addNameFilter out d x)._filterNames = hashInsert d._filterNames (d.gtk.created + 1) x ∧
    (addNameFilter out d x).gtk.created = d.gtk.created + 1 ∧
    (addNameFilter out d x).gtk.filters =
      (if d.gtk.created + 1 ∈ d.gtk.filters then d.gtk.filters
       else d.gtk.filters ++ [d.gtk.created + 1]) ∧
    (addNameFilter out d x).gtk.named =
      (d.gtk.created + 1, filterDisplayName out x) ::
        d.gtk.named.map
          (fun p => if p.1 = d.gtk.created + 1 then (p.1, filterDisplayName out x) else p) := by
  refine ⟨rfl, rfl, ?_, ?_, ?_⟩
  · unfold addNameFilter
    dsimp only
    rw [(add_filter_frame _ _).1, (add_patterns_frame _ _ _).1]
    rfl
  · unfold addNameFilter
    dsimp only
    rw [(add_filter_frame _ _).2.2, (add_patterns_frame _ _ _).2.1]
    rfl
  · unfold addNameFilter
    dsimp only
    rw [(add_filter_frame _ _).2.1, (add_patterns_frame _ _ _).2.2.2, set_name_named]
    simp [GtkFileChooser.named, GtkFileChooser.gtk_file_filter_new]


/-! ### The display name of a filter -/

theorem indexOf_spec (c : Char) : ∀ l : List Char,
    (c ∉ l → indexOf c l = -1) ∧
    (c ∈ l → indexOf c l = ((l.takeWhile (fun x => x != c)).length : Int) ∧
      (l.takeWhile (fun x => x != c)).length < l.length) := by
  intro l
  induction l with
  | nil => simp [indexOf]
  | cons x xs ih =>
    by_cases hx : x = c
    · subst hx
      simp [indexOf]
    · have hc : ¬ c = x := fun h => hx h.symm
      constructor
      · intro hn
        have hn2 : c ∉ xs := fun h => hn (List.mem_cons_of_mem _ h)
        simp [indexOf, hx, ih.1 hn2]
      · intro hm
        have hm2 : c ∈ xs := by
          rcases List.mem_cons.mp hm with h | h
          · exact absurd h hc
          · exact h
        obtain ⟨h1, h2⟩ := ih.2 hm2
        have hne : indexOf c xs ≠ -1 := by rw [h1]; omega
        have hb : (x != c) = true := by simpa using hx
        simp only [indexOf, if_neg hx, if_neg hne, List.takeWhile_cons, hb, if_true,
          List.length_cons, h1]
        constructor
        · push_cast; ring
        · omega

theorem take_length_takeWhile (p : Char → Bool) : ∀ l : List Char,
    l.take (l.takeWhile p).length = l.takeWhile p := by
  intro l
  induction l with
  | nil => rfl
  | cons x xs ih =>
    by_cases hp : p x = true
    · simp [List.takeWhile_cons, hp, ih]
    · simp [List.takeWhile_cons, hp]

/-- The text `setNameFilters` takes for the name: what stands before the first
`(`, the whole spec when there is none. -/
theorem left_indexOf (spec : String) :
    left spec (indexOf '(' spec.data) =
      if '(' ∈ spec.data then String.mk (spec.data.takeWhile (fun c => c != '(')) else spec := by
  unfold left
  by_cases h : '(' ∈ spec.data
  · obtain ⟨h1, h2⟩ := (indexOf_spec '(' spec.data).2 h
    rw [if_pos h, h1, if_neg (by omega)]
    simp only [Int.toNat_ofNat]
    rw [take_length_takeWhile]
  · rw [if_neg h, (indexOf_spec '(' spec.data).1 h, if_pos (Or.inl (by decide))]

theorem takeWhile_append_stop (c : Char) (rest : List Char) : ∀ name : List Char, c ∉ name →
    (name ++ c :: rest).takeWhile (fun x => x != c) = name := by
  intro name
  induction name with
  | nil => intro _; simp [List.takeWhile_cons]
  | cons x xs ih =>
    intro hn
    have hx : ¬ x = c := fun h => hn (by simp [h])
    have hxs : c ∉ xs := fun h => hn (List.mem_cons_of_mem _ h)
    have hb : (x != c) = true := by simpa using hx
    rw [List.cons_append, List.takeWhile_cons, hb, if_pos rfl, ih hxs]

theorem filterDisplayName_named (out : Outside) (name rest : String) (h1 : name ≠ "")
    (h2 : '(' ∉ name.data) : filterDisplayName out (name ++ "(" ++ rest) = name := by
  unfold filterDisplayName
  dsimp only
  have hdata : (name ++ "(" ++ rest).data = name.data ++ '(' :: rest.data := by
    simp [String.data_append]
  have hleft : left (name ++ "(" ++ rest) (indexOf '(' (name ++ "(" ++ rest).data) = name := by
    rw [left_indexOf, hdata, if_pos (by simp), takeWhile_append_stop _ _ _ h2]
  rw [hleft, if_neg h1]

theorem addNameFilter_named (out : Outside) (d : FileDialog) (x : String) (Q : String → Prop)
    (h : ∀ s, Q s → hashValue 0 d._filters s ≤ d.gtk.created ∧
      (hashValue 0 d._filters s, filterDisplayName out s) ∈ d.gtk.named) :
    ∀ s, Q s ∨ s = x →
      hashValue 0 (addNameFilter out d x)._filters s ≤ (addNameFilter out d x).gtk.created ∧
      (hashValue 0 (addNameFilter out d x)._filters s, filterDisplayName out s)
        ∈ (addNameFilter out d x).gtk.named := by
  obtain ⟨e1, _, e3, _, e5⟩ := addNameFilter_step out d x
  intro s hs
  by_cases hsx : s = x
  · subst hsx
    rw [e1, hashValue_insert_self, e3, e5]
    exact ⟨le_refl _, List.mem_cons_self _ _⟩
  · have hq : Q s := hs.resolve_right hsx
    obtain ⟨hle, hmem⟩ := h s hq
    rw [e1, hashValue_insert_other _ _ _ _ _ hsx, e3, e5]
    refine ⟨Nat.le_succ_of_le hle, List.mem_cons_of_mem _ (List.mem_map.mpr ⟨_, hmem, ?_⟩)⟩
    have hne : ¬ hashValue 0 d._filters s = d.gtk.created + 1 := by omega
    simp only [hne, if_false]

theorem addNameFilters_named (out : Outside) : ∀ (L : List String) (d : FileDialog)
    (Q : String → Prop),
    (∀ s, Q s → hashValue 0 d._filters s ≤ d.gtk.created ∧
      (hashValue 0 d._filters s, filterDisplayName out s) ∈ d.gtk.named) →
    ∀ s, Q s ∨ s ∈ L →
      hashValue 0 (L.foldl (addNameFilter out) d)._filters s
        ≤ (L.foldl (addNameFilter out) d).gtk.created ∧
      (hashValue 0 (L.foldl (addNameFilter out) d)._filters s, filterDisplayName out s)
        ∈ (L.foldl (addNameFilter out) d).gtk.named := by
  intro L
  induction L with
  | nil =>
    intro d Q h s hs
    exact h s (hs.resolve_right (List.not_mem_nil s))
  | cons x L ih =>
    intro d Q h s hs
    rw [List.foldl_cons]
    refine ih (addNameFilter out d x) (fun s => Q s ∨ s = x) (addNameFilter_named out d x Q h) s ?_
    rcases hs with hq | hm
    · exact Or.inl (Or.inl hq)
    · rcases List.mem_cons.mp hm with h1 | h1
      · exact Or.inl (Or.inr h1)
      · exact Or.inr h1

/-- C11: for every spec of the list given to `setNameFilters`, the filter
object entered for it carries as name the text of the spec before its first `(`
(the whole spec when it has none), and the patterns joined with `, ` when that
text is empty; a spec `name ++ "(" ++ rest` with a non-empty `name` without `(`
is named `name`. -/
theorem setNameFilters_display_name (out : Outside) (L : List String) (d : FileDialog)
    (spec : String) (hspec : spec ∈ L) :
    (hashValue 0 (setNameFilters out L d)._filters spec,
      if (if '(' ∈ spec.data then String.mk (spec.data.takeWhile (fun c => c != '('))
          else spec) = ""
      then ", ".intercalate (out.cleanFilterList spec)
      else (if '(' ∈ spec.data then String.mk (spec.data.takeWhile (fun c => c != '('))
            else spec))
      ∈ (setNameFilters out L d).gtk.named ∧
    ∀ name rest : String, name ≠ "" → '(' ∉ name.data → spec = name ++ "(" ++ rest →
      (hashValue 0 (setNameFilters out L d)._filters spec, name)
        ∈ (setNameFilters out L d).gtk.named := by
  have key : (hashValue 0 (setNameFilters out L d)._filters spec, filterDisplayName out spec)
      ∈ (setNameFilters out L d).gtk.named := by
    unfold setNameFilters
    exact (addNameFilters_named out L _ (fun _ => False) (fun _ hf => hf.elim) spec
      (Or.inr hspec)).2
  constructor
  · have hname : filterDisplayName out spec =
        if (if '(' ∈ spec.data then String.mk (spec.data.takeWhile (fun c => c != '('))
            else spec) = ""
        then ", ".intercalate (out.cleanFilterList spec)
        else (if '(' ∈ spec.data then String.mk (spec.data.takeWhile (fun c => c != '('))
              else spec) := by
      unfold filterDisplayName
      dsimp only
      rw [left_indexOf]
    rw [← hname]
    exact key
  · intro name rest h1 h2 h3
    rw [h3] at key ⊢
    rw [filterDisplayName_named out name rest h1 h2] at key
    exact key

/-- C11 for the spec `(*.txt)`, whose name is empty: the filter is named `*.txt`. -/
theorem setNameFilters_display_name_witness :
    "(*.txt)" ∈ ["Images (*.png *.jpg)", "(*.txt)"] ∧
    (hashValue 0 (setNameFilters plainOutside ["Images (*.png *.jpg)", "(*.txt)"]
        newFileDialog)._filters "(*.txt)", "*.txt")
      ∈ (setNameFilters plainOutside ["Images (*.png *.jpg)", "(*.txt)"] newFileDialog).gtk.named :=
  ⟨by decide!, (setNameFilters_display_name plainOutside ["Images (*.png *.jpg)", "(*.txt)"]
    newFileDialog "(*.txt)" (by decide!)).1⟩


/-! ### The two tables are inverse to each other -/

theorem TablesInverse.congr {c0 : Nat} {Q R : String → Prop} {d : FileDialog}
    (hQR : ∀ s, Q s ↔ R s) (h : TablesInverse c0 Q d) : TablesInverse c0 R d where
  forward := fun s hs => h.forward s ((hQR s).mpr hs)
  filtersNew := fun e he => ⟨(hQR _).mp (h.filtersNew e he).1, (h.filtersNew e he).2⟩
  namesNew := fun e he => ⟨(hQR _).mp (h.namesNew e he).1, (h.namesNew e he).2⟩
  wellFormed := h.wellFormed
  base := h.base

theorem addNameFilter_tables (out : Outside) (d : FileDialog) (x : String) (c0 : Nat)
    (Q : String → Prop) (h : TablesInverse c0 Q d) (hx : ¬ Q x) :
    TablesInverse c0 (fun s => Q s ∨ s = x) (addNameFilter out d x) ∧
    (addNameFilter out d x)._filters.length = d._filters.length + 1 ∧
    (addNameFilter out d x)._filterNames.length = d._filterNames.length + 1 := by
  obtain ⟨e1, e2, e3, e4, _⟩ := addNameFilter_step out d x
  have hnewk : ∀ e ∈ d._filters, e.1 ≠ x := fun e he hk => hx (hk ▸ (h.filtersNew e he).1)
  have hnewh : ∀ e ∈ d._filterNames, e.1 ≠ d.gtk.created + 1 := by
    intro e he hk
    have := (h.namesNew e he).2.2.1
    omega
  have hnotin : d.gtk.created + 1 ∉ d.gtk.filters := by
    intro hm
    have := (h.wellFormed _ hm).2
    omega
  rw [hashInsert_new _ _ _ hnewk] at e1
  rw [hashInsert_new _ _ _ hnewh] at e2
  rw [if_neg hnotin] at e4
  have hbase := h.base
  refine ⟨?_, by rw [e1]; rfl, by rw [e2]; rfl⟩
  constructor
  · intro s hs
    rw [e1, e2, e4]
    by_cases hsx : s = x
    · subst hsx
      rw [hashValue_cons, if_pos rfl, hashValue_cons, if_pos rfl]
      exact ⟨Nat.succ_ne_zero _, by simp, rfl⟩
    · have hq : Q s := hs.resolve_right hsx
      obtain ⟨f1, f2, f3⟩ := h.forward s hq
      have hle := (h.wellFormed _ f2).2
      rw [hashValue_cons, if_neg (fun hh => hsx hh.symm), hashValue_cons,
        if_neg (by omega)]
      exact ⟨f1, List.mem_append_left _ f2, f3⟩
  · intro e he
    rw [e1] at he
    rw [e3]
    rcases List.mem_cons.mp he with h1 | h1
    · subst h1
      exact ⟨Or.inr rfl, by show c0 < d.gtk.created + 1; omega, le_refl _⟩
    · obtain ⟨g1, g2, g3⟩ := h.filtersNew e h1
      exact ⟨Or.inl g1, g2, Nat.le_succ_of_le g3⟩
  · intro e he
    rw [e2] at he
    rw [e3, e1]
    rcases List.mem_cons.mp he with h1 | h1
    · subst h1
      refine ⟨Or.inr rfl, by show c0 < d.gtk.created + 1; omega, le_refl _, ?_⟩
      rw [hashValue_cons, if_pos rfl]
    · obtain ⟨g1, g2, g3, g4⟩ := h.namesNew e h1
      refine ⟨Or.inl g1, g2, Nat.le_succ_of_le g3, ?_⟩
      have hne : ¬ x = e.2 := fun hh => hx (hh ▸ g1)
      rw [hashValue_cons, if_neg hne]
      exact g4
  · intro f hf
    rw [e4] at hf
    rw [e3]
    rcases List.mem_append.mp hf with h1 | h1
    · exact ⟨(h.wellFormed f h1).1, Nat.le_succ_of_le (h.wellFormed f h1).2⟩
    · rw [List.mem_singleton.mp h1]
      exact ⟨Nat.succ_ne_zero _, le_refl _⟩
  · rw [e3]
    omega

theorem addNameFilters_tables (out : Outside) (c0 : Nat) : ∀ (L : List String) (d : FileDialog)
    (Q : String → Prop), TablesInverse c0 Q d → L.Nodup → (∀ x ∈ L, ¬ Q x) →
    TablesInverse c0 (fun s => Q s ∨ s ∈ L) (L.foldl (addNameFilter out) d) ∧
    (L.foldl (addNameFilter out) d)._filters.length = d._filters.length + L.length ∧
    (L.foldl (addNameFilter out) d)._filterNames.length = d._filterNames.length + L.length := by
  intro L
  induction L with
  | nil =>
    intro d Q h _ _
    exact ⟨h.congr (fun s => by simp), rfl, rfl⟩
  | cons x L ih =>
    intro d Q h hnd hQ
    rw [List.foldl_cons]
    obtain ⟨hx, hL⟩ := List.nodup_cons.mp hnd
    obtain ⟨s1, s2, s3⟩ := addNameFilter_tables out d x c0 Q h (hQ x (List.mem_cons_self _ _))
    have hQ2 : ∀ y ∈ L, ¬ (Q y ∨ y = x) := by
      intro y hy hq
      rcases hq with hq | hq
      · exact hQ y (List.mem_cons_of_mem _ hy) hq
      · exact hx (hq ▸ hy)
    obtain ⟨r1, r2, r3⟩ := ih (addNameFilter out d x) (fun s => Q s ∨ s = x) s1 hL hQ2
    refine ⟨r1.congr (fun s => ?_), ?_, ?_⟩
    · simp only [List.mem_cons]
      tauto
    · rw [r2, s2, List.length_cons]; omega
    · rw [r3, s3, List.length_cons]; omega

theorem remove_filters_frame : ∀ (es : List (String × Nat)) (g : GtkFileChooser),
    g.WellFormed →
    (es.foldl (fun g e => g.gtk_file_chooser_remove_filter e.2) g).WellFormed ∧
    (es.foldl (fun g e => g.gtk_file_chooser_remove_filter e.2) g).created = g.created := by
  intro es
  induction es with
  | nil => intro g h; exact ⟨h, rfl⟩
  | cons e es ih =>
    intro g h
    rw [List.foldl_cons]
    have h1 : (g.gtk_file_chooser_remove_filter e.2).WellFormed ∧
        (g.gtk_file_chooser_remove_filter e.2).created = g.created := by
      unfold GtkFileChooser.gtk_file_chooser_remove_filter
      by_cases hm : e.2 ∈ g.filters
      · rw [if_pos hm]
        exact ⟨fun f hf => h f (List.mem_of_mem_erase hf), rfl⟩
      · rw [if_neg hm]
        exact ⟨h, rfl⟩
    obtain ⟨r1, r2⟩ := ih _ h1.1
    exact ⟨r1, r2.trans h1.2⟩

theorem setNameFilters_tables (out : Outside) (L : List String) (d : FileDialog)
    (hL : L.Nodup) (hwf : d.gtk.WellFormed) :
    TablesInverse d.gtk.created (fun s => s ∈ L) (setNameFilters out L d) ∧
    (setNameFilters out L d)._filters.length = L.length ∧
    (setNameFilters out L d)._filterNames.length = L.length := by
  unfold setNameFilters
  dsimp only
  obtain ⟨w1, w2⟩ := remove_filters_frame d._filters d.gtk hwf
  have h0 : TablesInverse d.gtk.created (fun _ => False)
      { d with
        gtk := d._filters.foldl (fun g e => g.gtk_file_chooser_remove_filter e.2) d.gtk,
        _filters := [], _filterNames := [] } :=
    { forward := fun _ hf => hf.elim
      filtersNew := fun e he => absurd he (List.not_mem_nil e)
      namesNew := fun e he => absurd he (List.not_mem_nil e)
      wellFormed := w1
      base := le_of_eq w2.symm }
  obtain ⟨r1, r2, r3⟩ := addNameFilters_tables out d.gtk.created L _ _ h0 hL (fun _ _ hf => hf)
  refine ⟨r1.congr (fun s => by simp), ?_, ?_⟩
  · rw [r2]; simp
  · rw [r3]; simp

/-- C10: for pairwise distinct specs `L` and a legacy dialog whose registered
filters are objects created before, after `setNameFilters L` both tables have as
many entries as `L`, every spec of `L` leads to a filter object that leads back
to it, every entry of either table is a spec of `L` paired with an object made
by this call, and `selectNameFilter s` followed by `selectedNameFilter` gives
`s` for every `s` of `L`. -/
theorem setNameFilters_tables_inverse (out : Outside) (L : List String) (d : FileDialog)
    (hL : L.Nodup) (hwf : d.gtk.WellFormed) :
    (setNameFilters out L d)._filters.length = L.length ∧
    (setNameFilters out L d)._filterNames.length = L.length ∧
    (∀ s ∈ L, hashValue 0 (setNameFilters out L d)._filters s ≠ 0 ∧
      hashValue "" (setNameFilters out L d)._filterNames
        (hashValue 0 (setNameFilters out L d)._filters s) = s) ∧
    (∀ e ∈ (setNameFilters out L d)._filters, e.1 ∈ L ∧ d.gtk.created < e.2) ∧
    (∀ e ∈ (setNameFilters out L d)._filterNames, e.2 ∈ L ∧ d.gtk.created < e.1 ∧
      hashValue 0 (setNameFilters out L d)._filters e.2 = e.1) ∧
    (∀ s ∈ L, selectedNameFilter (selectNameFilter s (setNameFilters out L d)) = s) := by
  obtain ⟨t, l1, l2⟩ := setNameFilters_tables out L d hL hwf
  refine ⟨l1, l2, fun s hs => ⟨(t.forward s hs).1, (t.forward s hs).2.2⟩,
    fun e he => ⟨(t.filtersNew e he).1, (t.filtersNew e he).2.1⟩,
    fun e he => ⟨(t.namesNew e he).1, (t.namesNew e he).2.1, (t.namesNew e he).2.2.2⟩, ?_⟩
  intro s hs
  obtain ⟨f1, f2, f3⟩ := t.forward s hs
  unfold selectNameFilter selectedNameFilter
  dsimp only
  rw [if_pos f1]
  unfold GtkFileChooser.gtk_file_chooser_set_filter GtkFileChooser.gtk_file_chooser_get_filter
  rw [if_neg (fun hc => hc.2.2 f2)]
  exact f3

/-- C10 for two specs entered into a new dialog. -/
theorem setNameFilters_tables_inverse_witness :
    ["Images (*.png *.jpg)", "(*.txt)"].Nodup ∧ newFileDialog.gtk.WellFormed ∧
    (setNameFilters plainOutside ["Images (*.png *.jpg)", "(*.txt)"] newFileDialog)._filters.length
      = 2 ∧
    ∀ s ∈ ["Images (*.png *.jpg)", "(*.txt)"],
      selectedNameFilter (selectNameFilter s
        (setNameFilters plainOutside ["Images (*.png *.jpg)", "(*.txt)"] newFileDialog)) = s :=
  ⟨by decide!, fun f hf => absurd hf (List.not_mem_nil f),
    (setNameFilters_tables_inverse plainOutside ["Images (*.png *.jpg)", "(*.txt)"] newFileDialog
      (by decide!) (fun f hf => absurd hf (List.not_mem_nil f))).1,
    (setNameFilters_tables_inverse plainOutside ["Images (*.png *.jpg)", "(*.txt)"] newFileDialog
      (by decide!) (fun f hf => absurd hf (List.not_mem_nil f))).2.2.2.2.2⟩

/-! ### The event queue -/

theorem applyTheme_queue (tk : Toolkit) (engine : ThemeEngine) (a a' : App)
    (h : applyTheme tk engine a = some a') : a'.queue = a.queue := by
  unfold applyTheme at h
  simp only [getThemeName] at h
  by_cases hi : a.instances = []
  · simp only [hi, List.isEmpty_nil, Bool.not_true, Bool.false_eq_true, if_false,
      Option.some.injEq] at h
    subst h
    rfl
  · have hne : (!a.instances.isEmpty) = true := by
      cases hl : a.instances with
      | nil => exact absurd hl hi
      | cons x xs => rfl
    simp only [hne, if_true] at h
    split at h
    · cases h
    · rename_i b hb
      obtain ⟨st', p₁, p₂, p₃, hb'⟩ := applyCustomPaletteHash_frame _ _ _ hb
      simp only [Option.some.injEq] at h
      subst h
      subst hb'
      rfl

theorem applyTheme_clears (tk : Toolkit) (engine : ThemeEngine) (a a' : App)
    (h : applyTheme tk engine a = some a') :
    a'.trace.countP Effect.isPixmapCacheClear = a.trace.countP Effect.isPixmapCacheClear := by
  rcases (applyTheme_some tk engine a a' h).2 with ⟨_, ht⟩ | ⟨_, p₁, p₂, p₃, ht⟩
  · rw [ht]
    simp [List.countP_append, List.countP_cons, Effect.isPixmapCacheClear]
  · rw [ht]
    simp [List.countP_append, List.countP_cons, Effect.isPixmapCacheClear]

/-- A run of `updateTheme` that completes leaves the event queue as it is and
clears the pixmap cache once. -/
theorem updateTheme_run (tk : Toolkit) (engine : ThemeEngine) (stylePath : String)
    (app app' : App) (h : updateTheme tk engine stylePath app = some app') :
    app'.queue = app.queue ∧
    app'.trace.countP Effect.isPixmapCacheClear
      = app.trace.countP Effect.isPixmapCacheClear + 1 := by
  unfold updateTheme at h
  simp only [updateFont_eq, getThemeName] at h
  split at h
  · cases h
  · rename_i b hb
    simp only [Option.some.injEq] at h
    subst h
    have hfont : ∀ (c : Prop) [Decidable c] (f : QFont),
        (if c then [Effect.setFont f] else []).countP Effect.isPixmapCacheClear = 0 := by
      intro c _ f
      by_cases hc : c <;> simp [hc, Effect.isPixmapCacheClear]
    split at hb
    · have hq := applyTheme_queue _ _ _ _ hb
      have hc := applyTheme_clears _ _ _ _ hb
      refine ⟨hq, ?_⟩
      show (b.trace ++ [Effect.updateSystemTheme]).countP _ = _
      rw [List.countP_append, hc]
      simp [List.countP_append, List.countP_cons, Effect.isPixmapCacheClear, hfont]
    · simp only [Option.some.injEq] at hb
      subst hb
      refine ⟨rfl, ?_⟩
      simp [List.countP_append, List.countP_cons, Effect.isPixmapCacheClear, hfont]

theorem processEvents_runs (tk : Toolkit) (engine : ThemeEngine) (stylePath : String) :
    ∀ (k : Nat) (app app' : App), app.queue = List.replicate k "updateTheme" →
    processEvents tk engine stylePath k app = some app' →
    app'.queue = [] ∧
    app'.trace.countP Effect.isPixmapCacheClear
      = app.trace.countP Effect.isPixmapCacheClear + k := by
  intro k
  induction k with
  | zero =>
    intro app app' hq h
    rw [processEvents] at h
    simp only [Option.some.injEq] at h
    subst h
    exact ⟨hq, rfl⟩
  | succ k ih =>
    intro app app' hq h
    rw [processEvents] at h
    have hnext : processNext tk engine stylePath app =
        updateTheme tk engine stylePath { app with queue := List.replicate k "updateTheme" } := by
      unfold processNext
      rw [hq, List.replicate_succ]
      simp
    rw [hnext] at h
    split at h
    · rename_i a1 h1
      obtain ⟨q1, c1⟩ := updateTheme_run _ _ _ _ _ h1
      obtain ⟨q2, c2⟩ := ih a1 app' q1 h
      refine ⟨q2, ?_⟩
      rw [c2, c1]
      show app.trace.countP _ + 1 + k = _
      omega
    · cases h

theorem styleSet_queue (k : Nat) (app : App) :
    (gtkStyleSetCallback^[k] app).queue = app.queue ++ List.replicate k "updateTheme" ∧
    (gtkStyleSetCallback^[k] app).trace = app.trace := by
  induction k with
  | zero => simp
  | succ k ih =>
    rw [Function.iterate_succ_apply']
    constructor
    · show (gtkStyleSetCallback^[k] app).queue ++ ["updateTheme"] = _
      rw [ih.1, List.replicate_succ', List.append_assoc]
    · exact ih.2

/-- C21, amended: `k` deliveries of the style-change signal to an application
with an empty event queue leave `k` posted invocations, one for each signal,
and when the event loop has taken them all and every run completed, the queue
is empty and `updateTheme` has run `k` times (the pixmap cache was cleared `k`
more times): once exactly for `k = 1`. -/
theorem styleSet_one_run_per_signal (tk : Toolkit) (engine : ThemeEngine) (stylePath : String)
    (k : Nat) (app app' : App) (hq : app.queue = [])
    (h : processEvents tk engine stylePath k (gtkStyleSetCallback^[k] app) = some app') :
    (gtkStyleSetCallback^[k] app).queue = List.replicate k "updateTheme" ∧
    app'.queue = [] ∧
    app'.trace.countP Effect.isPixmapCacheClear
      = app.trace.countP Effect.isPixmapCacheClear + k := by
  have hk := styleSet_queue k app
  rw [hq, List.nil_append] at hk
  obtain ⟨q, c⟩ := processEvents_runs tk engine stylePath k _ app' hk.1 h
  rw [hk.2] at c
  exact ⟨hk.1, q, c⟩

/-- C21, amended, for three signals to the sample application. -/
theorem styleSet_one_run_per_signal_witness :
    ∃ app', (sampleApp [1]).queue = [] ∧
      processEvents gtk2 plainEngine "GtkWindow" 3 (gtkStyleSetCallback^[3] (sampleApp [1]))
        = some app' ∧
      app'.queue = [] ∧ app'.trace.countP Effect.isPixmapCacheClear = 3 := by
  obtain ⟨app', h⟩ := Option.isSome_iff_exists.mp
    (show (processEvents gtk2 plainEngine "GtkWindow" 3
      (gtkStyleSetCallback^[3] (sampleApp [1]))).isSome = true by decide!)
  have hq : (sampleApp [1]).queue = [] := rfl
  obtain ⟨_, q, c⟩ :=
    styleSet_one_run_per_signal gtk2 plainEngine "GtkWindow" 3 (sampleApp [1]) app' hq h
  exact ⟨app', hq, h, q, by rw [c]; rfl⟩

/-- C21 fails for two signals: both are posted, and draining the queue runs
`updateTheme` twice. -/
theorem styleSet_twice_counterexample :
    (gtkStyleSetCallback (gtkStyleSetCallback (sampleApp [1]))).queue
      = ["updateTheme", "updateTheme"] ∧
    (processEvents gtk2 plainEngine "GtkWindow" 2
      (gtkStyleSetCallback (gtkStyleSetCallback (sampleApp [1])))).map
      (fun a => (a.queue.length, a.trace.countP Effect.isPixmapCacheClear)) = some (0, 2) := by
  decide!

/-! ### Repeated filter specs -/

/-- C23 at the failing input: after `setNameFilters` with the same spec twice two
filters are registered and the forward table has the second only; the next
`setNameFilters` removes that one, so filter `1` of the earlier call stays
registered beside the new filter `3`. -/
theorem setNameFilters_repeated_spec :
    repeatedDialog.gtk.filters = [1, 2] ∧
    repeatedDialog._filters = [("Images (*.png)", 2)] ∧
    (setNameFilters plainOutside ["Text (*.txt)"] repeatedDialog).gtk.filters = [1, 3] ∧
    (setNameFilters plainOutside ["Text (*.txt)"] repeatedDialog)._filters
      = [("Text (*.txt)", 3)] := by
  decide!

/-! ### The colour dialog -/

/-- C24, amended: for every state of the colour selection and every colour `c`
of four 8-bit channels, `currentColor` after `setCurrentColor c` has the red,
green and blue of `c`; its alpha is the alpha of `c` when that is below 255, and
otherwise what the widget answered before: the alpha it holds when it has an
opacity control, 255 when it has none.  So the colour read back is `c` when `c`
is not opaque or the widget has no opacity control. -/
theorem currentColor_setCurrentColor (g : GtkColorSelection) (c : QColorA)
    (hr : c.red < 256) (hg : c.green < 256) (hb : c.blue < 256) (ha : c.alpha < 256) :
    (currentColor (setCurrentColor c g)).red = c.red ∧
    (currentColor (setCurrentColor c g)).green = c.green ∧
    (currentColor (setCurrentColor c g)).blue = c.blue ∧
    (currentColor (setCurrentColor c g)).alpha =
      (if c.alpha < 255 then c.alpha
       else if g.hasOpacityControl then g.alpha >>> 8 else 255) ∧
    ((c.alpha < 255 ∨ g.hasOpacityControl = false) → currentColor (setCurrentColor c g) = c) := by
  have hshift : ∀ v : Nat, v < 256 → ((v <<< 8) % 65536) >>> 8 = v := by
    intro v hv
    rw [Nat.shiftLeft_eq, Nat.shiftRight_eq_div_pow]
    omega
  have hrgb : (currentColor (setCurrentColor c g)).red = c.red ∧
      (currentColor (setCurrentColor c g)).green = c.green ∧
      (currentColor (setCurrentColor c g)).blue = c.blue := by
    unfold currentColor setCurrentColor
    by_cases hlt : c.alpha < 255
    · simp only [hlt, if_true]
      exact ⟨hshift _ hr, hshift _ hg, hshift _ hb⟩
    · simp only [hlt, if_false]
      exact ⟨hshift _ hr, hshift _ hg, hshift _ hb⟩
  have halpha : (currentColor (setCurrentColor c g)).alpha =
      (if c.alpha < 255 then c.alpha
       else if g.hasOpacityControl then g.alpha >>> 8 else 255) := by
    unfold currentColor setCurrentColor
    by_cases hlt : c.alpha < 255
    · simp only [hlt, if_true]
      exact hshift _ ha
    · simp only [hlt, if_false]
      show (if g.hasOpacityControl = true then g.alpha else 65535) >>> 8 = _
      by_cases ho : g.hasOpacityControl = true
      · simp only [ho, if_true]
      · simp only [ho, if_false, Bool.false_eq_true]
        decide
  refine ⟨hrgb.1, hrgb.2.1, hrgb.2.2, halpha, fun hcase => ?_⟩
  have h255 : (currentColor (setCurrentColor c g)).alpha = c.alpha := by
    rw [halpha]
    by_cases hlt : c.alpha < 255
    · rw [if_pos hlt]
    · rw [if_neg hlt]
      have ho : g.hasOpacityControl = false := hcase.resolve_left hlt
      rw [ho]
      simp only [Bool.false_eq_true, if_false]
      omega
  cases hcc : currentColor (setCurrentColor c g) with
  | mk r gr b a =>
    rw [hcc] at hrgb h255
    cases c
    simp only at hrgb h255
    simp only [QColorA.mk.injEq]
    exact ⟨hrgb.1, hrgb.2.1, hrgb.2.2, h255⟩

/-- C24, amended, for a half transparent colour set on a new widget. -/
theorem currentColor_setCurrentColor_witness :
    (currentColor (setCurrentColor ⟨10, 20, 30, 128⟩ newColorSelection)).alpha = 128 ∧
    currentColor (setCurrentColor ⟨10, 20, 30, 128⟩ newColorSelection) = ⟨10, 20, 30, 128⟩ :=
  ⟨(currentColor_setCurrentColor newColorSelection ⟨10, 20, 30, 128⟩
      (by decide) (by decide) (by decide) (by decide)).2.2.2.1,
   (currentColor_setCurrentColor newColorSelection ⟨10, 20, 30, 128⟩
      (by decide) (by decide) (by decide) (by decide)).2.2.2.2 (Or.inl (by decide))⟩

/-- C24 fails for an opaque colour after a half transparent one: the alpha read
back is 128, the alpha of the earlier call. -/
theorem currentColor_opaque_counterexample :
    currentColor (setCurrentColor ⟨10, 20, 30, 255⟩
      (setCurrentColor ⟨10, 20, 30, 128⟩ newColorSelection)) = ⟨10, 20, 30, 128⟩ ∧
    currentColor (setCurrentColor ⟨10, 20, 30, 255⟩
      (setCurrentColor ⟨10, 20, 30, 128⟩ newColorSelection)) ≠ ⟨10, 20, 30, 255⟩ := by
  decide!

/-! ### A rebuild keeps the top-level entries -/

theorem WidgetMap.find_erase_ne (m : WidgetMap) {p q : String} (h : p ≠ q) :
    (m.erase q).find p = m.find p := by
  induction m with
  | nil => rfl
  | cons e m ih =>
    rw [WidgetMap.erase_cons]
    by_cases he : e.key.str = q
    · have hqp : (e.key.str == p) = false := by
        rw [he]; exact beq_false_of_ne (Ne.symm h)
      rw [if_pos he]
      simp only [WidgetMap.find, List.find?_cons, hqp]
    · simp only [he, if_false]
      by_cases hp : e.key.str = p
      · simp [WidgetMap.find, List.find?_cons, hp]
      · simpa [WidgetMap.find, List.find?_cons, hp] using ih

theorem owns_cons_self (key : QHashableLatin1Literal) (w : Nat) (m : WidgetMap) :
    WidgetMap.contains ({ key := key, value := w } :: m) key.str = true ∧
    WidgetMap.value ({ key := key, value := w } :: m) key.str = w := by
  simp [WidgetMap.contains, WidgetMap.value, WidgetMap.find, List.find?_cons]

theorem owns_cons_erase (e : Entry) (m : WidgetMap) (k : String) (h : e.key.str ≠ k) :
    WidgetMap.contains (e :: m.erase e.key.str) k = m.contains k ∧
    WidgetMap.value (e :: m.erase e.key.str) k = m.value k := by
  have hf : WidgetMap.find (e :: m.erase e.key.str) k = m.find k := by
    have hb : (e.key.str == k) = false := beq_false_of_ne h
    rw [← WidgetMap.find_erase_ne m (Ne.symm h)]
    simp only [WidgetMap.find, List.find?_cons, hb]
  simp only [WidgetMap.contains, WidgetMap.value, hf]
  exact ⟨trivial, trivial⟩

theorem sole_of_sameWorld {k : String} {w : Nat} {s t : St} (h : Sole k w s)
    (hw : SameWorld s t) : Sole k w t := by
  intro x hx hk
  exact h x (by rw [← isWidget_congr hw.1]; exact hx) (by rw [← classPath_congr hw.1]; exact hk)

theorem owns_addWidgetToMap {k : String} {w : Nat} {pending : List Nat} {s : St} (x : Nat)
    (hi : Inv pending s) (hs : Sole k w s) :
    (Owns k w s → Owns k w (addWidgetToMap x s)) ∧
    (x = w → s.gtk.isWidget w = true → (classPath w s).1.str = k →
      Owns k w (addWidgetToMap x s)) := by
  by_cases hx : s.gtk.isWidget x = true
  · have hmap := map_addWidgetToMap x hi hx
    have hself := owns_cons_self { data := s.heap.next, str := (classPath x s).1.str } x
      (s.map.erase (classPath x s).1.str)
    constructor
    · intro ho
      unfold Owns
      rw [hmap]
      by_cases hk : (classPath x s).1.str = k
      · have hxw := hs x hx hk
        rw [hk] at hself ⊢
        rw [hxw] at hself ⊢
        exact hself
      · have := owns_cons_erase (⟨⟨s.heap.next, (classPath x s).1.str⟩, x⟩ : Entry) s.map k hk
        rw [this.1, this.2]
        exact ho
    · intro hxw _ hk
      subst hxw
      unfold Owns
      rw [hmap]
      rw [hk] at hself ⊢
      exact hself
  · have : addWidgetToMap x s = s := by
      unfold addWidgetToMap
      rw [if_neg hx]
    rw [this]
    exact ⟨id, fun hxw hw _ => absurd (hxw ▸ hw) hx⟩

mutual
theorem owns_addAllSubWidgetsNode {k : String} {w : Nat} : ∀ (n : GtkNode) (pending : List Nat)
    (s : St), Inv pending s → Sole k w s → Owns k w s → Owns k w (addAllSubWidgetsNode n s)
  | .mk h _ c kids, pending, s, hi, hs, ho => by
    rw [addAllSubWidgetsNode]
    have h1 := (owns_addWidgetToMap h hi hs).1 ho
    cases c
    · exact h1
    · exact owns_addAllSubWidgetsEach kids pending ((addWidgetToMap h s).call Gtk.tick)
        (inv_call Gtk.tick (inv_addWidgetToMap h hi))
        (sole_of_sameWorld hs ((sameWorld_addWidgetToMap h s).trans ⟨Eq.refl _, Eq.refl _, Eq.refl _⟩))
        h1
theorem owns_addAllSubWidgetsEach {k : String} {w : Nat} : ∀ (ns : List GtkNode)
    (pending : List Nat) (s : St), Inv pending s → Sole k w s → Owns k w s →
    Owns k w (addAllSubWidgetsEach ns s)
  | [], _, s, _, _, ho => by
    rw [addAllSubWidgetsEach]
    exact ho
  | n :: ns, pending, s, hi, hs, ho => by
    rw [addAllSubWidgetsEach]
    exact owns_addAllSubWidgetsEach ns pending _ (inv_addAllSubWidgetsNode n pending s hi)
      (sole_of_sameWorld hs (sameWorld_addAllSubWidgetsNode n s))
      (owns_addAllSubWidgetsNode n pending s hi hs ho)
end

theorem owns_addAllSubWidgets {k : String} {w : Nat} {pending : List Nat} {s : St} (x : Nat)
    (hi : Inv pending s) (hs : Sole k w s) :
    (Owns k w s → Owns k w (addAllSubWidgets x s)) ∧
    (x = w → s.gtk.isWidget w = true → (classPath w s).1.str = k →
      Owns k w (addAllSubWidgets x s)) := by
  unfold addAllSubWidgets
  cases hn : s.gtk.node x with
  | none =>
    refine ⟨id, fun hxw hw _ => ?_⟩
    subst hxw
    unfold Gtk.isWidget at hw
    rw [hn] at hw
    simp at hw
  | some n =>
    by_cases hx0 : x = 0
    · simp only [hx0, if_true]
      exact ⟨id, fun hxw hw _ => absurd hxw.symm (isWidget_ne_zero hw)⟩
    · simp only [hx0, if_false]
      refine ⟨owns_addAllSubWidgetsNode n pending s hi hs, fun hxw hw hk => ?_⟩
      have hh : n.handle = x := findIn_handle _ _ _ hn
      cases n with
      | mk h cls c kids =>
        have hh' : h = x := hh
        subst hh'
        rw [addAllSubWidgetsNode]
        have h1 := (owns_addWidgetToMap h hi hs).2 hxw hw hk
        cases c
        · exact h1
        · exact owns_addAllSubWidgetsEach kids pending ((addWidgetToMap h s).call Gtk.tick)
            (inv_call Gtk.tick (inv_addWidgetToMap h hi))
            (sole_of_sameWorld hs
              ((sameWorld_addWidgetToMap h s).trans ⟨Eq.refl _, Eq.refl _, Eq.refl _⟩))
            h1

/-- The loop of the rebuild gives the path `k` back to widget `w` when the old
hash had it for `w`, the live widget that alone has the class path `k`. -/
theorem owns_rebuildEach {k : String} {w : Nat} (hdot : k.data.contains '.' = false) :
    ∀ (es : List Entry) (s : St),
    Inv (es.map (fun e => e.key.data)) s → Sole k w s →
    s.gtk.isWidget w = true → (classPath w s).1.str = k →
    (Owns k w s ∨ ∃ e ∈ es, e.key.str = k ∧ e.value = w) →
    Owns k w (rebuildEach es s)
  | [], s, _, _, _, _, hc => by
    rw [rebuildEach]
    rcases hc with hc | ⟨e, he, _⟩
    · exact hc
    · simp at he
  | e :: es, s, hi, hs, hw, hk, hc => by
    rw [rebuildEach]
    by_cases hd : (e.key.str.data.contains '.') = true
    · simp only [hd, Bool.not_true, Bool.false_eq_true, if_false]
      have hne : e.key.str ≠ k := by
        intro hek
        rw [hek, hdot] at hd
        exact absurd hd (by decide)
      refine owns_rebuildEach hdot es _ (inv_free hi) hs hw hk ?_
      rcases hc with hc | ⟨x, hx, hxk⟩
      · exact Or.inl hc
      · rcases List.mem_cons.mp hx with rfl | hx
        · exact absurd hxk.1 hne
        · exact Or.inr ⟨x, hx, hxk⟩
    · simp only [hd, Bool.not_false, if_true]
      have h1 := owns_addAllSubWidgets (k := k) (w := w) e.value hi hs
      have hsw := sameWorld_addAllSubWidgets e.value s
      have hsw' : SameWorld s (free e.key.data (addAllSubWidgets e.value s)) :=
        hsw.trans ⟨Eq.refl _, Eq.refl _, Eq.refl _⟩
      refine owns_rebuildEach hdot es _ (inv_free (inv_addAllSubWidgets e.value hi))
        (sole_of_sameWorld hs hsw')
        (by rw [isWidget_congr hsw'.1]; exact hw)
        (by rw [classPath_congr hsw'.1]; exact hk) ?_
      rcases hc with hc | ⟨x, hx, hxk⟩
      · exact Or.inl (h1.1 hc)
      · rcases List.mem_cons.mp hx with rfl | hx
        · exact Or.inl (h1.2 hxk.2 hw hk)
        · exact Or.inr ⟨x, hx, hxk⟩


mutual
theorem find_mem_handles : ∀ (n : GtkNode) (w : Nat),
    (GtkNode.find w n).isSome = true → w ∈ n.handles
  | .mk h cls c kids, w, hf => by
    rw [GtkNode.find] at hf
    rw [GtkNode.handles]
    by_cases hw : h = w
    · exact hw ▸ List.mem_cons_self _ _
    · rw [if_neg hw] at hf
      exact List.mem_cons_of_mem _ (findIn_mem_handles kids w hf)
theorem findIn_mem_handles : ∀ (ns : List GtkNode) (w : Nat),
    (GtkNode.findIn w ns).isSome = true → w ∈ GtkNode.handlesIn ns
  | [], _, hf => by simp [GtkNode.findIn] at hf
  | n :: ns, w, hf => by
    rw [GtkNode.findIn] at hf
    rw [GtkNode.handlesIn]
    cases hn : GtkNode.find w n with
    | some x =>
      exact List.mem_append_left _ (find_mem_handles n w (by rw [hn]; rfl))
    | none =>
      rw [hn] at hf
      exact List.mem_append_right _ (findIn_mem_handles ns w hf)
end

theorem isWidget_mem_handles {g : Gtk} {w : Nat} (h : g.isWidget w = true) :
    w ∈ GtkNode.handlesIn g.roots := by
  unfold Gtk.isWidget Gtk.node at h
  simp only [Bool.and_eq_true] at h
  exact findIn_mem_handles _ _ h.2

theorem findIn_append_none (w : Nat) (l₁ l₂ : List GtkNode)
    (h : GtkNode.findIn w l₁ = none) :
    GtkNode.findIn w (l₁ ++ l₂) = GtkNode.findIn w l₂ := by
  induction l₁ with
  | nil => rfl
  | cons n ns ih =>
    rw [List.cons_append, GtkNode.findIn]
    rw [GtkNode.findIn] at h
    cases hn : GtkNode.find w n with
    | some x => rw [hn] at h; cases h
    | none => rw [hn] at h; exact ih h

theorem pathToIn_append_none (w : Nat) (l₁ l₂ : List GtkNode)
    (h : GtkNode.pathToIn w l₁ = none) :
    GtkNode.pathToIn w (l₁ ++ l₂) = GtkNode.pathToIn w l₂ := by
  induction l₁ with
  | nil => rfl
  | cons n ns ih =>
    rw [List.cons_append, GtkNode.pathToIn]
    rw [GtkNode.pathToIn] at h
    cases hn : GtkNode.pathTo w n with
    | some x => rw [hn] at h; cases h
    | none => rw [hn] at h; exact ih h

/-- A widget that came with a new, empty window is that window, and its class
path is `GtkWindow`. -/
theorem new_window_classPath {s t : St} (c : Bool) (h : Nat)
    (hroots : t.gtk.roots = s.gtk.roots ++ [.mk h "GtkWindow" c []]) (x : Nat)
    (hold : s.gtk.isWidget x = false) (hnew : t.gtk.isWidget x = true) :
    (classPath x t).1.str = "GtkWindow" := by
  have hx0 : x ≠ 0 := isWidget_ne_zero hnew
  have hnone : GtkNode.findIn x s.gtk.roots = none := by
    unfold Gtk.isWidget Gtk.node at hold
    cases hf : GtkNode.findIn x s.gtk.roots with
    | none => rfl
    | some r =>
      rw [hf] at hold
      simp [hx0] at hold
  have hpnone : GtkNode.pathToIn x s.gtk.roots = none := by
    have := pathToIn_isSome s.gtk.roots x
    rw [hnone] at this
    cases hp : GtkNode.pathToIn x s.gtk.roots with
    | none => rfl
    | some p => rw [hp] at this; cases this
  have hfind : (GtkNode.findIn x [GtkNode.mk h "GtkWindow" c []]).isSome = true := by
    unfold Gtk.isWidget Gtk.node at hnew
    rw [hroots, findIn_append_none _ _ _ hnone] at hnew
    simp only [Bool.and_eq_true] at hnew
    exact hnew.2
  have hxh : h = x := by
    by_contra hne
    simp [GtkNode.findIn, GtkNode.find, hne] at hfind
  have hpath : GtkNode.pathToIn x t.gtk.roots = some ["GtkWindow"] := by
    rw [hroots, pathToIn_append_none _ _ _ hpnone]
    simp [GtkNode.pathToIn, GtkNode.pathTo, hxh]
  unfold classPath St.ask Gtk.gtk_widget_path strdup
  simp only [hpath]
  decide

theorem WidgetMap.mem_erase_of_ne {m : WidgetMap} {e : Entry} {q : String} (he : e ∈ m)
    (hq : e.key.str ≠ q) : e ∈ m.erase q := by
  unfold WidgetMap.erase
  exact (List.mem_eraseP_of_neg (by simpa using hq)).mpr he

/-- C22, amended: on a cache whose next `initGtkWidgets` is a rebuild, under a
toolkit whose new window is empty, every path `k` without a dot other than
`GtkWindow` that the cache has for a live widget `w` with class path `k`, the only
live widget with this class path, is still in the cache after the rebuild, and
the lookup gives `w` as before. -/
theorem rebuild_keeps_top_level (tk : Toolkit) (s : St) (k : String) (w : Nat)
    (hreb : Rebuildable s) (hwin : tk.internals "GtkWindow" = [])
    (hdot : k.data.contains '.' = false) (hk : k ≠ "GtkWindow")
    (hc : s.map.contains k = true) (hv : s.map.value k = w)
    (hlive : s.gtk.isWidget w = true) (hpath : (classPath w s).1.str = k)
    (hsole : ∀ x, s.gtk.isWidget x = true → (classPath x s).1.str = k → x = w) :
    (initGtkWidgets tk s).map.contains k = true ∧ (initGtkWidgets tk s).map.value k = w := by
  obtain ⟨⟨hu, hgid⟩, hinv, hcb, _⟩ := hreb
  unfold initGtkWidgets
  have hgate : (s.proc.ruid != s.proc.euid || s.proc.rgid != s.proc.egid) = false := by
    simp [hu, hgid]
  rw [if_neg (by rw [hgate]; simp)]
  lift_lets
  intro s1 gtkWindow s2 widgetPath s3 s4 s5 s6
  have h2w : Inv [widgetPath.1.data] widgetPath.2 := inv_strdup "GtkWindow" hinv
  have h3 := inv_removeWidgetFromMap "GtkWindow" h2w
  have hne : gtkWindow.1 ≠ 0 := Nat.succ_ne_zero s1.gtk.created
  have h4 : Inv [] s4 := inv_mapInsert h3.1 h3.2 hne
  have h5 : Inv [] s5 := by
    show Inv [] (if s4.rightToLeft then _ else _)
    split <;> exact h4
  have h6 : Inv [] s6 := inv_gtkWidgetMap h5
  have hw4 : SameWorld widgetPath.2 s4 :=
    (sameWorld_removeWidgetFromMap _ _).trans (sameWorld_mapInsert _ _ _)
  have hw5 : SameWorld s4 s5 := by
    show SameWorld s4 (if s4.rightToLeft then _ else _)
    split
    · exact ⟨Eq.refl _, Eq.refl _, Eq.refl _⟩
    · exact SameWorld.rfl _
  have hw6 : SameWorld widgetPath.2 s6 := (hw4.trans hw5).trans (sameWorld_gtkWidgetMap _)
  have hroots0 : s6.gtk.roots = s.gtk.roots ++
      [(Shape.build (.mk "GtkWindow" (tk.container "GtkWindow") (tk.internals "GtkWindow"))
        s.gtk.created).1] := hw6.1
  have hroots : s6.gtk.roots = s.gtk.roots ++
      [.mk (s.gtk.created + 1) "GtkWindow" (tk.container "GtkWindow") []] := by
    rw [hroots0, hwin]
    rfl
  have hmap4 : s4.map = { key := widgetPath.1, value := gtkWindow.1 } ::
      s.map.erase "GtkWindow" := by
    show (mapInsert widgetPath.1 gtkWindow.1 s3).map = _
    rw [map_mapInsert, WidgetMap.insert]
    have : s3.map.contains widgetPath.1.str = false := h3.2
    rw [this]
    simp only [Bool.false_eq_true, if_false]
    show _ :: (removeWidgetFromMap "GtkWindow" widgetPath.2).map = _
    rw [map_removeWidgetFromMap]
    rfl
  have hmap5 : s5.map = s4.map := by
    show (if s4.rightToLeft then _ else _ : St).map = _
    split <;> rfl
  have hmap6 : s6.map = { key := widgetPath.1, value := gtkWindow.1 } ::
      s.map.erase "GtkWindow" := by
    show (gtkWidgetMap s5).map = _
    rw [map_gtkWidgetMap, hmap5, hmap4]
  have hc6 : s6.map.contains "GtkButton" = true := by
    have := WidgetMap.contains_erase_ne s.map (p := "GtkButton") (q := "GtkWindow") (by decide)
    rw [hcb] at this
    rw [hmap6]
    have hkb : (widgetPath.1.str == "GtkButton") = false := by
      show (("GtkWindow" : String) == "GtkButton") = false
      decide
    simpa [WidgetMap.contains, WidgetMap.find, List.find?_cons, hkb] using this
  -- the widget of `k` is still the only one with this class path
  have hsole6 : Sole k w s6 := by
    intro x hx hxk
    by_cases hold : s.gtk.isWidget x = true
    · exact hsole x hold (by rw [← classPath_append _ hroots x hold]; exact hxk)
    · have hold' : s.gtk.isWidget x = false := by simpa using hold
      have := new_window_classPath (s := s) (t := s6) _ _ hroots x hold' hx
      rw [this] at hxk
      exact absurd hxk.symm hk
  have hlive6 : s6.gtk.isWidget w = true := isWidget_append _ hroots _ hlive
  have hpath6 : (classPath w s6).1.str = k := by
    rw [classPath_append _ hroots _ hlive]; exact hpath
  -- the old hash has the entry
  obtain ⟨e, he⟩ := Option.isSome_iff_exists.mp hc
  have hev : e.value = w := by
    unfold WidgetMap.value at hv
    rw [he] at hv
    exact hv
  have hmem6 : e ∈ s6.map := by
    rw [hmap6]
    exact List.mem_cons_of_mem _ (WidgetMap.mem_erase_of_ne (WidgetMap.find_some_mem he).1
      (by rw [(WidgetMap.find_some_mem he).2]; exact hk))
  show Owns k w (if (!s6.map.contains "GtkButton") = true then _
    else rebuildEach s6.map { s6 with widgetMap := some [] })
  rw [if_neg (by rw [hc6]; simp)]
  generalize hs7 : ({ s6 with widgetMap := some [] } : St) = s7
  have hi7 : Inv (s6.map.map (fun e => e.key.data)) s7 := by
    subst hs7
    refine ⟨h6.1, ?_, h6.2.2.1, h6.2.2.2.1, List.nodup_nil, ?_⟩
    · simpa [St.map] using h6.2.1
    · intro e he; simp [St.map] at he
  have hw7 : SameWorld s6 s7 := by
    subst hs7
    exact ⟨Eq.refl _, Eq.refl _, Eq.refl _⟩
  exact owns_rebuildEach hdot s6.map s7 hi7 (sole_of_sameWorld hsole6 hw7)
    (by rw [isWidget_congr hw7.1]; exact hlive6)
    (by rw [classPath_congr hw7.1]; exact hpath6)
    (Or.inr ⟨e, hmem6, (WidgetMap.find_some_mem he).2, hev⟩)

/-- C22, amended, for the path `GtkButton` of the sample cache. -/
theorem rebuild_keeps_top_level_witness :
    sampleSt.map.value "GtkButton" = 2 ∧
    (initGtkWidgets gtk2 sampleSt).map.contains "GtkButton" = true ∧
    (initGtkWidgets gtk2 sampleSt).map.value "GtkButton" = 2 := by
  have hp : sampleSt.proc.ruid = sampleSt.proc.euid ∧ sampleSt.proc.rgid = sampleSt.proc.egid := by
    decide!
  have hi : Inv [] sampleSt := inv_initGtkWidgets gtk2 (inv_init _ _)
  have hall : (GtkNode.handlesIn sampleSt.gtk.roots).all
      (fun x => !((classPath x sampleSt).1.str == "GtkButton") || x == 2) = true := by decide!
  have hsole : ∀ x, sampleSt.gtk.isWidget x = true →
      (classPath x sampleSt).1.str = "GtkButton" → x = 2 := by
    intro x hx hxk
    have := List.all_eq_true.mp hall x (isWidget_mem_handles hx)
    simpa [hxk] using this
  exact ⟨by decide!, rebuild_keeps_top_level gtk2 sampleSt "GtkButton" 2
    ⟨hp, hi, buttonKept_sample⟩ (by simp [gtk2]) (by decide) (by decide) (by decide!) (by decide!)
    (by decide!) (by decide!) hsole⟩

/-- C22 fails for two of the paths it names: after a rebuild of the sample
cache the path `GtkContainer` is gone, and the lookup of `GtkWindow` gives the
window the rebuild made, widget 42, not widget 1. -/
theorem rebuild_loses_container_counterexample :
    "GtkContainer".data.contains '.' = false ∧
    sampleSt.map.contains "GtkContainer" = true ∧
    (initGtkWidgets gtk2 sampleSt).map.contains "GtkContainer" = false ∧
    "GtkWindow".data.contains '.' = false ∧
    sampleSt.map.value "GtkWindow" = 1 ∧
    (initGtkWidgets gtk2 sampleSt).map.value "GtkWindow" = 42 := by
  decide!

end QGtk
